import Mathlib

/-!
# Rollapp registry of the dymension hub: identity uniqueness, forks and updates

A shallow embedding of `x/rollapp/keeper/rollapp.go`.  The keeper's two prefix
stores (records by id, ids by EIP155 number) are association lists kept in
ascending key order, the codec is the identity (a record is decoded as it was
encoded), machine integers are naturals reduced modulo `2 ^ 64` where the code
can wrap, and a Go call that may panic returns a `Result`.

Around the registry: the hook of `x/sequencer/keeper/hook_listener.go`, the method
`GetRollapp` of `x/rollapp/types/message_create_rollapp.go`, the keys of
`x/sponsorship/types/keys.go`, and the varint routines of
`x/incentives/types/genesis.pb.go`, where a buffer is a list of bytes.
-/

namespace Dymension

/-! ## Results and errors -/

/-- A Go call either returns a value or panics. -/
inductive Result (α : Type) where
  | ret (a : α)
  | panic
deriving DecidableEq, Repr

/-- The sentinel errors the keeper returns, and the two ways it wraps them.
`wrap cause msg` stands for `errorsmod.Wrap(f)(cause, msg)` and for
`fmt.Errorf("msg: %w", cause)`; `other msg` is an `errors.New(msg)` or an error of
an external collaborator. -/
inductive Error where
  | ErrRollappNotFound
  | ErrUnauthorized
  | ErrRollappFrozen
  | ErrImmutableFieldUpdateAfterLaunched
  | ErrGenesisInfoSealed
  | ErrRollappExists
  | ErrInvalidRollappID
  | ErrFailedPrecondition
  | ErrNotFound
  | ErrUnknownRollappID
  | wrap (cause : Error) (msg : String)
  | other (msg : String)
deriving DecidableEq, Repr

/-- The test `errors.Is(err, target)`: `err` is `target` or wraps it. -/
def Error.Is : Error → Error → Bool
  | .wrap cause msg, target =>
    decide (Error.wrap cause msg = target) || Error.Is cause target
  | e, target => decide (e = target)

/-! ## Chain identifiers -/

/-- Modelled from the spec: the type `types.ChainID`, whose declaration is not
under `src/`.  A chain identifier is parsed from a string of the form
`name_eip155Id-revisionNumber`; the accessors `GetChainID`, `GetName`,
`GetEIP155ID` and `GetRevisionNumber` are the four fields. -/
structure ChainID where
  chainID : String
  name : String
  eip155ID : Nat
  revision : Nat
deriving DecidableEq, Repr

/-- A lower-case ASCII letter, the alphabet of the `name` component. -/
def isNameChar (c : Char) : Bool := decide (97 ≤ c.toNat ∧ c.toNat ≤ 122)

/-- A decimal digit. -/
def isDigitChar (c : Char) : Bool := decide (48 ≤ c.toNat ∧ c.toNat ≤ 57)

/-- The value of a decimal digit. -/
def digitVal (c : Char) : Nat := c.toNat - 48

/-- A decimal numeral without a leading zero: a digit `1..9` followed by digits. -/
def validNumber : List Char → Bool
  | [] => false
  | d :: rest => isDigitChar d && decide (d.toNat ≠ 48) && rest.all isDigitChar

/-- The value of a decimal numeral, most significant digit first. -/
def parseUint (ds : List Char) : Nat := Nat.ofDigits 10 (ds.reverse.map digitVal)

/-- Modelled from the spec: `types.NewChainID`, not under `src/`.  It accepts exactly
the strings `name_eip155Id-revisionNumber` in which `name` is a non-empty run of
lower-case letters and both numbers are decimal numerals without a leading zero
that fit an unsigned 64-bit integer (the type `GetRollappByEIP155` takes), and
returns their components; every other string is malformed (`none`). -/
def NewChainID (id : String) : Option ChainID :=
  let name := id.data.takeWhile isNameChar
  match id.data.dropWhile isNameChar with
  | [] => none
  | sep :: rest =>
    let eip := rest.takeWhile isDigitChar
    match rest.dropWhile isDigitChar with
    | [] => none
    | dash :: rev =>
      if sep.toNat = 95 ∧ dash.toNat = 45 ∧ name ≠ [] ∧ validNumber eip = true
          ∧ validNumber rev = true ∧ parseUint eip < 2 ^ 64 ∧ parseUint rev < 2 ^ 64 then
        some ⟨id, String.mk name, parseUint eip, parseUint rev⟩
      else none

/-- Modelled from the spec: `types.MustNewChainID`, which panics on a malformed id. -/
def MustNewChainID (id : String) : Result ChainID :=
  match NewChainID id with
  | some c => .ret c
  | none => .panic

/-- A chain identifier value as the parser builds it (the fields of `types.ChainID`
are private, so every value the keeper receives is of this kind). -/
def ChainID.WellFormed (c : ChainID) : Prop := NewChainID c.chainID = some c

instance (c : ChainID) : Decidable c.WellFormed := by
  unfold ChainID.WellFormed; infer_instance

/-! ## Records -/

/-- The token metadata of a genesis info (`types.DenomMetadata`). -/
structure DenomMetadata where
  Display : String
  Base : String
  Exponent : Nat
deriving DecidableEq, Repr

/-- One genesis account (`types.GenesisAccount`); amounts are integers. -/
structure GenesisAccount where
  Amount : Int
  Address : String
deriving DecidableEq, Repr

/-- The optional list of genesis accounts (`types.GenesisAccountList`); a nil slice
is the empty list. -/
structure GenesisAccountList where
  Accounts : List GenesisAccount
deriving DecidableEq, Repr

/-- Modelled from the spec: the embedded genesis info (checksum, bech32 prefix,
native denom metadata, initial supply, optional list of genesis accounts, sealed
flag).  `InitialSupply` is a `math.Int`, nil when `none`; `GenesisAccounts` is a
pointer, nil when `none`. -/
structure GenesisInfo where
  GenesisChecksum : String
  Bech32Prefix : String
  NativeDenom : DenomMetadata
  InitialSupply : Option Int
  Sealed : Bool
  GenesisAccounts : Option GenesisAccountList
deriving DecidableEq, Repr

/-- Modelled from the spec: the optional structured metadata of a rollapp.  Its
fields are not under `src/`; the keeper only copies it, so it is kept as a list of
named text fields. -/
structure RollappMetadata where
  fields : List (String × String)
deriving DecidableEq, Repr

/-- A coin (`sdk.Coin`): a denomination and an amount. -/
structure Coin where
  Denom : String
  Amount : Int
deriving DecidableEq, Repr

/-- Modelled from the spec: the record `types.Rollapp` (generated code, not under
`src/`), with the attributes the spec lists and the ones `NewRollapp` receives.
`Metadata` and `PreLaunchTime` are pointers, nil when `none`; a time is a number
of seconds. -/
structure Rollapp where
  RollappId : String
  Owner : String
  GenesisInfo : GenesisInfo
  ChannelId : String
  Frozen : Bool
  Metadata : Option RollappMetadata
  InitialSequencer : String
  MinSequencerBond : Coin
  VmType : Nat
  Launched : Bool
  PreLaunchTime : Option Nat
deriving DecidableEq, Repr

/-- The zero value of `types.Rollapp`, what a Go getter leaves in `val` on a miss. -/
def Rollapp.zero : Rollapp :=
  { RollappId := "", Owner := "",
    GenesisInfo :=
      { GenesisChecksum := "", Bech32Prefix := "", NativeDenom := ⟨"", "", 0⟩,
        InitialSupply := none, Sealed := false, GenesisAccounts := none },
    ChannelId := "", Frozen := false, Metadata := none, InitialSequencer := "",
    MinSequencerBond := ⟨"", 0⟩, VmType := 0, Launched := false, PreLaunchTime := none }

/-- Modelled from the spec: the message `types.MsgUpdateRollappInformation` (generated
code, not under `src/`): the id of the record, the caller, and the patch. -/
structure MsgUpdateRollappInformation where
  Owner : String
  RollappId : String
  InitialSequencer : String
  Metadata : Option RollappMetadata
  GenesisInfo : Option GenesisInfo
deriving DecidableEq, Repr

/-- An initial-raise-offering plan (`irotypes.Plan`); only its pre-launch time is read. -/
structure Plan where
  PreLaunchTime : Nat
deriving DecidableEq, Repr

/-! ## The key-value store -/

/-- The order of the store on keys: byte-wise lexicographic. -/
def bytesLt : List Char → List Char → Bool
  | _, [] => false
  | [], _ :: _ => true
  | a :: as, b :: bs =>
    if a.toNat < b.toNat then true
    else if b.toNat < a.toNat then false
    else bytesLt as bs

/-- The order of the store on string keys. -/
def keyLt (a b : String) : Bool := bytesLt a.data b.data

/-- The method `store.Get`: the value under a key, if any. -/
def kvGet {K V : Type} [DecidableEq K] (k : K) : List (K × V) → Option V
  | [] => none
  | (k', v) :: rest => if k' = k then some v else kvGet k rest

/-- The method `store.Set`: overwrite the value under an existing key, or insert the
pair at its place in key order. -/
def kvSet {K V : Type} [DecidableEq K] (lt : K → K → Bool) (k : K) (v : V) :
    List (K × V) → List (K × V)
  | [] => [(k, v)]
  | (k', v') :: rest =>
    if k' = k then (k, v) :: rest
    else if lt k k' then (k, v) :: (k', v') :: rest
    else (k', v') :: kvSet lt k v rest

/-- The method `store.Delete`. -/
def kvDelete {K V : Type} [DecidableEq K] (k : K) : List (K × V) → List (K × V)
  | [] => []
  | (k', v') :: rest => if k' = k then kvDelete k rest else (k', v') :: kvDelete k rest

/-- Whether a key starts with the given bytes (the test of a prefix iterator). -/
def hasKeyPrefix (pre key : String) : Bool := pre.data.isPrefixOf key.data

/-- The first pair, in key order, whose key starts with `pre`: what
`sdk.KVStorePrefixIterator` points at when it is valid. -/
def kvFirstWithPrefix {V : Type} (pre : String) (l : List (String × V)) :
    Option (String × V) :=
  l.find? (fun p => hasKeyPrefix pre p.1)

/-- Modelled from the spec: the persisted state the registry reads and writes.
`rollapps` is the primary index (`rollapp:<id>`, one row per rollapp keyed by id
string), `byEIP155` the secondary index (`rollappByEip155:<eip155Id> → id`),
`pendingStates` the in-flight state submissions of the PendingStateIndex (rollapp
id and state index), `frozenClients` the client identifiers marked frozen. -/
structure State where
  rollapps : List (String × Rollapp)
  byEIP155 : List (Nat × String)
  pendingStates : List (String × Nat)
  frozenClients : List String
deriving DecidableEq, Repr

/-- The empty store. -/
def State.empty : State := ⟨[], [], [], []⟩

/-- The code the keeper calls that is not under `src/`: methods of the message and
record types, and the IBC collaborators.  Every theorem holds for all of them. -/
structure Keeper where
  UpdatingImmutableValues : MsgUpdateRollappInformation → Bool
  UpdatingGenesisInfo : MsgUpdateRollappInformation → Bool
  MetadataIsEmpty : RollappMetadata → Bool
  ValidateBasic : Rollapp → Option Error
  AllImmutableFieldsAreSet : Rollapp → Bool
  GenesisInfoFieldsAreSet : Rollapp → Bool
  GetChannelClientState : String → String → Except Error String
  freezeClientError : String → Option Error

/-! ## The keeper -/

/-- The method `Keeper.GetRollapp`: the record stored under the id, if any (on a miss
Go returns the zero value and `found = false`). -/
def GetRollapp (s : State) (rollappId : String) : Option Rollapp :=
  kvGet rollappId s.rollapps

/-- The method `Keeper.GetRollappByEIP155`: follow the secondary index to an id, then
read the record under that id. -/
def GetRollappByEIP155 (s : State) (eip155 : Nat) : Option Rollapp :=
  match kvGet eip155 s.byEIP155 with
  | none => none
  | some id => GetRollapp s id

/-- The method `Keeper.GetRollappByName`: the first record, in key order, whose key
starts with `name` followed by an underscore. -/
def GetRollappByName (s : State) (name : String) : Option Rollapp :=
  let name := name ++ "_"
  match kvFirstWithPrefix name s.rollapps with
  | none => none
  | some p => some p.2

/-- The method `Keeper.SetRollapp`: write the record under its id, then point the
EIP155 index of its id at it; `MustNewChainID` panics on a malformed id. -/
def SetRollapp (s : State) (rollapp : Rollapp) : Result State :=
  let s := { s with rollapps := kvSet keyLt rollapp.RollappId rollapp s.rollapps }
  match MustNewChainID rollapp.RollappId with
  | .panic => .panic
  | .ret rollappID =>
    .ret { s with
      byEIP155 := kvSet (fun a b => decide (a < b)) rollappID.eip155ID rollapp.RollappId
        s.byEIP155 }

/-- The method `Keeper.RemoveRollapp`: delete the record under the id (the EIP155
index is left as it is). -/
def RemoveRollapp (s : State) (rollappId : String) : State :=
  { s with rollapps := kvDelete rollappId s.rollapps }

/-- The method `Keeper.CheckIfRollappExists`.  It returns `nil` (`none`) when the id
may be registered, an error otherwise, and panics when the record the EIP155 index
leads to has a malformed id. -/
def CheckIfRollappExists (s : State) (rollappId : ChainID) : Result (Option Error) :=
  if (GetRollapp s rollappId.chainID).isSome then .ret (some .ErrRollappExists)
  else
    match GetRollappByEIP155 s rollappId.eip155ID with
    | none =>
      if (GetRollappByName s rollappId.name).isSome then .ret (some .ErrRollappExists)
      else if rollappId.revision ≠ 1 then
        .ret (some (.wrap .ErrInvalidRollappID
          ("revision number should be 1, got: " ++ toString rollappId.revision)))
      else .ret none
    | some existingRollapp =>
      if !existingRollapp.Frozen then .ret (some .ErrRollappExists)
      else
        match MustNewChainID existingRollapp.RollappId with
        | .panic => .panic
        | .ret existingRollappChainId =>
          if rollappId.name ≠ existingRollappChainId.name then
            .ret (some (.wrap .ErrInvalidRollappID
              ("rollapp name should be " ++ existingRollappChainId.name)))
          else
            let nextRevisionNumber := (existingRollappChainId.revision + 1) % 2 ^ 64
            if rollappId.revision ≠ nextRevisionNumber then
              .ret (some (.wrap .ErrInvalidRollappID
                ("revision number should be " ++ toString nextRevisionNumber)))
            else .ret none

/-- The method `Keeper.CheckAndUpdateRollappFields`: the record it returns and the
error (`none` for `nil`).  It reads the store and writes nothing.  Each conditional
assignment of the source sets one field of `current`, so the merged record is
written field by field: a field keeps its value unless its assignment fires. -/
def CheckAndUpdateRollappFields (k : Keeper) (s : State)
    (update : MsgUpdateRollappInformation) : Rollapp × Option Error :=
  match GetRollapp s update.RollappId with
  | none => (Rollapp.zero, some .ErrRollappNotFound)
  | some current =>
    if update.Owner ≠ current.Owner then (current, some .ErrUnauthorized)
    else if current.Frozen then (current, some .ErrRollappFrozen)
    else if k.UpdatingImmutableValues update && current.Launched then
      (current, some .ErrImmutableFieldUpdateAfterLaunched)
    else if k.UpdatingGenesisInfo update && current.GenesisInfo.Sealed then
      (current, some .ErrGenesisInfoSealed)
    else
      let current : Rollapp :=
        { current with
          InitialSequencer :=
            if update.InitialSequencer ≠ "" then update.InitialSequencer
            else current.InitialSequencer
          GenesisInfo :=
            match update.GenesisInfo with
            | none => current.GenesisInfo
            | some patch =>
              { GenesisChecksum :=
                  if patch.GenesisChecksum ≠ "" then patch.GenesisChecksum
                  else current.GenesisInfo.GenesisChecksum
                Bech32Prefix :=
                  if patch.Bech32Prefix ≠ "" then patch.Bech32Prefix
                  else current.GenesisInfo.Bech32Prefix
                NativeDenom :=
                  if patch.NativeDenom.Base ≠ "" then patch.NativeDenom
                  else current.GenesisInfo.NativeDenom
                InitialSupply :=
                  if patch.InitialSupply.isSome then patch.InitialSupply
                  else current.GenesisInfo.InitialSupply
                Sealed := current.GenesisInfo.Sealed
                GenesisAccounts :=
                  match patch.GenesisAccounts with
                  | some accounts => some accounts
                  | none =>
                    match current.GenesisInfo.GenesisAccounts with
                    | some _ => some ⟨[]⟩
                    | none => none }
          Metadata :=
            match update.Metadata with
            | none => current.Metadata
            | some metadata =>
              if !k.MetadataIsEmpty metadata then some metadata else current.Metadata }
      match k.ValidateBasic current with
      | some err => (current, some (.wrap err "validate rollapp"))
      | none => (current, none)

/-- The method `Keeper.SetRollappAsLaunched`: the store, the record behind the pointer
and the error after the call. -/
def SetRollappAsLaunched (k : Keeper) (s : State) (rollapp : Rollapp) :
    Result (State × Rollapp × Option Error) :=
  if !k.AllImmutableFieldsAreSet rollapp then
    .ret (s, rollapp, some (.wrap .ErrFailedPrecondition "immutable fields not set"))
  else
    let rollapp := { rollapp with GenesisInfo := { rollapp.GenesisInfo with Sealed := true } }
    let rollapp := { rollapp with Launched := true }
    match SetRollapp s rollapp with
    | .panic => .panic
    | .ret s => .ret (s, rollapp, none)

/-- The method `Keeper.SetIROPlanToRollapp`: the store, the record behind the pointer
and the error after the call. -/
def SetIROPlanToRollapp (k : Keeper) (s : State) (rollapp : Rollapp) (iro : Plan) :
    Result (State × Rollapp × Option Error) :=
  if rollapp.Launched then
    .ret (s, rollapp, some (.wrap .ErrFailedPrecondition "rollapp already launched"))
  else if rollapp.GenesisInfo.Sealed then
    .ret (s, rollapp, some (.wrap .ErrFailedPrecondition "genesis info already sealed"))
  else if !k.GenesisInfoFieldsAreSet rollapp then
    .ret (s, rollapp, some (.wrap .ErrFailedPrecondition "genesis info not set"))
  else
    let rollapp := { rollapp with GenesisInfo := { rollapp.GenesisInfo with Sealed := true } }
    let rollapp := { rollapp with PreLaunchTime := some iro.PreLaunchTime }
    match SetRollapp s rollapp with
    | .panic => .panic
    | .ret s => .ret (s, rollapp, none)

/-- Modelled from the spec: `Keeper.RevertPendingStates`, not under `src/`
("revert pending states for id"): it cancels the in-flight state submissions of
the given rollapp. -/
def RevertPendingStates (s : State) (rollappID : String) : State :=
  { s with pendingStates := s.pendingStates.filter (fun p => decide (p.1 ≠ rollappID)) }

/-- Modelled from the spec: `Keeper.freezeClientState`, not under `src/`
(`freezeClient(clientId) → error`): it marks the client frozen unless the IBC
collaborator reports an error. -/
def freezeClientState (k : Keeper) (s : State) (clientID : String) : State × Option Error :=
  match k.freezeClientError clientID with
  | some err => (s, some err)
  | none => ({ s with frozenClients := clientID :: s.frozenClients }, none)

/-- The method `Keeper.FreezeRollapp`: the store and the error after the call. -/
def FreezeRollapp (k : Keeper) (s : State) (rollappID : String) :
    Result (State × Option Error) :=
  match GetRollapp s rollappID with
  | none => .ret (s, some .ErrNotFound)
  | some rollapp =>
    let rollapp := { rollapp with Frozen := true }
    let s := RevertPendingStates s rollappID
    if rollapp.ChannelId ≠ "" then
      match k.GetChannelClientState "transfer" rollapp.ChannelId with
      | .error err => .ret (s, some (.wrap err "get channel client state"))
      | .ok clientID =>
        match freezeClientState k s clientID with
        | (s, some err) => .ret (s, some (.wrap err "freeze client state"))
        | (s, none) =>
          match SetRollapp s rollapp with
          | .panic => .panic
          | .ret s => .ret (s, none)
    else
      match SetRollapp s rollapp with
      | .panic => .panic
      | .ret s => .ret (s, none)

/-- The method `Keeper.MarkRollappAsVulnerable`. -/
def MarkRollappAsVulnerable (k : Keeper) (s : State) (rollappId : String) :
    Result (State × Option Error) :=
  FreezeRollapp k s rollappId

/-- Modelled from the spec: the handler of an update message, not under `src/`
(operation UpdateFields, steps 1 to 8): it runs `CheckAndUpdateRollappFields` and
persists the merged record with `SetRollapp` only when the check returned no error. -/
def UpdateRollapp (k : Keeper) (s : State) (update : MsgUpdateRollappInformation) :
    Result (State × Option Error) :=
  match CheckAndUpdateRollappFields k s update with
  | (_, some err) => .ret (s, some err)
  | (updated, none) =>
    match SetRollapp s updated with
    | .panic => .panic
    | .ret s => .ret (s, none)

/-- Lines 42 to 72 of `CheckAndUpdateRollappFields` read one statement after the
other: each conditional assignment updates the record the previous one left.
`CheckAndUpdateRollappFields_assignments` shows that the merged record of
`CheckAndUpdateRollappFields` is this one. -/
def updateAssignments (k : Keeper) (current : Rollapp)
    (update : MsgUpdateRollappInformation) : Rollapp :=
  let current :=
    if update.InitialSequencer ≠ "" then
      { current with InitialSequencer := update.InitialSequencer }
    else current
  let current :=
    match update.GenesisInfo with
    | none => current
    | some patch =>
      let current :=
        if patch.GenesisChecksum ≠ "" then
          { current with
            GenesisInfo := { current.GenesisInfo with GenesisChecksum := patch.GenesisChecksum } }
        else current
      let current :=
        if patch.Bech32Prefix ≠ "" then
          { current with
            GenesisInfo := { current.GenesisInfo with Bech32Prefix := patch.Bech32Prefix } }
        else current
      let current :=
        if patch.NativeDenom.Base ≠ "" then
          { current with
            GenesisInfo := { current.GenesisInfo with NativeDenom := patch.NativeDenom } }
        else current
      let current :=
        if patch.InitialSupply.isSome then
          { current with
            GenesisInfo := { current.GenesisInfo with InitialSupply := patch.InitialSupply } }
        else current
      match patch.GenesisAccounts with
      | some accounts =>
        { current with
          GenesisInfo := { current.GenesisInfo with GenesisAccounts := some accounts } }
      | none =>
        match current.GenesisInfo.GenesisAccounts with
        | some _ =>
          { current with
            GenesisInfo := { current.GenesisInfo with GenesisAccounts := some ⟨[]⟩ } }
        | none => current
  match update.Metadata with
  | none => current
  | some metadata =>
    if !k.MetadataIsEmpty metadata then { current with Metadata := some metadata }
    else current

/-- The genesis accounts of a genesis info: none when the pointer is nil. -/
def GenesisInfo.accounts (g : GenesisInfo) : List GenesisAccount :=
  match g.GenesisAccounts with
  | none => []
  | some l => l.Accounts

/-- The record `r` with `genesisInfo.sealed = true` and `launched = true`, every other
field as in `r`. -/
def Rollapp.afterLaunch (r : Rollapp) : Rollapp :=
  { r with GenesisInfo := { r.GenesisInfo with Sealed := true }, Launched := true }

/-- The record `r` with `genesisInfo.sealed = true` and the pre-launch time of the plan,
every other field as in `r`. -/
def Rollapp.afterPlan (r : Rollapp) (iro : Plan) : Rollapp :=
  { r with GenesisInfo := { r.GenesisInfo with Sealed := true },
           PreLaunchTime := some iro.PreLaunchTime }

/-- The record `r` with `frozen = true`, every other field as in `r`. -/
def Rollapp.afterFreeze (r : Rollapp) : Rollapp := { r with Frozen := true }

/-! ## Scans, client check, sequencer hook, creation message, sponsorship keys -/

/-- The method `Keeper.FilterRollapps`: iterate over every row of the primary index in
key order, decode the record and append it to the result when `f` accepts it. -/
def FilterRollapps (s : State) (f : Rollapp → Bool) : List Rollapp :=
  s.rollapps.foldl (fun result p => if f p.2 then result ++ [p.2] else result) []

/-- The method `Keeper.GetAllRollapps`. -/
def GetAllRollapps (s : State) : List Rollapp :=
  FilterRollapps s (fun _ => true)

/-- Modelled from the spec: storing the records of a list one by one with `SetRollapp`,
as the import of a genesis state does with its `RollappList` (`InitGenesis` is not
under `src/`).  A panic of `SetRollapp` ends the import. -/
def SetRollapps (s : State) : List Rollapp → Result State
  | [] => .ret s
  | rollapp :: rest =>
    match SetRollapp s rollapp with
    | .panic => .panic
    | .ret s => SetRollapps s rest

/-- The method `Keeper.verifyClientID`: the error it returns (`none` for `nil`).  It
reads the store and writes nothing. -/
def verifyClientID (k : Keeper) (s : State) (rollappID clientID : String) : Option Error :=
  match GetRollapp s rollappID with
  | none => some .ErrNotFound
  | some rollapp =>
    let emptyRollappChannelID := decide (rollapp.ChannelId = "")
    let emptyClientID := decide (clientID = "")
    if emptyRollappChannelID && emptyClientID then none
    else if emptyRollappChannelID then
      some (.other ("rollapp does not have a channel: rollapp \x27" ++ rollappID ++ "\x27"))
    else if emptyClientID then
      some (.other "empty clientID while the rollapp channelID is not empty")
    else
      match k.GetChannelClientState "transfer" rollapp.ChannelId with
      | .error err => some (.wrap err "get channel client state")
      | .ok extractedClientId =>
        if extractedClientId ≠ clientID then
          some (.other ("clientID does not match the one in the rollapp: clientID "
            ++ clientID ++ ", rollapp clientID " ++ extractedClientId))
        else none

/-- Modelled from the spec: a registered sequencer (`types.Sequencer` of the sequencer
module, generated code not under `src/`); the hook reads its `RollappId`. -/
structure Sequencer where
  SequencerAddress : String
  RollappId : String
deriving DecidableEq, Repr

/-- The two errors the hook of the sequencer module panics with. -/
inductive SequencerError where
  | ErrUnknownSequencer
  | ErrSequencerRollappMismatch
deriving DecidableEq, Repr

/-- Modelled from the spec: the store of the sequencer module, one row per sequencer
keyed by its address. -/
structure SequencerState where
  sequencers : List (String × Sequencer)
deriving DecidableEq, Repr

/-- Modelled from the spec: `Keeper.GetSequencer` of the sequencer module, not under
`src/`: the sequencer registered under the address, if any; it writes nothing. -/
def GetSequencer (s : SequencerState) (sequencerAddress : String) : Option Sequencer :=
  kvGet sequencerAddress s.sequencers

/-- The hook `rollapphook.BeforeUpdateState`: the store after the call and the value the
hook panics with (`none` when it returns). -/
def BeforeUpdateState (s : SequencerState) (seqAddr rollappId : String) :
    SequencerState × Option SequencerError :=
  match GetSequencer s seqAddr with
  | none => (s, some .ErrUnknownSequencer)
  | some sequencer =>
    if sequencer.RollappId ≠ rollappId then (s, some .ErrSequencerRollappMismatch)
    else (s, none)

/-- Modelled from the spec: the message `types.MsgCreateRollapp` (generated code, not
under `src/`), with the fields `NewMsgCreateRollapp` fills. -/
structure MsgCreateRollapp where
  Creator : String
  RollappId : String
  InitialSequencer : String
  MinSequencerBond : Coin
  Alias : String
  VmType : Nat
  Metadata : Option RollappMetadata
  GenesisInfo : Option GenesisInfo
deriving DecidableEq, Repr

/-- Modelled from the spec: the constructor `types.NewRollapp`, not under `src/`: a
record with the given creator as owner, id, initial sequencer, minimal bond, vm type,
metadata and genesis info, every other attribute at its zero value. -/
def NewRollapp (creator rollappId initialSequencer : String) (minSequencerBond : Coin)
    (vmType : Nat) (metadata : Option RollappMetadata) (genInfo : GenesisInfo) : Rollapp :=
  { RollappId := rollappId, Owner := creator, GenesisInfo := genInfo, ChannelId := "",
    Frozen := false, Metadata := metadata, InitialSequencer := initialSequencer,
    MinSequencerBond := minSequencerBond, VmType := vmType, Launched := false,
    PreLaunchTime := none }

/-- The method `math.Int.IsZero` of the SDK, `i.i.Sign() == 0`: on an uninitialised
(`nil`) amount it dereferences a nil pointer, which is a run-time panic. -/
def IsZero : Option Int → Result Bool
  | none => .panic
  | some n => .ret (decide (n = 0))

/-- The method `MsgCreateRollapp.GetRollapp`: the message behind the receiver after the
call and the record returned. -/
def MsgCreateRollapp.GetRollapp (msg : MsgCreateRollapp) : Result (MsgCreateRollapp × Rollapp) :=
  let genInfo : Dymension.GenesisInfo := Rollapp.zero.GenesisInfo
  let build (genInfo : Dymension.GenesisInfo) : Result (MsgCreateRollapp × Rollapp) :=
    .ret (msg, NewRollapp msg.Creator msg.RollappId msg.InitialSequencer msg.MinSequencerBond
      msg.VmType msg.Metadata genInfo)
  match msg.GenesisInfo with
  | none => build genInfo
  | some info =>
    let genInfo := info
    match IsZero genInfo.InitialSupply with
    | .panic => .panic
    | .ret true => build { genInfo with NativeDenom := ⟨"", "", 0⟩ }
    | .ret false => build genInfo

/-- The constant `ParamsByte` of the sponsorship keys (`iota`). -/
def ParamsByte : Fin 256 := 0

/-- The constant `DistributionByte`. -/
def DistributionByte : Fin 256 := 1

/-- The constant `DelegatorValidatorPowerByte`. -/
def DelegatorValidatorPowerByte : Fin 256 := 2

/-- The constant `VoteByte`. -/
def VoteByte : Fin 256 := 3

/-- The function `DelegatorValidatorPowerKey`: the prefix byte, the bytes of the voter
address, the bytes of the validator address. -/
def DelegatorValidatorPowerKey (voterAddr valAddr : List (Fin 256)) : List (Fin 256) :=
  let key : List (Fin 256) := []
  let key := key ++ [DelegatorValidatorPowerByte]
  let key := key ++ voterAddr
  let key := key ++ valAddr
  key

/-- The function `AllDelegatorValidatorPowersKey`: the prefix byte, then the bytes of the
voter address. -/
def AllDelegatorValidatorPowersKey (voterAddr : List (Fin 256)) : List (Fin 256) :=
  let key : List (Fin 256) := []
  let key := key ++ [DelegatorValidatorPowerByte]
  let key := key ++ voterAddr
  key

/-! ## Varints of the generated genesis codec -/

/-- The bit length of `x` computed by halving, at most `fuel` times. -/
def lenBits : Nat → Nat → Nat
  | 0, _ => 0
  | fuel + 1, x => if x = 0 then 0 else lenBits fuel (x / 2) + 1

/-- The function `bits.Len64` of the Go library: the minimum number of bits required to
represent the 64-bit `x`, 0 for `x = 0`. -/
def Len64 (x : Nat) : Nat := lenBits 64 x

/-- The function `sovGenesis`: the size of the varint of `x`. -/
def sovGenesis (x : Nat) : Nat := (Len64 (x ||| 1) + 6) / 7

/-- The assignment `dAtA[offset] = b` of Go: a run-time panic when the index is outside
the buffer. -/
def setByte (dAtA : List Nat) (offset : Int) (b : Nat) : Result (List Nat) :=
  if 0 ≤ offset ∧ offset < dAtA.length then .ret (dAtA.set offset.toNat b) else .panic

/-- The loop of `encodeVarintGenesis` and the assignment after it: the buffer when the
function returns.  A byte is a natural below 256 and `uint8` reduces modulo 256. -/
def encodeVarintLoop (dAtA : List Nat) (offset : Int) (v : Nat) : Result (List Nat) :=
  if 1 <<< 7 ≤ v then
    match setByte dAtA offset ((v &&& 0x7f ||| 0x80) % 256) with
    | .panic => .panic
    | .ret dAtA => encodeVarintLoop dAtA (offset + 1) (v >>> 7)
  else setByte dAtA offset (v % 256)
termination_by v
decreasing_by
  rw [Nat.shiftRight_eq_div_pow]
  omega

/-- The function `encodeVarintGenesis`: the buffer after the call and the position
returned. -/
def encodeVarintGenesis (dAtA : List Nat) (offset : Int) (v : Nat) : Result (List Nat × Int) :=
  let offset := offset - sovGenesis v
  let base := offset
  match encodeVarintLoop dAtA offset v with
  | .panic => .panic
  | .ret dAtA => .ret (dAtA, base)

/-- The errors of the varint loop of `GenesisState.Unmarshal`. -/
inductive UnmarshalError where
  | ErrIntOverflowGenesis
  | ErrUnexpectedEOF
deriving DecidableEq, Repr

/-- The varint loop of `GenesisState.Unmarshal` for `LastGaugeId` (field 4), from the
iteration with the given `shift`: the value read and the index after the last byte
consumed, or the error returned. -/
def unmarshalVarintLoop (dAtA : List Nat) (shift iNdEx LastGaugeId : Nat) :
    Except UnmarshalError (Nat × Nat) :=
  if 64 ≤ shift then .error .ErrIntOverflowGenesis
  else if dAtA.length ≤ iNdEx then .error .ErrUnexpectedEOF
  else
    let b := dAtA.getD iNdEx 0
    let iNdEx := iNdEx + 1
    let LastGaugeId := LastGaugeId ||| ((b &&& 0x7F) <<< shift) % 2 ^ 64
    if b < 0x80 then .ok (LastGaugeId, iNdEx)
    else unmarshalVarintLoop dAtA (shift + 7) iNdEx LastGaugeId
termination_by 64 - shift
decreasing_by omega

/-- The varint of `LastGaugeId` read at `iNdEx`, as `GenesisState.Unmarshal` does after
`m.LastGaugeId = 0`. -/
def unmarshalLastGaugeId (dAtA : List Nat) (iNdEx : Nat) : Except UnmarshalError (Nat × Nat) :=
  unmarshalVarintLoop dAtA 0 iNdEx 0

/-! ## Stored records and store invariants -/

/-- The record `r` is stored under the key `k`, and `k` is the well-formed chain id `a`. -/
def Stored (s : State) (k : String) (r : Rollapp) (a : ChainID) : Prop :=
  GetRollapp s k = some r ∧ NewChainID k = some a

/-- A row of the primary index as `SetRollapp` writes it: the record lies under its
own id, the id is well formed, and the EIP155 index of that id leads to a record. -/
def rowIndexed (s : State) (p : String × Rollapp) : Bool :=
  decide (p.2.RollappId = p.1) &&
    match NewChainID p.1 with
    | some a => (GetRollappByEIP155 s a.eip155ID).isSome
    | none => false

/-- A row of the secondary index as `SetRollapp` writes it: the id it holds is well
formed and has the EIP155 number of the key. -/
def indexRowOK (q : Nat × String) : Bool :=
  match NewChainID q.2 with
  | some a => decide (a.eip155ID = q.1)
  | none => false

/-- A store whose rows are all as `SetRollapp` writes them (no record was removed
behind the EIP155 index, no row was written by other means). -/
def State.Consistent (s : State) : Prop :=
  s.rollapps.all (rowIndexed s) = true ∧ s.byEIP155.all indexRowOK = true

instance (s : State) : Decidable s.Consistent := by
  unfold State.Consistent; infer_instance

/-- The invariant of the registry: every record lies under its own well-formed id;
the EIP155 index holds well-formed ids of its number and leads every stored id to a
stored record; two stored ids share their name exactly when they share their
EIP155 number; among the stored ids of one EIP155 number every one but the highest
revision is frozen; and every stored revision other than 1 has its predecessor stored. -/
structure Inv (s : State) : Prop where
  key : ∀ k r, GetRollapp s k = some r → r.RollappId = k ∧ ∃ a, NewChainID k = some a
  index : ∀ e id, kvGet e s.byEIP155 = some id → ∃ a, NewChainID id = some a ∧ a.eip155ID = e
  indexed : ∀ k r a, Stored s k r a → ∃ r0, GetRollappByEIP155 s a.eip155ID = some r0
  nameEip : ∀ k1 r1 a1 k2 r2 a2, Stored s k1 r1 a1 → Stored s k2 r2 a2 →
    (a1.name = a2.name ↔ a1.eip155ID = a2.eip155ID)
  older : ∀ k1 r1 a1 k2 r2 a2, Stored s k1 r1 a1 → Stored s k2 r2 a2 →
    a1.eip155ID = a2.eip155ID → a1.revision < a2.revision → r1.Frozen = true
  pred : ∀ k r a, Stored s k r a → a.revision ≠ 1 →
    ∃ k0 r0 a0, Stored s k0 r0 a0 ∧ a0.eip155ID = a.eip155ID ∧ a0.revision + 1 = a.revision

/-- The store states the registry reaches from the empty store: by registration (a
new non-frozen record is stored only after `CheckIfRollappExists` returned no error
for its id), by an owner update that passed its checks, by launching a stored
record, by attaching a plan to a stored record, and by freezing (whatever the call
returns). -/
inductive Reachable (k : Keeper) : State → Prop where
  | empty : Reachable k State.empty
  | register (s t : State) (c : ChainID) (r : Rollapp) :
      Reachable k s → c.WellFormed → r.RollappId = c.chainID → r.Frozen = false →
      CheckIfRollappExists s c = .ret none → SetRollapp s r = .ret t → Reachable k t
  | update (s t : State) (u : MsgUpdateRollappInformation) :
      Reachable k s → UpdateRollapp k s u = .ret (t, none) → Reachable k t
  | launch (s t : State) (id : String) (r r1 : Rollapp) (e : Option Error) :
      Reachable k s → GetRollapp s id = some r →
      SetRollappAsLaunched k s r = .ret (t, r1, e) → Reachable k t
  | plan (s t : State) (id : String) (r r1 : Rollapp) (iro : Plan) (e : Option Error) :
      Reachable k s → GetRollapp s id = some r →
      SetIROPlanToRollapp k s r iro = .ret (t, r1, e) → Reachable k t
  | freeze (s t : State) (id : String) (e : Option Error) :
      Reachable k s → FreezeRollapp k s id = .ret (t, e) → Reachable k t

/-- No stored record shares the name or the EIP155 number of the candidate, and the
candidate's revision number is 1. -/
def FreshRegistration (s : State) (c : ChainID) : Prop :=
  (∀ k r a, GetRollapp s k = some r → NewChainID r.RollappId = some a → a.name ≠ c.name) ∧
  (∀ k r a, GetRollapp s k = some r → NewChainID r.RollappId = some a →
    a.eip155ID ≠ c.eip155ID) ∧
  c.revision = 1

/-- The candidate is the next revision of the frozen record the EIP155 index leads to:
same name, revision number one higher. -/
def ForkRegistration (s : State) (c : ChainID) : Prop :=
  ∃ R a, GetRollappByEIP155 s c.eip155ID = some R ∧ R.Frozen = true ∧
    NewChainID R.RollappId = some a ∧ a.name = c.name ∧ c.revision = a.revision + 1

/-- The rows of both indexes are in strictly ascending key order, as an ordered
key-value store holds them; in particular no key occurs twice. -/
def RowsSorted (s : State) : Prop :=
  s.rollapps.Pairwise (fun p q => keyLt p.1 q.1 = true) ∧
  s.byEIP155.Pairwise (fun p q => decide (p.1 < q.1) = true)

/-! ## Sample data -/

/-- A keeper whose absent methods follow the spec: a patch touches the immutable
fields when it names an initial sequencer, touches the genesis info when it carries
one, validation always passes and the IBC client of every channel is `client-0`. -/
def sampleKeeper : Keeper :=
  { UpdatingImmutableValues := fun u => decide (u.InitialSequencer ≠ "")
    UpdatingGenesisInfo := fun u => u.GenesisInfo.isSome
    MetadataIsEmpty := fun m => m.fields.isEmpty
    ValidateBasic := fun _ => none
    AllImmutableFieldsAreSet := fun r => decide (r.InitialSequencer ≠ "")
    GenesisInfoFieldsAreSet := fun r => decide (r.GenesisInfo.GenesisChecksum ≠ "")
    GetChannelClientState := fun _ _ => .ok "client-0"
    freezeClientError := fun _ => none }

/-- A fresh record: the given id and owner, everything else zero. -/
def sampleRollapp (id owner : String) : Rollapp :=
  { Rollapp.zero with RollappId := id, Owner := owner }

/-- The chain identifier `foo_100-1`. -/
def foo1 : ChainID := ⟨"foo_100-1", "foo", 100, 1⟩

/-- The chain identifier `foo_100-2`. -/
def foo2 : ChainID := ⟨"foo_100-2", "foo", 100, 2⟩

/-- The chain identifier `foo_100-3`. -/
def foo3 : ChainID := ⟨"foo_100-3", "foo", 100, 3⟩

/-- The chain identifier `foo_200-1`. -/
def foo200 : ChainID := ⟨"foo_200-1", "foo", 200, 1⟩

/-- The chain identifier `bar_100-1`. -/
def bar1 : ChainID := ⟨"bar_100-1", "bar", 100, 1⟩

/-- The store in which `foo_100-1` alone is registered, owned by `alice`. -/
def storeFoo1 : State :=
  { rollapps := [("foo_100-1", sampleRollapp "foo_100-1" "alice")]
    byEIP155 := [(100, "foo_100-1")]
    pendingStates := [("foo_100-1", 7)]
    frozenClients := [] }

/-- The store in which `foo_100-1` is registered and frozen. -/
def storeFoo1Frozen : State :=
  { rollapps := [("foo_100-1", { sampleRollapp "foo_100-1" "alice" with Frozen := true })]
    byEIP155 := [(100, "foo_100-1")]
    pendingStates := []
    frozenClients := [] }

/-- The store in which `foo_100-1` is frozen and its fork `foo_100-2` is registered. -/
def storeFoo12 : State :=
  { rollapps := [("foo_100-1", { sampleRollapp "foo_100-1" "alice" with Frozen := true }),
                 ("foo_100-2", sampleRollapp "foo_100-2" "bob")]
    byEIP155 := [(100, "foo_100-2")]
    pendingStates := []
    frozenClients := [] }

/-- A launched record `baz_7-1` of `alice`, sealed as launching leaves it, with
initial sequencer `seq-0`. -/
def launchedRollapp : Rollapp :=
  { sampleRollapp "baz_7-1" "alice" with
    InitialSequencer := "seq-0", Launched := true,
    GenesisInfo := { Rollapp.zero.GenesisInfo with GenesisChecksum := "abc", Sealed := true } }

/-- A record `qux_9-1` of `alice` that is sealed but not launched (a plan is attached). -/
def sealedRollapp : Rollapp :=
  { sampleRollapp "qux_9-1" "alice" with
    PreLaunchTime := some 1000,
    GenesisInfo := { Rollapp.zero.GenesisInfo with GenesisChecksum := "abc", Sealed := true } }

/-- The store holding `launchedRollapp` and `sealedRollapp`. -/
def storeLaunched : State :=
  { rollapps := [("baz_7-1", launchedRollapp), ("qux_9-1", sealedRollapp)]
    byEIP155 := [(7, "baz_7-1"), (9, "qux_9-1")]
    pendingStates := []
    frozenClients := [] }

/-- A patch by `alice` that names a new initial sequencer for `baz_7-1`. -/
def sequencerPatch : MsgUpdateRollappInformation :=
  ⟨"alice", "baz_7-1", "seq-1", none, none⟩

/-- A patch by `alice` that carries a genesis info for `qux_9-1`. -/
def genesisPatch : MsgUpdateRollappInformation :=
  ⟨"alice", "qux_9-1", "", none,
    some { Rollapp.zero.GenesisInfo with GenesisChecksum := "xyz" }⟩

/-- A record `acc_5-1` of `alice` with one genesis account, neither sealed nor launched. -/
def accountsRollapp : Rollapp :=
  { sampleRollapp "acc_5-1" "alice" with
    GenesisInfo :=
      { Rollapp.zero.GenesisInfo with GenesisAccounts := some ⟨[⟨10, "addr-0"⟩]⟩ } }

/-- The store holding `accountsRollapp` alone. -/
def storeAccounts : State :=
  { rollapps := [("acc_5-1", accountsRollapp)]
    byEIP155 := [(5, "acc_5-1")]
    pendingStates := []
    frozenClients := [] }

/-- A patch by `alice` for `acc_5-1` that carries a genesis info with every field empty
and no accounts list. -/
def emptyGenesisPatch : MsgUpdateRollappInformation :=
  ⟨"alice", "acc_5-1", "", none, some Rollapp.zero.GenesisInfo⟩

/-- A patch by `alice` for `acc_5-1` that carries a genesis info with an empty accounts list. -/
def emptyAccountsPatch : MsgUpdateRollappInformation :=
  ⟨"alice", "acc_5-1", "", none,
    some { Rollapp.zero.GenesisInfo with GenesisAccounts := some ⟨[]⟩ }⟩

/-- A patch by `alice` for `acc_5-1` that carries metadata only, no genesis info. -/
def metadataPatch : MsgUpdateRollappInformation :=
  ⟨"alice", "acc_5-1", "", some ⟨[("website", "https://acc.example")]⟩, none⟩

/-- A patch by `alice` for `acc_5-1` that names the initial sequencer `seq-9`. -/
def newSequencerPatch : MsgUpdateRollappInformation :=
  ⟨"alice", "acc_5-1", "seq-9", none, none⟩

/-- A record `rdy_11-1` of `alice` with its initial sequencer and genesis checksum set,
neither sealed nor launched nor frozen. -/
def readyRollapp : Rollapp :=
  { sampleRollapp "rdy_11-1" "alice" with
    InitialSequencer := "seq-0",
    GenesisInfo := { Rollapp.zero.GenesisInfo with GenesisChecksum := "abc" } }

/-- The record `readyRollapp` after a launch: sealed and launched. -/
def readyLaunched : Rollapp :=
  { readyRollapp with
    Launched := true,
    GenesisInfo := { readyRollapp.GenesisInfo with Sealed := true } }

/-- The store holding `readyRollapp` alone. -/
def storeReady : State :=
  { rollapps := [("rdy_11-1", readyRollapp)]
    byEIP155 := [(11, "rdy_11-1")]
    pendingStates := []
    frozenClients := [] }

/-- The record `readyRollapp`, frozen. -/
def frozenReady : Rollapp := { readyRollapp with Frozen := true }

/-- The store holding `frozenReady` alone. -/
def storeFrozenReady : State :=
  { rollapps := [("rdy_11-1", frozenReady)]
    byEIP155 := [(11, "rdy_11-1")]
    pendingStates := []
    frozenClients := [] }

/-- A record like `readyRollapp` whose id `0` is not a chain id. -/
def malformedRollapp : Rollapp := { readyRollapp with RollappId := "0" }

/-- A plan with pre-launch time 5000. -/
def samplePlan : Plan := ⟨5000⟩

/-- The store `storeFrozenReady` after the launch of `frozenReady`. -/
def storeFrozenLaunched : State :=
  { rollapps := [("rdy_11-1", frozenReady.afterLaunch)]
    byEIP155 := [(11, "rdy_11-1")]
    pendingStates := []
    frozenClients := [] }

/-- A patch by `alice` for `rdy_11-1` that names the initial sequencer `seq-9`. -/
def readySequencerPatch : MsgUpdateRollappInformation :=
  ⟨"alice", "rdy_11-1", "seq-9", none, none⟩

/-- A record `chan_3-1` of `alice` with the IBC channel `channel-0`, not frozen. -/
def channelRollapp : Rollapp :=
  { sampleRollapp "chan_3-1" "alice" with ChannelId := "channel-0" }

/-- The store holding `channelRollapp`, with one pending state submission of its own and
one of another rollapp. -/
def storeChannel : State :=
  { rollapps := [("chan_3-1", channelRollapp)]
    byEIP155 := [(3, "chan_3-1")]
    pendingStates := [("chan_3-1", 4), ("foo_100-1", 7)]
    frozenClients := [] }

/-- A keeper like `sampleKeeper` whose IBC collaborator refuses to freeze any client. -/
def failingKeeper : Keeper :=
  { sampleKeeper with freezeClientError := fun _ => some (.other "client state not found") }

/-- The store after `foo_100-2` and then `foo_100-10` were written with `SetRollapp` into
the empty store: the key `foo_100-10` sorts before `foo_100-2`. -/
def storeFoo210 : State :=
  { rollapps := [("foo_100-10", sampleRollapp "foo_100-10" "bob"),
                 ("foo_100-2", sampleRollapp "foo_100-2" "alice")]
    byEIP155 := [(100, "foo_100-10")]
    pendingStates := []
    frozenClients := [] }

/-- A sequencer store: `seq-0` serves `foo_100-1` and `seq-1` serves `bar_7-1`. -/
def sampleSequencers : SequencerState :=
  ⟨[("seq-0", ⟨"seq-0", "foo_100-1"⟩), ("seq-1", ⟨"seq-1", "bar_7-1"⟩)]⟩

/-- The two records of the genesis state of `TestGenesis`: ids `0` and `1`, every other
field zero. -/
def testGenesisRollappList : List Rollapp :=
  [{ Rollapp.zero with RollappId := "0" }, { Rollapp.zero with RollappId := "1" }]

/-- A two-record genesis list like the one of `TestGenesis`, with chain ids as ids. -/
def chainGenesisRollappList : List Rollapp :=
  [{ Rollapp.zero with RollappId := "foo_100-1" }, { Rollapp.zero with RollappId := "bar_7-1" }]

/-- A creation message of `alice` for `foo_100-1` with the given genesis info. -/
def createMsg (info : Option GenesisInfo) : MsgCreateRollapp :=
  { Creator := "alice", RollappId := "foo_100-1", InitialSequencer := "seq-0",
    MinSequencerBond := ⟨"adym", 100⟩, Alias := "foo", VmType := 1,
    Metadata := some ⟨[("website", "https://foo.example")]⟩, GenesisInfo := info }

/-- A genesis info with the denom `afoo` and the given initial supply (`none` for an
amount left uninitialised). -/
def denomInfo (supply : Option Int) : GenesisInfo :=
  { GenesisChecksum := "abc", Bech32Prefix := "foo", NativeDenom := ⟨"FOO", "afoo", 18⟩,
    InitialSupply := supply, Sealed := false, GenesisAccounts := none }

/-- The store `storeFoo12` after `FreezeRollapp` was called again on the frozen
`foo_100-1`: the rows are the same, the EIP155 index leads to `foo_100-1`. -/
def storeFoo12Refrozen : State :=
  { rollapps := [("foo_100-1", { sampleRollapp "foo_100-1" "alice" with Frozen := true }),
                 ("foo_100-2", sampleRollapp "foo_100-2" "bob")]
    byEIP155 := [(100, "foo_100-1")]
    pendingStates := []
    frozenClients := [] }

/-- The chain identifier `bar_200-1`. -/
def bar200 : ChainID := ⟨"bar_200-1", "bar", 200, 1⟩

/-- The store in which `bar_200-1` alone is registered, owned by `carol`. -/
def storeBar : State :=
  { rollapps := [("bar_200-1", sampleRollapp "bar_200-1" "carol")]
    byEIP155 := [(200, "bar_200-1")]
    pendingStates := []
    frozenClients := [] }

/-- The store `storeBar` after `bar_200-1` was frozen. -/
def storeBarFrozen : State :=
  { rollapps := [("bar_200-1", { sampleRollapp "bar_200-1" "carol" with Frozen := true })]
    byEIP155 := [(200, "bar_200-1")]
    pendingStates := []
    frozenClients := [] }

/-- The store `storeBarFrozen` after `foo_100-1` was registered. -/
def storeBarFoo1 : State :=
  { rollapps := [("bar_200-1", { sampleRollapp "bar_200-1" "carol" with Frozen := true }),
                 ("foo_100-1", sampleRollapp "foo_100-1" "alice")]
    byEIP155 := [(100, "foo_100-1"), (200, "bar_200-1")]
    pendingStates := []
    frozenClients := [] }

/-- The store `storeBarFoo1` after `foo_100-1` was frozen. -/
def storeBarFoo1Frozen : State :=
  { rollapps := [("bar_200-1", { sampleRollapp "bar_200-1" "carol" with Frozen := true }),
                 ("foo_100-1", { sampleRollapp "foo_100-1" "alice" with Frozen := true })]
    byEIP155 := [(100, "foo_100-1"), (200, "bar_200-1")]
    pendingStates := []
    frozenClients := [] }

/-- The store `storeBarFoo1Frozen` after the fork `foo_100-2` was registered: `bar_200-1`
and `foo_100-1` are frozen, `foo_100-2` is active. -/
def storeBarFoo12 : State :=
  { rollapps := [("bar_200-1", { sampleRollapp "bar_200-1" "carol" with Frozen := true }),
                 ("foo_100-1", { sampleRollapp "foo_100-1" "alice" with Frozen := true }),
                 ("foo_100-2", sampleRollapp "foo_100-2" "bob")]
    byEIP155 := [(100, "foo_100-2"), (200, "bar_200-1")]
    pendingStates := []
    frozenClients := [] }

/-! ## The key-value store: reading after writing -/

theorem kvGet_kvSet_self {K V : Type} [DecidableEq K] (lt : K → K → Bool) (k : K) (v : V)
    (l : List (K × V)) : kvGet k (kvSet lt k v l) = some v := by
  induction l with
  | nil => simp [kvSet, kvGet]
  | cons p rest ih =>
    obtain ⟨k', v'⟩ := p
    by_cases h : k' = k
    · simp [kvSet, kvGet, h]
    · by_cases hlt : lt k k' = true
      · simp [kvSet, kvGet, h, hlt]
      · simp [kvSet, kvGet, h, hlt, ih]

theorem kvGet_kvSet_of_ne {K V : Type} [DecidableEq K] (lt : K → K → Bool) {k j : K}
    (hne : k ≠ j) (v : V) (l : List (K × V)) : kvGet j (kvSet lt k v l) = kvGet j l := by
  induction l with
  | nil => simp [kvSet, kvGet, hne]
  | cons p rest ih =>
    obtain ⟨k', v'⟩ := p
    by_cases h : k' = k
    · subst h
      simp [kvSet, kvGet, hne]
    · by_cases hlt : lt k k' = true
      · simp [kvSet, kvGet, h, hlt, hne]
      · by_cases hj : k' = j
        · subst hj
          simp [kvSet, kvGet, h, hlt]
        · simp [kvSet, kvGet, h, hlt, hj, ih]

theorem kvGet_mem {K V : Type} [DecidableEq K] {k : K} {v : V} {l : List (K × V)}
    (h : kvGet k l = some v) : (k, v) ∈ l := by
  induction l with
  | nil => simp [kvGet] at h
  | cons p rest ih =>
    obtain ⟨k', v'⟩ := p
    by_cases hk : k' = k
    · simp [kvGet, hk] at h
      simp [hk, h]
    · simp [kvGet, hk] at h
      exact List.mem_cons_of_mem _ (ih h)

theorem kvGet_isSome_of_mem {K V : Type} [DecidableEq K] {k : K} {v : V} {l : List (K × V)}
    (h : (k, v) ∈ l) : ∃ w, kvGet k l = some w := by
  induction l with
  | nil => simp at h
  | cons p rest ih =>
    obtain ⟨k', v'⟩ := p
    by_cases hk : k' = k
    · exact ⟨v', by simp [kvGet, hk]⟩
    · have hmem : (k, v) ∈ rest := by
        rcases List.mem_cons.1 h with h1 | h1
        · exact absurd (congrArg Prod.fst h1).symm hk
        · exact h1
      obtain ⟨w, hw⟩ := ih hmem
      exact ⟨w, by simp [kvGet, hk, hw]⟩

theorem kvSet_length_of_absent {K V : Type} [DecidableEq K] (lt : K → K → Bool) {k : K}
    (v : V) {l : List (K × V)} (h : kvGet k l = none) :
    (kvSet lt k v l).length = l.length + 1 := by
  induction l with
  | nil => simp [kvSet]
  | cons p rest ih =>
    obtain ⟨k', v'⟩ := p
    by_cases hk : k' = k
    · simp [kvGet, hk] at h
    · simp [kvGet, hk] at h
      by_cases hlt : lt k k' = true
      · simp [kvSet, hk, hlt]
      · simp [kvSet, hk, hlt, ih h]

/-! ## The key order -/

theorem char_eq_of_toNat {a b : Char} (h : a.toNat = b.toNat) : a = b := by
  apply Char.ext
  apply UInt32.eq_of_val_eq
  exact Fin.ext h

theorem bytesLt_irrefl : ∀ a : List Char, bytesLt a a = false := by
  intro a
  induction a with
  | nil => rfl
  | cons x xs ih => simp [bytesLt, ih]

theorem bytesLt_trans : ∀ {a b c : List Char},
    bytesLt a b = true → bytesLt b c = true → bytesLt a c = true := by
  intro a
  induction a with
  | nil =>
    intro b c hab hbc
    cases c with
    | nil => cases b <;> simp [bytesLt] at hbc
    | cons z zs => rfl
  | cons x xs ih =>
    intro b c hab hbc
    cases b with
    | nil => simp [bytesLt] at hab
    | cons y ys =>
      cases c with
      | nil => simp [bytesLt] at hbc
      | cons z zs =>
        simp only [bytesLt] at hab hbc ⊢
        by_cases hxy : x.toNat < y.toNat
        · by_cases hyz : y.toNat < z.toNat
          · rw [if_pos (by omega)]
          · rw [if_neg hyz] at hbc
            by_cases hzy : z.toNat < y.toNat
            · rw [if_pos hzy] at hbc
              exact absurd hbc (by simp)
            · rw [if_pos (by omega)]
        · rw [if_neg hxy] at hab
          by_cases hyx : y.toNat < x.toNat
          · rw [if_pos hyx] at hab
            exact absurd hab (by simp)
          · rw [if_neg hyx] at hab
            by_cases hyz : y.toNat < z.toNat
            · rw [if_pos (by omega)]
            · rw [if_neg hyz] at hbc
              by_cases hzy : z.toNat < y.toNat
              · rw [if_pos hzy] at hbc
                exact absurd hbc (by simp)
              · rw [if_neg hzy] at hbc
                rw [if_neg (by omega), if_neg (by omega)]
                exact ih hab hbc

theorem bytesLt_total : ∀ {a b : List Char},
    bytesLt a b = false → a ≠ b → bytesLt b a = true := by
  intro a
  induction a with
  | nil =>
    intro b hab hne
    cases b with
    | nil => exact absurd rfl hne
    | cons y ys => simp [bytesLt] at hab
  | cons x xs ih =>
    intro b hab hne
    cases b with
    | nil => rfl
    | cons y ys =>
      simp only [bytesLt] at hab ⊢
      by_cases hxy : x.toNat < y.toNat
      · rw [if_pos hxy] at hab
        exact absurd hab (by simp)
      · rw [if_neg hxy] at hab
        by_cases hyx : y.toNat < x.toNat
        · rw [if_pos hyx]
        · rw [if_neg hyx] at hab
          rw [if_neg hyx, if_neg hxy]
          have hxy1 : x = y := char_eq_of_toNat (by omega)
          apply ih hab
          intro hxs
          exact hne (by rw [hxy1, hxs])

theorem keyLt_irrefl (a : String) : keyLt a a = false := bytesLt_irrefl a.data

theorem keyLt_trans {a b c : String} (hab : keyLt a b = true) (hbc : keyLt b c = true) :
    keyLt a c = true := bytesLt_trans hab hbc

theorem keyLt_total {a b : String} (hab : keyLt a b = false) (hne : a ≠ b) :
    keyLt b a = true :=
  bytesLt_total hab (fun h => hne (String.ext h))

theorem mem_kvSet {K V : Type} [DecidableEq K] (lt : K → K → Bool) {k : K} {v : V}
    {l : List (K × V)} {p : K × V} (h : p ∈ kvSet lt k v l) : p = (k, v) ∨ p ∈ l := by
  induction l with
  | nil =>
    simp only [kvSet, List.mem_singleton] at h
    exact Or.inl h
  | cons q rest ih =>
    obtain ⟨k1, v1⟩ := q
    simp only [kvSet] at h
    by_cases hk : k1 = k
    · rw [if_pos hk] at h
      rcases List.mem_cons.1 h with h1 | h1
      · exact Or.inl h1
      · exact Or.inr (List.mem_cons_of_mem _ h1)
    · rw [if_neg hk] at h
      by_cases hlt : lt k k1 = true
      · rw [if_pos hlt] at h
        rcases List.mem_cons.1 h with h1 | h1
        · exact Or.inl h1
        · exact Or.inr h1
      · rw [if_neg hlt] at h
        rcases List.mem_cons.1 h with h1 | h1
        · exact Or.inr (by rw [h1]; exact List.mem_cons_self _ _)
        · rcases ih h1 with h2 | h2
          · exact Or.inl h2
          · exact Or.inr (List.mem_cons_of_mem _ h2)

theorem kvSet_sorted {K V : Type} [DecidableEq K] (lt : K → K → Bool)
    (htrans : ∀ a b c, lt a b = true → lt b c = true → lt a c = true)
    (htotal : ∀ a b, lt a b = false → a ≠ b → lt b a = true) (k : K) (v : V) :
    ∀ {l : List (K × V)}, l.Pairwise (fun p q => lt p.1 q.1 = true) →
      (kvSet lt k v l).Pairwise (fun p q => lt p.1 q.1 = true) := by
  intro l
  induction l with
  | nil =>
    intro _
    simp [kvSet]
  | cons q rest ih =>
    intro hs
    obtain ⟨k1, v1⟩ := q
    obtain ⟨hhead, hrest⟩ := List.pairwise_cons.1 hs
    simp only [kvSet]
    by_cases hk : k1 = k
    · rw [if_pos hk]
      subst hk
      exact List.pairwise_cons.2 ⟨hhead, hrest⟩
    · rw [if_neg hk]
      by_cases hlt : lt k k1 = true
      · rw [if_pos hlt]
        refine List.pairwise_cons.2 ⟨?_, hs⟩
        intro p hp
        rcases List.mem_cons.1 hp with h1 | h1
        · rw [h1]
          exact hlt
        · exact htrans _ _ _ hlt (hhead p h1)
      · rw [if_neg hlt]
        refine List.pairwise_cons.2 ⟨?_, ih hrest⟩
        intro p hp
        rcases mem_kvSet lt hp with h1 | h1
        · rw [h1]
          exact htotal _ _ (by simpa using hlt) (Ne.symm hk)
        · exact hhead p h1

theorem kvGet_of_mem_sorted {K V : Type} [DecidableEq K] (lt : K → K → Bool)
    (hirr : ∀ a, lt a a = false) :
    ∀ {l : List (K × V)}, l.Pairwise (fun p q => lt p.1 q.1 = true) →
      ∀ {k : K} {v : V}, (k, v) ∈ l → kvGet k l = some v := by
  intro l
  induction l with
  | nil =>
    intro _ k v h
    simp at h
  | cons q rest ih =>
    intro hs k v h
    obtain ⟨k1, v1⟩ := q
    obtain ⟨hhead, hrest⟩ := List.pairwise_cons.1 hs
    rcases List.mem_cons.1 h with h1 | h1
    · have e1 : k = k1 := congrArg Prod.fst h1
      have e2 : v = v1 := congrArg Prod.snd h1
      simp [kvGet, e1, e2]
    · have hlt := hhead (k, v) h1
      have hne : k1 ≠ k := by
        intro heq
        rw [heq] at hlt
        simp only at hlt
        rw [hirr] at hlt
        exact absurd hlt (by simp)
      simp only [kvGet]
      rw [if_neg hne]
      exact ih hrest h1

theorem kvGet_of_mem_rows {V : Type} {l : List (String × V)}
    (hs : l.Pairwise (fun p q => keyLt p.1 q.1 = true)) {k : String} {v : V}
    (h : (k, v) ∈ l) : kvGet k l = some v :=
  kvGet_of_mem_sorted keyLt keyLt_irrefl hs h

theorem kvGet_of_mem_index {V : Type} {l : List (Nat × V)}
    (hs : l.Pairwise (fun p q => decide (p.1 < q.1) = true)) {k : Nat} {v : V}
    (h : (k, v) ∈ l) : kvGet k l = some v :=
  kvGet_of_mem_sorted (fun a b => decide (a < b)) (fun a => by simp) hs h

/-! ## Writing a record -/

theorem SetRollapp_ret {s : State} {r : Rollapp} {c : ChainID}
    (h : NewChainID r.RollappId = some c) :
    SetRollapp s r = .ret
      { rollapps := kvSet keyLt r.RollappId r s.rollapps
        byEIP155 := kvSet (fun a b => decide (a < b)) c.eip155ID r.RollappId s.byEIP155
        pendingStates := s.pendingStates
        frozenClients := s.frozenClients } := by
  simp [SetRollapp, MustNewChainID, h]

theorem SetRollapp_inv {s t : State} {r : Rollapp} (h : SetRollapp s r = .ret t) :
    ∃ c, NewChainID r.RollappId = some c ∧
      t = { rollapps := kvSet keyLt r.RollappId r s.rollapps
            byEIP155 := kvSet (fun a b => decide (a < b)) c.eip155ID r.RollappId s.byEIP155
            pendingStates := s.pendingStates
            frozenClients := s.frozenClients } := by
  cases hc : NewChainID r.RollappId with
  | none => simp [SetRollapp, MustNewChainID, hc] at h
  | some c =>
    refine ⟨c, rfl, ?_⟩
    rw [SetRollapp_ret hc] at h
    exact (Result.ret.inj h).symm

theorem GetRollapp_SetRollapp_self {s t : State} {r : Rollapp} (h : SetRollapp s r = .ret t) :
    GetRollapp t r.RollappId = some r := by
  obtain ⟨c, _, rfl⟩ := SetRollapp_inv h
  simp [GetRollapp, kvGet_kvSet_self]

theorem GetRollapp_SetRollapp_of_ne {s t : State} {r : Rollapp} {id : String}
    (h : SetRollapp s r = .ret t) (hne : r.RollappId ≠ id) :
    GetRollapp t id = GetRollapp s id := by
  obtain ⟨c, _, rfl⟩ := SetRollapp_inv h
  simp [GetRollapp, kvGet_kvSet_of_ne _ hne]

/-! ## The shape of a well-formed chain id -/

theorem append_sep_inj {α : Type} (p : α → Bool) :
    ∀ {l1 l2 : List α} {x y : α} {t1 t2 : List α},
      (∀ c ∈ l1, p c = true) → (∀ c ∈ l2, p c = true) → p x = false → p y = false →
      l1 ++ x :: t1 = l2 ++ y :: t2 → l1 = l2 ∧ x = y ∧ t1 = t2 := by
  intro l1
  induction l1 with
  | nil =>
    intro l2 x y t1 t2 _ h2 hx _ h
    cases l2 with
    | nil =>
      simp at h
      exact ⟨rfl, h.1, h.2⟩
    | cons z l2 =>
      simp at h
      have hz := h2 z (List.mem_cons_self _ _)
      rw [← h.1, hx] at hz
      exact absurd hz (by simp)
  | cons w l1 ih =>
    intro l2 x y t1 t2 h1 h2 hx hy h
    cases l2 with
    | nil =>
      simp at h
      have hw := h1 w (List.mem_cons_self _ _)
      rw [h.1, hy] at hw
      exact absurd hw (by simp)
    | cons z l2 =>
      simp at h
      obtain ⟨hwz, hrest⟩ := h
      obtain ⟨e1, e2, e3⟩ := ih (fun c hc => h1 c (List.mem_cons_of_mem _ hc))
        (fun c hc => h2 c (List.mem_cons_of_mem _ hc)) hx hy hrest
      exact ⟨by rw [hwz, e1], e2, e3⟩

theorem NewChainID_shape {id : String} {a : ChainID} (h : NewChainID id = some a) :
    ∃ (n e r : List Char) (sep dash : Char),
      id.data = n ++ sep :: (e ++ dash :: r) ∧ sep.toNat = 95 ∧ dash.toNat = 45 ∧ n ≠ [] ∧
      (∀ c ∈ n, isNameChar c = true) ∧ (∀ c ∈ e, isDigitChar c = true) ∧
      validNumber e = true ∧ validNumber r = true ∧
      parseUint e < 2 ^ 64 ∧ parseUint r < 2 ^ 64 ∧
      a = ⟨id, String.mk n, parseUint e, parseUint r⟩ := by
  unfold NewChainID at h
  cases hd : id.data.dropWhile isNameChar with
  | nil => simp [hd] at h
  | cons sep rest =>
    cases hr : rest.dropWhile isDigitChar with
    | nil => simp [hd, hr] at h
    | cons dash rev =>
      simp only [hd, hr] at h
      split_ifs at h with hc
      obtain ⟨h1, h2, h3, h4, h5, h6, h7⟩ := hc
      refine ⟨id.data.takeWhile isNameChar, rest.takeWhile isDigitChar, rev, sep, dash,
        ?_, h1, h2, h3, ?_, ?_, h4, h5, h6, h7, ?_⟩
      · have e1 := List.takeWhile_append_dropWhile isNameChar id.data
        have e2 := List.takeWhile_append_dropWhile isDigitChar rest
        rw [hd] at e1
        rw [hr] at e2
        rw [e2, e1]
      · intro c hc
        exact List.mem_takeWhile_imp hc
      · intro c hc
        exact List.mem_takeWhile_imp hc
      · exact (Option.some.inj h).symm

theorem NewChainID_chainID {id : String} {a : ChainID} (h : NewChainID id = some a) :
    a.chainID = id := by
  obtain ⟨n, e, r, sep, dash, -, -, -, -, -, -, -, -, -, -, ha⟩ := NewChainID_shape h
  rw [ha]

theorem NewChainID_bounds {id : String} {a : ChainID} (h : NewChainID id = some a) :
    a.eip155ID < 2 ^ 64 ∧ a.revision < 2 ^ 64 := by
  obtain ⟨n, e, r, sep, dash, -, -, -, -, -, -, -, -, h1, h2, ha⟩ := NewChainID_shape h
  rw [ha]
  exact ⟨h1, h2⟩

theorem NewChainID_wellFormed {id : String} {a : ChainID} (h : NewChainID id = some a) :
    a.WellFormed := by
  unfold ChainID.WellFormed
  rw [NewChainID_chainID h, h]

/-! ## Decimal numerals -/

theorem validNumber_facts {ds : List Char} (h : validNumber ds = true) :
    ds ≠ [] ∧ (∀ c ∈ ds, isDigitChar c = true) ∧ ∀ hne : ds ≠ [], (ds.head hne).toNat ≠ 48 := by
  cases ds with
  | nil => simp [validNumber] at h
  | cons d rest =>
    simp only [validNumber, Bool.and_eq_true, decide_eq_true_eq, List.all_eq_true] at h
    obtain ⟨⟨hd, hz⟩, hrest⟩ := h
    refine ⟨by simp, ?_, ?_⟩
    · intro c hc
      rcases List.mem_cons.1 hc with rfl | hc
      · exact hd
      · exact hrest c hc
    · intro _
      simpa using hz

theorem digitVal_lt {c : Char} (h : isDigitChar c = true) : digitVal c < 10 := by
  simp only [isDigitChar, decide_eq_true_eq] at h
  unfold digitVal
  omega

theorem digitVal_inj {c d : Char} (hc : isDigitChar c = true) (hd : isDigitChar d = true)
    (h : digitVal c = digitVal d) : c = d := by
  simp only [isDigitChar, decide_eq_true_eq] at hc hd
  unfold digitVal at h
  exact char_eq_of_toNat (by omega)

theorem map_digitVal_inj : ∀ {l1 l2 : List Char},
    (∀ c ∈ l1, isDigitChar c = true) → (∀ c ∈ l2, isDigitChar c = true) →
    l1.map digitVal = l2.map digitVal → l1 = l2 := by
  intro l1
  induction l1 with
  | nil =>
    intro l2 _ _ h
    cases l2 with
    | nil => rfl
    | cons d l2 => simp at h
  | cons c l1 ih =>
    intro l2 h1 h2 h
    cases l2 with
    | nil => simp at h
    | cons d l2 =>
      simp only [List.map_cons, List.cons.injEq] at h
      have e1 := digitVal_inj (h1 c (List.mem_cons_self _ _)) (h2 d (List.mem_cons_self _ _)) h.1
      have e2 := ih (fun x hx => h1 x (List.mem_cons_of_mem _ hx))
        (fun x hx => h2 x (List.mem_cons_of_mem _ hx)) h.2
      rw [e1, e2]

theorem digits_parseUint {ds : List Char} (h : validNumber ds = true) :
    Nat.digits 10 (parseUint ds) = ds.reverse.map digitVal := by
  obtain ⟨hne, hdig, hhead⟩ := validNumber_facts h
  unfold parseUint
  apply Nat.digits_ofDigits 10 (by norm_num)
  · intro l hl
    obtain ⟨c, hc, rfl⟩ := List.mem_map.1 hl
    exact digitVal_lt (hdig c (List.mem_reverse.1 hc))
  · intro hL
    rw [List.getLast_map]
    have hrev : ds.reverse ≠ [] := by simpa using hne
    rw [List.getLast_reverse hrev]
    have h48 := hhead hne
    have hd := hdig (ds.head hne) (List.head_mem hne)
    simp only [isDigitChar, decide_eq_true_eq] at hd
    unfold digitVal
    omega

theorem parseUint_inj {d1 d2 : List Char} (h1 : validNumber d1 = true)
    (h2 : validNumber d2 = true) (h : parseUint d1 = parseUint d2) : d1 = d2 := by
  have e1 := digits_parseUint h1
  have e2 := digits_parseUint h2
  rw [h, e2] at e1
  have e3 : d2.reverse = d1.reverse :=
    map_digitVal_inj
      (fun c hc => (validNumber_facts h2).2.1 c (List.mem_reverse.1 hc))
      (fun c hc => (validNumber_facts h1).2.1 c (List.mem_reverse.1 hc)) e1
  exact (List.reverse_injective e3).symm

theorem parseUint_ne_zero {ds : List Char} (h : validNumber ds = true) : parseUint ds ≠ 0 := by
  intro h0
  have e := digits_parseUint h
  rw [h0, Nat.digits_zero] at e
  have hne := (validNumber_facts h).1
  have : ds.reverse.map digitVal ≠ [] := by simpa using hne
  exact this e.symm

/-! ## Names, numbers and keys -/

theorem NewChainID_revision_ne_zero {id : String} {a : ChainID} (h : NewChainID id = some a) :
    a.revision ≠ 0 := by
  obtain ⟨n, e, r, sep, dash, -, -, -, -, -, -, -, hr, -, -, ha⟩ := NewChainID_shape h
  rw [ha]
  exact parseUint_ne_zero hr

theorem isNameChar_sep {c : Char} (h : c.toNat = 95) : isNameChar c = false := by
  simp [isNameChar, h]

theorem isDigitChar_dash {c : Char} (h : c.toNat = 45) : isDigitChar c = false := by
  simp [isDigitChar, h]

theorem NewChainID_inj {k1 k2 : String} {a1 a2 : ChainID} (h1 : NewChainID k1 = some a1)
    (h2 : NewChainID k2 = some a2) (hn : a1.name = a2.name)
    (he : a1.eip155ID = a2.eip155ID) (hr : a1.revision = a2.revision) : k1 = k2 := by
  obtain ⟨n1, e1, r1, s1, d1, hk1, hs1, hd1, -, -, -, ve1, vr1, -, -, ha1⟩ :=
    NewChainID_shape h1
  obtain ⟨n2, e2, r2, s2, d2, hk2, hs2, hd2, -, -, -, ve2, vr2, -, -, ha2⟩ :=
    NewChainID_shape h2
  subst ha1 ha2
  simp only at hn he hr
  have hn' : n1 = n2 := congrArg String.data hn
  have he' : e1 = e2 := parseUint_inj ve1 ve2 he
  have hr' : r1 = r2 := parseUint_inj vr1 vr2 hr
  have hs : s1 = s2 := char_eq_of_toNat (by rw [hs1, hs2])
  have hd : d1 = d2 := char_eq_of_toNat (by rw [hd1, hd2])
  apply String.ext
  rw [hk1, hk2, hn', he', hr', hs, hd]

theorem hasKeyPrefix_name_iff {c : ChainID} (hc : c.WellFormed) {k : String} {a : ChainID}
    (h : NewChainID k = some a) :
    hasKeyPrefix (c.name ++ "_") k = true ↔ a.name = c.name := by
  obtain ⟨n1, e1, r1, s1, d1, -, -, -, -, hn1, -, -, -, -, -, ha1⟩ := NewChainID_shape hc
  obtain ⟨n2, e2, r2, s2, d2, hk2, hs2, -, -, hn2, -, -, -, -, -, ha2⟩ := NewChainID_shape h
  have hcn : c.name = String.mk n1 := by rw [ha1]
  have han : a.name = String.mk n2 := by rw [ha2]
  have hs2' : s2 = (95 : Nat).toUInt8.toChar := char_eq_of_toNat (by rw [hs2]; rfl)
  unfold hasKeyPrefix
  rw [ List.isPrefixOf_iff_prefix, String.data_append, hcn, han, hk2]
  constructor
  · rintro ⟨t, ht⟩
    have hsep : isNameChar s2 = false := isNameChar_sep hs2
    have hund : isNameChar (95 : Nat).toUInt8.toChar = false := by decide
    have heq : n1 ++ (95 : Nat).toUInt8.toChar :: t = n2 ++ s2 :: (e2 ++ d2 :: r2) := by
      rw [← ht]
      simp
      rfl
    rw [(append_sep_inj isNameChar hn1 hn2 hund hsep heq).1]
  · intro hnn
    have : n2 = n1 := congrArg String.data hnn
    subst this
    refine ⟨e2 ++ d2 :: r2, ?_⟩
    rw [hs2']
    simp
    rfl

/-! ## Reading the store -/

theorem GetRollappByName_eq (s : State) (name : String) :
    GetRollappByName s name =
      (s.rollapps.find? (fun p => hasKeyPrefix (name ++ "_") p.1)).map Prod.snd := by
  unfold GetRollappByName kvFirstWithPrefix
  dsimp only
  cases List.find? (fun p => hasKeyPrefix (name ++ "_") p.1) s.rollapps <;> rfl

theorem GetRollappByName_eq_none_iff (s : State) (name : String) :
    GetRollappByName s name = none ↔
      ∀ k r, GetRollapp s k = some r → hasKeyPrefix (name ++ "_") k = false := by
  rw [GetRollappByName_eq]
  constructor
  · intro h k r hk
    cases hf : List.find? (fun p => hasKeyPrefix (name ++ "_") p.1) s.rollapps with
    | some p => simp [hf] at h
    | none =>
      have hall := List.find?_eq_none.1 hf (k, r) (kvGet_mem hk)
      simpa using hall
  · intro h
    cases hf : List.find? (fun p => hasKeyPrefix (name ++ "_") p.1) s.rollapps with
    | none => rfl
    | some p =>
      exfalso
      have hp := List.find?_some hf
      have hmem := List.mem_of_find?_eq_some hf
      obtain ⟨w, hw⟩ := kvGet_isSome_of_mem (show (p.1, p.2) ∈ s.rollapps from hmem)
      have := h p.1 w hw
      simp only at hp
      rw [this] at hp
      exact absurd hp (by simp)

theorem GetRollappByEIP155_some {s : State} {e : Nat} {R : Rollapp}
    (h : GetRollappByEIP155 s e = some R) :
    ∃ id, kvGet e s.byEIP155 = some id ∧ GetRollapp s id = some R := by
  unfold GetRollappByEIP155 at h
  cases hi : kvGet e s.byEIP155 with
  | none => simp [hi] at h
  | some id =>
    simp only [hi] at h
    exact ⟨id, rfl, h⟩

theorem Consistent_key {s : State} (hs : s.Consistent) {k : String} {r : Rollapp}
    (h : GetRollapp s k = some r) :
    r.RollappId = k ∧ ∃ a, NewChainID k = some a ∧
      ∃ r0, GetRollappByEIP155 s a.eip155ID = some r0 := by
  have hrow := List.all_eq_true.1 hs.1 (k, r) (kvGet_mem h)
  simp only [rowIndexed, Bool.and_eq_true, decide_eq_true_eq] at hrow
  obtain ⟨h1, h2⟩ := hrow
  refine ⟨h1, ?_⟩
  cases hp : NewChainID k with
  | none => simp [hp] at h2
  | some a =>
    simp only [hp] at h2
    exact ⟨a, rfl, Option.isSome_iff_exists.1 h2⟩

theorem Consistent_index {s : State} (hs : s.Consistent) {e : Nat} {id : String}
    (h : kvGet e s.byEIP155 = some id) : ∃ a, NewChainID id = some a ∧ a.eip155ID = e := by
  have hrow := List.all_eq_true.1 hs.2 (e, id) (kvGet_mem h)
  simp only [indexRowOK] at hrow
  cases hp : NewChainID id with
  | none => simp [hp] at hrow
  | some a =>
    simp only [hp, decide_eq_true_eq] at hrow
    exact ⟨a, rfl, hrow⟩

theorem next_revision {a c : ChainID} (ha : a.revision < 2 ^ 64) (hc0 : c.revision ≠ 0)
    (hc : c.revision < 2 ^ 64) :
    c.revision = (a.revision + 1) % 2 ^ 64 ↔ c.revision = a.revision + 1 := by
  constructor
  · intro h
    by_cases hlt : a.revision + 1 < 2 ^ 64
    · rwa [Nat.mod_eq_of_lt hlt] at h
    · have : a.revision + 1 = 2 ^ 64 := by omega
      rw [this, Nat.mod_self] at h
      exact absurd h hc0
  · intro h
    rw [← h, Nat.mod_eq_of_lt hc]

/-! ## Registering a fresh id or a fork (C1, C2, C3) -/

theorem CheckIfRollappExists_fresh_path {s : State} {c : ChainID}
    (hfresh : GetRollapp s c.chainID = none)
    (he : GetRollappByEIP155 s c.eip155ID = none) :
    CheckIfRollappExists s c =
      if (GetRollappByName s c.name).isSome then .ret (some .ErrRollappExists)
      else if c.revision ≠ 1 then
        .ret (some (.wrap .ErrInvalidRollappID
          ("revision number should be 1, got: " ++ toString c.revision)))
      else .ret none := by
  simp [CheckIfRollappExists, hfresh, he]

theorem CheckIfRollappExists_fork_path {s : State} {c a : ChainID} {R : Rollapp}
    (hfresh : GetRollapp s c.chainID = none)
    (he : GetRollappByEIP155 s c.eip155ID = some R) (hf : R.Frozen = true)
    (ha : NewChainID R.RollappId = some a) :
    CheckIfRollappExists s c =
      if c.name ≠ a.name then
        .ret (some (.wrap .ErrInvalidRollappID ("rollapp name should be " ++ a.name)))
      else if c.revision ≠ (a.revision + 1) % 2 ^ 64 then
        .ret (some (.wrap .ErrInvalidRollappID
          ("revision number should be " ++ toString ((a.revision + 1) % 2 ^ 64))))
      else .ret none := by
  simp [CheckIfRollappExists, hfresh, he, hf, MustNewChainID, ha]

theorem CheckIfRollappExists_of_stored {s : State} {c : ChainID} {r : Rollapp}
    (h : GetRollapp s c.chainID = some r) :
    CheckIfRollappExists s c = .ret (some .ErrRollappExists) := by
  simp [CheckIfRollappExists, h]

theorem CheckIfRollappExists_of_active {s : State} {c : ChainID} {r : Rollapp}
    (h : GetRollappByEIP155 s c.eip155ID = some r) (hf : r.Frozen = false) :
    CheckIfRollappExists s c = .ret (some .ErrRollappExists) := by
  unfold CheckIfRollappExists
  split
  · rfl
  · simp [h, hf]

/-- C1 (amended): in a store whose rows are all as `SetRollapp` writes them, for a
well-formed candidate whose full id is not stored, `CheckIfRollappExists` returns no
error if and only if either no stored record shares the candidate's name, none
shares its EIP155 id and its revision is 1, or the candidate is a fork: the record
the EIP155 index leads to is frozen, has the candidate's name and has the revision
just below the candidate's. -/
theorem CheckIfRollappExists_fresh_iff (s : State) (c : ChainID) (hs : s.Consistent)
    (hc : c.WellFormed) (hfresh : GetRollapp s c.chainID = none) :
    CheckIfRollappExists s c = .ret none ↔ FreshRegistration s c ∨ ForkRegistration s c := by
  have hb := NewChainID_bounds hc
  have h0 := NewChainID_revision_ne_zero hc
  cases he : GetRollappByEIP155 s c.eip155ID with
  | none =>
    rw [CheckIfRollappExists_fresh_path hfresh he]
    constructor
    · intro h
      by_cases hname : (GetRollappByName s c.name).isSome = true
      · simp [hname] at h
      · by_cases hrev : c.revision = 1
        · left
          have hnone : GetRollappByName s c.name = none := by
            cases hg : GetRollappByName s c.name with
            | none => rfl
            | some r => simp [hg] at hname
          have hpre := (GetRollappByName_eq_none_iff s c.name).1 hnone
          refine ⟨?_, ?_, hrev⟩
          · intro k r a hk ha hn
            obtain ⟨hid, _⟩ := Consistent_key hs hk
            rw [hid] at ha
            have := (hasKeyPrefix_name_iff hc ha).2 hn
            rw [hpre k r hk] at this
            exact absurd this (by simp)
          · intro k r a hk ha hne
            obtain ⟨hid, a1, ha1, r0, hr0⟩ := Consistent_key hs hk
            rw [hid, ha1] at ha
            have haa : a1 = a := Option.some.inj ha
            rw [haa, hne, he] at hr0
            exact absurd hr0 (by simp)
        · simp [hname, hrev] at h
    · rintro (⟨hn, _, hrev⟩ | ⟨R, a, hR, _⟩)
      · have hnone : GetRollappByName s c.name = none := by
          rw [GetRollappByName_eq_none_iff]
          intro k r hk
          obtain ⟨hid, a1, ha1, _⟩ := Consistent_key hs hk
          cases hp : hasKeyPrefix (c.name ++ "_") k with
          | false => rfl
          | true =>
            exfalso
            exact hn k r a1 hk (by rw [hid]; exact ha1) ((hasKeyPrefix_name_iff hc ha1).1 hp)
        simp [hnone, hrev]
      · rw [he] at hR
        exact absurd hR (by simp)
  | some R =>
    constructor
    · intro h
      right
      have hf : R.Frozen = true := by
        cases hfz : R.Frozen with
        | true => rfl
        | false =>
          rw [CheckIfRollappExists_of_active he hfz] at h
          exact absurd h (by simp)
      cases ha : NewChainID R.RollappId with
      | none => simp [CheckIfRollappExists, hfresh, he, hf, MustNewChainID, ha] at h
      | some a =>
        rw [CheckIfRollappExists_fork_path hfresh he hf ha] at h
        by_cases hname : c.name = a.name
        · by_cases hrev : c.revision = (a.revision + 1) % 2 ^ 64
          · exact ⟨R, a, he, hf, ha, hname.symm,
              (next_revision (NewChainID_bounds ha).2 h0 hb.2).1 hrev⟩
          · rw [if_neg (not_not.2 hname), if_pos hrev] at h
            exact absurd h (by simp)
        · rw [if_pos hname] at h
          exact absurd h (by simp)
    · rintro (⟨_, hne, _⟩ | ⟨R1, a, hR, hf, ha, hname, hrev⟩)
      · exfalso
        obtain ⟨id, hi, hg⟩ := GetRollappByEIP155_some he
        obtain ⟨hid, _⟩ := Consistent_key hs hg
        obtain ⟨a1, ha1, hae⟩ := Consistent_index hs hi
        exact hne id R a1 hg (by rw [hid]; exact ha1) hae
      · have hRR : R1 = R := Option.some.inj (hR.symm.trans he)
        subst hRR
        rw [CheckIfRollappExists_fork_path hfresh he hf ha]
        have hrev' := (next_revision (NewChainID_bounds ha).2 h0 hb.2).2 hrev
        rw [if_neg (not_not.2 hname.symm), if_neg (not_not.2 hrev')]

theorem CheckIfRollappExists_fresh_iff_witness :
    CheckIfRollappExists storeFoo1Frozen foo2 = .ret none ↔
      FreshRegistration storeFoo1Frozen foo2 ∨ ForkRegistration storeFoo1Frozen foo2 :=
  CheckIfRollappExists_fresh_iff storeFoo1Frozen foo2 (by decide) (by decide) (by decide)

/-- Counterexample to C1 as stated: with `foo_100-1` stored and frozen, the fresh well-formed id
`foo_100-2` passes the check although a stored record shares its name and its EIP155
id and its revision is 2. -/
theorem CheckIfRollappExists_fresh_counterexample :
    storeFoo1Frozen.Consistent ∧ foo2.WellFormed ∧
    GetRollapp storeFoo1Frozen foo2.chainID = none ∧
    ¬ (CheckIfRollappExists storeFoo1Frozen foo2 = .ret none ↔
        FreshRegistration storeFoo1Frozen foo2) := by
  refine ⟨by decide, by decide, by decide, ?_⟩
  intro h
  have hfresh := h.1 (by decide)
  exact absurd hfresh.2.2 (by decide)

/-- After the administrative removal of `foo_100-2` the store is no longer consistent:
the EIP155 index still names the removed record, the lookup by EIP155 id misses, and
the fresh id `bar_100-1` passes the check although the stored `foo_100-1` shares its
EIP155 id.  `RemoveRollapp` is the one operation that leaves such a store. -/
theorem CheckIfRollappExists_after_removal :
    ¬ (RemoveRollapp storeFoo12 "foo_100-2").Consistent ∧ bar1.WellFormed ∧
    GetRollapp (RemoveRollapp storeFoo12 "foo_100-2") bar1.chainID = none ∧
    CheckIfRollappExists (RemoveRollapp storeFoo12 "foo_100-2") bar1 = .ret none ∧
    ¬ FreshRegistration (RemoveRollapp storeFoo12 "foo_100-2") bar1 ∧
    ¬ ForkRegistration (RemoveRollapp storeFoo12 "foo_100-2") bar1 := by
  refine ⟨by decide, by decide, by decide, by decide, ?_, ?_⟩
  · intro h
    exact h.2.1 "foo_100-1" { sampleRollapp "foo_100-1" "alice" with Frozen := true } foo1
      (by decide) (by decide) rfl
  · rintro ⟨R, a, hR, _⟩
    have hnone : GetRollappByEIP155 (RemoveRollapp storeFoo12 "foo_100-2") bar1.eip155ID
        = none := by decide
    rw [hnone] at hR
    exact absurd hR (by simp)

/-- C2 (amended): when the EIP155 index leads to a stored frozen record `R`, every
well-formed candidate whose full id is not stored yet and that has the name and
EIP155 id of `R` and the revision of `R` plus one passes `CheckIfRollappExists`, and
`SetRollapp` of a record with that id leaves `R` and the new record in the store,
under different ids, one row more than before. -/
theorem fork_registration (s : State) (c a : ChainID) (R new : Rollapp)
    (hc : c.WellFormed) (hfresh : GetRollapp s c.chainID = none)
    (hstored : GetRollapp s R.RollappId = some R) (ha : NewChainID R.RollappId = some a)
    (hR : GetRollappByEIP155 s a.eip155ID = some R) (hf : R.Frozen = true)
    (hn : c.name = a.name) (he : c.eip155ID = a.eip155ID)
    (hrev : c.revision = a.revision + 1) (hnew : new.RollappId = c.chainID) :
    CheckIfRollappExists s c = .ret none ∧
    ∃ t, SetRollapp s new = .ret t ∧ GetRollapp t R.RollappId = some R ∧
      GetRollapp t new.RollappId = some new ∧ R.RollappId ≠ new.RollappId ∧
      t.rollapps.length = s.rollapps.length + 1 := by
  have hb := NewChainID_bounds hc
  have h0 := NewChainID_revision_ne_zero hc
  have hne : R.RollappId ≠ new.RollappId := by
    intro heq
    rw [heq, hnew, hfresh] at hstored
    exact absurd hstored (by simp)
  have hparse : NewChainID new.RollappId = some c := by rw [hnew]; exact hc
  constructor
  · rw [← he] at hR
    rw [CheckIfRollappExists_fork_path hfresh hR hf ha]
    have hrev1 := (next_revision (NewChainID_bounds ha).2 h0 hb.2).2 hrev
    rw [if_neg (not_not.2 hn), if_neg (not_not.2 hrev1)]
  · refine ⟨_, SetRollapp_ret hparse, ?_, ?_, hne, ?_⟩
    · simp only [GetRollapp]
      rw [kvGet_kvSet_of_ne _ (Ne.symm hne)]
      exact hstored
    · simp only [GetRollapp]
      rw [kvGet_kvSet_self]
    · apply kvSet_length_of_absent
      rw [hnew]
      exact hfresh

theorem fork_registration_witness :
    CheckIfRollappExists storeFoo1Frozen foo2 = .ret none ∧
    ∃ t, SetRollapp storeFoo1Frozen (sampleRollapp "foo_100-2" "bob") = .ret t ∧
      GetRollapp t ({ sampleRollapp "foo_100-1" "alice" with Frozen := true }).RollappId
        = some { sampleRollapp "foo_100-1" "alice" with Frozen := true } ∧
      GetRollapp t (sampleRollapp "foo_100-2" "bob").RollappId
        = some (sampleRollapp "foo_100-2" "bob") ∧
      ({ sampleRollapp "foo_100-1" "alice" with Frozen := true } : Rollapp).RollappId
        ≠ (sampleRollapp "foo_100-2" "bob").RollappId ∧
      t.rollapps.length = storeFoo1Frozen.rollapps.length + 1 :=
  fork_registration storeFoo1Frozen foo2 foo1
    { sampleRollapp "foo_100-1" "alice" with Frozen := true } (sampleRollapp "foo_100-2" "bob")
    (by decide) (by decide) (by decide) (by decide) (by decide) rfl rfl rfl rfl rfl

/-- Counterexample to C2 as stated: once the fork `foo_100-2` is registered, the frozen record
`foo_100-1` is still stored, and the candidate `foo_100-2` (its name, its EIP155 id,
its revision plus one) is refused with `ErrRollappExists`. -/
theorem fork_registration_counterexample :
    GetRollapp storeFoo12 "foo_100-1"
      = some { sampleRollapp "foo_100-1" "alice" with Frozen := true } ∧
    NewChainID "foo_100-1" = some foo1 ∧ foo2.WellFormed ∧
    foo2.name = foo1.name ∧ foo2.eip155ID = foo1.eip155ID ∧
    foo2.revision = foo1.revision + 1 ∧
    CheckIfRollappExists storeFoo12 foo2 = .ret (some .ErrRollappExists) ∧
    CheckIfRollappExists storeFoo12 foo2 ≠ .ret none := by
  decide

/-- C3 (amended): when the EIP155 index leads from the candidate's EIP155 id to a
frozen record `R` with a well-formed id, and the well-formed candidate's full id is
not stored, `CheckIfRollappExists` fails with `ErrInvalidRollappID` if the candidate's
revision is not the revision of `R` plus one, and also if its name is not the name
of `R`. -/
theorem fork_mismatch (s : State) (c a : ChainID) (R : Rollapp)
    (hc : c.WellFormed) (hfresh : GetRollapp s c.chainID = none)
    (hR : GetRollappByEIP155 s c.eip155ID = some R) (hf : R.Frozen = true)
    (ha : NewChainID R.RollappId = some a) :
    (c.revision ≠ a.revision + 1 →
      ∃ e, CheckIfRollappExists s c = .ret (some e) ∧ e.Is .ErrInvalidRollappID = true) ∧
    (c.name ≠ a.name →
      ∃ e, CheckIfRollappExists s c = .ret (some e) ∧ e.Is .ErrInvalidRollappID = true) := by
  have hb := NewChainID_bounds hc
  have h0 := NewChainID_revision_ne_zero hc
  rw [CheckIfRollappExists_fork_path hfresh hR hf ha]
  constructor
  · intro hrev
    have hrev1 : c.revision ≠ (a.revision + 1) % 2 ^ 64 :=
      fun h => hrev ((next_revision (NewChainID_bounds ha).2 h0 hb.2).1 h)
    by_cases hn : c.name = a.name
    · rw [if_neg (not_not.2 hn), if_pos hrev1]
      exact ⟨_, rfl, by simp [Error.Is]⟩
    · rw [if_pos hn]
      exact ⟨_, rfl, by simp [Error.Is]⟩
  · intro hn
    rw [if_pos hn]
    exact ⟨_, rfl, by simp [Error.Is]⟩

theorem fork_mismatch_witness :
    (∃ e, CheckIfRollappExists storeFoo1Frozen foo3 = .ret (some e) ∧
      e.Is .ErrInvalidRollappID = true) ∧
    (∃ e, CheckIfRollappExists storeFoo1Frozen bar1 = .ret (some e) ∧
      e.Is .ErrInvalidRollappID = true) :=
  ⟨(fork_mismatch storeFoo1Frozen foo3 foo1
      { sampleRollapp "foo_100-1" "alice" with Frozen := true }
      (by decide) (by decide) (by decide) rfl (by decide)).1 (by decide),
   (fork_mismatch storeFoo1Frozen bar1 foo1
      { sampleRollapp "foo_100-1" "alice" with Frozen := true }
      (by decide) (by decide) (by decide) rfl (by decide)).2 (by decide)⟩

/-- Counterexample to C3 as stated: with `foo_100-1` stored and frozen and reached through the
EIP155 index, the candidate `foo_100-1` has its EIP155 id and a revision other than
2, yet the check fails with `ErrRollappExists`, not with `ErrInvalidRollappID`. -/
theorem fork_mismatch_counterexample :
    GetRollappByEIP155 storeFoo1Frozen foo1.eip155ID
      = some { sampleRollapp "foo_100-1" "alice" with Frozen := true } ∧
    foo1.WellFormed ∧ foo1.revision ≠ 1 + 1 ∧
    CheckIfRollappExists storeFoo1Frozen foo1 = .ret (some .ErrRollappExists) ∧
    Error.ErrRollappExists.Is .ErrInvalidRollappID = false := by
  decide

/-! ## Freezing and forking (C5) -/

theorem FreezeRollapp_inv {k : Keeper} {s t : State} {id : String} {e : Option Error}
    (h : FreezeRollapp k s id = .ret (t, e)) :
    (e ≠ none ∧ t.rollapps = s.rollapps ∧ t.byEIP155 = s.byEIP155) ∨
    (e = none ∧ ∃ R s0, GetRollapp s id = some R ∧ s0.rollapps = s.rollapps ∧
      s0.byEIP155 = s.byEIP155 ∧ SetRollapp s0 { R with Frozen := true } = .ret t) := by
  unfold FreezeRollapp at h
  cases hg : GetRollapp s id with
  | none =>
    simp only [hg] at h
    have := Result.ret.inj h
    simp only [Prod.mk.injEq] at this
    left
    exact ⟨by rw [← this.2]; simp, by rw [← this.1], by rw [← this.1]⟩
  | some R =>
    simp only [hg] at h
    by_cases hch : R.ChannelId = ""
    · rw [if_neg (not_not.2 hch)] at h
      cases hset : SetRollapp (RevertPendingStates s id) { R with Frozen := true } with
      | panic => simp [hset] at h
      | ret s2 =>
        simp only [hset] at h
        have := Result.ret.inj h
        simp only [Prod.mk.injEq] at this
        right
        refine ⟨this.2.symm, R, RevertPendingStates s id, rfl, rfl, rfl, ?_⟩
        rw [hset, this.1]
    · rw [if_pos hch] at h
      cases hcl : k.GetChannelClientState "transfer" R.ChannelId with
      | error err =>
        simp only [hcl] at h
        have := Result.ret.inj h
        simp only [Prod.mk.injEq] at this
        left
        exact ⟨by rw [← this.2]; simp, by rw [← this.1]; rfl, by rw [← this.1]; rfl⟩
      | ok clientID =>
        simp only [hcl] at h
        cases hfc : k.freezeClientError clientID with
        | some err =>
          simp only [freezeClientState, hfc] at h
          have := Result.ret.inj h
          simp only [Prod.mk.injEq] at this
          left
          exact ⟨by rw [← this.2]; simp, by rw [← this.1]; rfl, by rw [← this.1]; rfl⟩
        | none =>
          simp only [freezeClientState, hfc] at h
          cases hset : SetRollapp
              { RevertPendingStates s id with
                frozenClients := clientID :: (RevertPendingStates s id).frozenClients }
              { R with Frozen := true } with
          | panic => simp [hset] at h
          | ret s2 =>
            simp only [hset] at h
            have := Result.ret.inj h
            simp only [Prod.mk.injEq] at this
            right
            refine ⟨this.2.symm, R,
              { RevertPendingStates s id with
                frozenClients := clientID :: (RevertPendingStates s id).frozenClients },
              rfl, rfl, rfl, ?_⟩
            rw [hset, this.1]

theorem CheckIfRollappExists_name_collision {t : State} {c : ChainID} {k : String}
    {r : Rollapp} {a : ChainID} (hc : c.WellFormed) (hst : Stored t k r a)
    (hname : a.name = c.name)
    (hnf : ∀ R, GetRollappByEIP155 t c.eip155ID = some R → R.Frozen = false) :
    CheckIfRollappExists t c = .ret (some .ErrRollappExists) := by
  cases hx : GetRollapp t c.chainID with
  | some r0 => exact CheckIfRollappExists_of_stored hx
  | none =>
    cases he : GetRollappByEIP155 t c.eip155ID with
    | some R => exact CheckIfRollappExists_of_active he (hnf R he)
    | none =>
      rw [CheckIfRollappExists_fresh_path hx he]
      have hsome : (GetRollappByName t c.name).isSome = true := by
        cases hg : GetRollappByName t c.name with
        | some r1 => rfl
        | none =>
          exfalso
          have hpre := (GetRollappByName_eq_none_iff t c.name).1 hg k r hst.1
          rw [(hasKeyPrefix_name_iff hc hst.2).2 hname] at hpre
          exact absurd hpre (by simp)
      rw [if_pos hsome]

theorem WellFormed_chainID_ne {c1 c2 : ChainID} (h1 : c1.WellFormed) (h2 : c2.WellFormed)
    (hne : c1.revision ≠ c2.revision) : c1.chainID ≠ c2.chainID := by
  intro heq
  unfold ChainID.WellFormed at h1 h2
  rw [heq, h2] at h1
  exact hne (congrArg ChainID.revision (Option.some.inj h1)).symm

theorem GetRollappByEIP155_SetRollapp_self {s t : State} {r : Rollapp} {c : ChainID}
    (h : SetRollapp s r = .ret t) (hc : NewChainID r.RollappId = some c) :
    GetRollappByEIP155 t c.eip155ID = some r := by
  rw [SetRollapp_ret hc] at h
  have ht := (Result.ret.inj h).symm
  subst ht
  simp [GetRollappByEIP155, GetRollapp, kvGet_kvSet_self]

theorem GetRollappByEIP155_SetRollapp_of_ne {s t : State} {r : Rollapp} {c : ChainID}
    {e : Nat} (h : SetRollapp s r = .ret t) (hc : NewChainID r.RollappId = some c)
    (hne : c.eip155ID ≠ e) :
    GetRollappByEIP155 t e = (kvGet e s.byEIP155).bind (GetRollapp t) := by
  rw [SetRollapp_ret hc] at h
  have ht := (Result.ret.inj h).symm
  subst ht
  simp only [GetRollappByEIP155]
  rw [kvGet_kvSet_of_ne _ hne]
  cases kvGet e s.byEIP155 <;> rfl

/-- C5: let the record `R` be stored under the well-formed id `c1` (`n_e-r`), let
`FreezeRollapp` on it succeed, and let `c2` be the well-formed id `n_e-(r+1)`, not
stored yet.  Then `CheckIfRollappExists` passes for `c2`; after `SetRollapp` of a
non-frozen record under `c2`, `GetRollapp` on the old id still returns `R` with
`Frozen = true` and nothing else changed; `CheckIfRollappExists` fails with
`ErrRollappExists` for every candidate with the same EIP155 id, in particular
`n_e-(r+2)`, because the fork is not frozen; and before and after the freeze and the
fork, a well-formed candidate with the same name is refused with `ErrRollappExists`
unless its EIP155 id leads to a frozen record, in particular when its EIP155 id
was never registered, and when its id is not stored and its EIP155 id leads to a
frozen record of another name it is refused with `ErrInvalidRollappID`. -/
theorem freeze_then_fork (k : Keeper) (s s1 : State) (c1 c2 c3 : ChainID) (R new : Rollapp)
    (h1 : c1.WellFormed) (h2 : c2.WellFormed)
    (hn2 : c2.name = c1.name) (he2 : c2.eip155ID = c1.eip155ID)
    (hr2 : c2.revision = c1.revision + 1) (he3 : c3.eip155ID = c1.eip155ID)
    (hR : GetRollapp s c1.chainID = some R) (hid : R.RollappId = c1.chainID)
    (hfresh : GetRollapp s c2.chainID = none)
    (hfreeze : FreezeRollapp k s c1.chainID = .ret (s1, none))
    (hnew : new.RollappId = c2.chainID) (hnf : new.Frozen = false) :
    CheckIfRollappExists s1 c2 = .ret none ∧
    ∃ s2, SetRollapp s1 new = .ret s2 ∧
      GetRollapp s2 c1.chainID = some { R with Frozen := true } ∧
      CheckIfRollappExists s2 c3 = .ret (some .ErrRollappExists) ∧
      ∀ c4 : ChainID, c4.WellFormed → c4.name = c1.name →
        ∀ st, st = s ∨ st = s1 ∨ st = s2 →
          ((∀ R1, GetRollappByEIP155 st c4.eip155ID = some R1 → R1.Frozen = false) →
            CheckIfRollappExists st c4 = .ret (some .ErrRollappExists)) ∧
          (∀ R1 b, GetRollapp st c4.chainID = none →
            GetRollappByEIP155 st c4.eip155ID = some R1 → R1.Frozen = true →
            NewChainID R1.RollappId = some b → b.name ≠ c1.name →
            CheckIfRollappExists st c4 =
              .ret (some (.wrap .ErrInvalidRollappID ("rollapp name should be " ++ b.name)))) := by
  have hne12 : c1.chainID ≠ c2.chainID :=
    WellFormed_chainID_ne h1 h2 (by rw [hr2]; omega)
  rcases FreezeRollapp_inv hfreeze with ⟨hcontra, _⟩ | ⟨_, R0, s0, hR0, hs0, _, hset⟩
  · exact absurd rfl hcontra
  have hRR : R0 = R := Option.some.inj (hR0.symm.trans hR)
  subst hRR
  have hparse1 : NewChainID ({ R0 with Frozen := true } : Rollapp).RollappId = some c1 := by
    show NewChainID R0.RollappId = some c1
    rw [hid]
    exact h1
  have hparse2 : NewChainID new.RollappId = some c2 := by rw [hnew]; exact h2
  have hget1 : GetRollapp s1 c1.chainID = some { R0 with Frozen := true } := by
    have := GetRollapp_SetRollapp_self hset
    rw [← hid]
    exact this
  have hfresh1 : GetRollapp s1 c2.chainID = none := by
    rw [GetRollapp_SetRollapp_of_ne hset
      (show ({ R0 with Frozen := true } : Rollapp).RollappId ≠ c2.chainID by
        rw [show ({ R0 with Frozen := true } : Rollapp).RollappId = c1.chainID from hid]
        exact hne12)]
    simp only [GetRollapp] at hfresh ⊢
    rw [hs0]
    exact hfresh
  have hidx1 : GetRollappByEIP155 s1 c2.eip155ID = some { R0 with Frozen := true } := by
    rw [he2]
    exact GetRollappByEIP155_SetRollapp_self hset hparse1
  have hcheck : CheckIfRollappExists s1 c2 = .ret none := by
    rw [CheckIfRollappExists_fork_path hfresh1 hidx1 rfl hparse1]
    have hrev := (next_revision (NewChainID_bounds h1).2 (NewChainID_revision_ne_zero h2)
      (NewChainID_bounds h2).2).2 hr2
    rw [if_neg (not_not.2 hn2), if_neg (not_not.2 hrev)]
  refine ⟨hcheck, _, SetRollapp_ret hparse2, ?_, ?_, ?_⟩
  · rw [GetRollapp_SetRollapp_of_ne (SetRollapp_ret hparse2)
      (show new.RollappId ≠ c1.chainID by rw [hnew]; exact Ne.symm hne12)]
    exact hget1
  · apply CheckIfRollappExists_of_active _ hnf
    rw [he3, ← he2]
    exact GetRollappByEIP155_SetRollapp_self (SetRollapp_ret hparse2) hparse2
  · intro c4 h4 hn4 st hst
    refine ⟨?_, ?_⟩
    swap
    · intro R1 b hnone hidx hfr hb hname
      rw [CheckIfRollappExists_fork_path hnone hidx hfr hb, if_pos (by
        rw [hn4]
        exact Ne.symm hname)]
    intro hfound
    have hstored : ∃ r, Stored st c1.chainID r c1 := by
      rcases hst with rfl | rfl | rfl
      · exact ⟨R0, hR, h1⟩
      · exact ⟨_, hget1, h1⟩
      · refine ⟨{ R0 with Frozen := true }, ?_, h1⟩
        rw [GetRollapp_SetRollapp_of_ne (SetRollapp_ret hparse2)
          (show new.RollappId ≠ c1.chainID by rw [hnew]; exact Ne.symm hne12)]
        exact hget1
    obtain ⟨r, hr⟩ := hstored
    exact CheckIfRollappExists_name_collision h4 hr hn4.symm hfound

theorem freeze_then_fork_witness :
    CheckIfRollappExists storeFoo1Frozen foo2 = .ret none ∧
    GetRollapp storeFoo12 foo1.chainID
      = some { sampleRollapp "foo_100-1" "alice" with Frozen := true } ∧
    CheckIfRollappExists storeFoo12 foo3 = .ret (some .ErrRollappExists) ∧
    CheckIfRollappExists storeFoo1 foo200 = .ret (some .ErrRollappExists) ∧
    CheckIfRollappExists storeFoo1Frozen foo200 = .ret (some .ErrRollappExists) ∧
    CheckIfRollappExists storeFoo12 foo200 = .ret (some .ErrRollappExists) := by
  obtain ⟨hc, s2, hs2, hg, hc3, h4⟩ :=
    freeze_then_fork sampleKeeper storeFoo1 storeFoo1Frozen foo1 foo2 foo3
      (sampleRollapp "foo_100-1" "alice") (sampleRollapp "foo_100-2" "bob")
      (by decide) (by decide) rfl rfl rfl rfl (by decide) rfl (by decide) (by decide) rfl rfl
  have hset : SetRollapp storeFoo1Frozen (sampleRollapp "foo_100-2" "bob") = .ret storeFoo12 := by
    decide
  rw [hset] at hs2
  have hs : s2 = storeFoo12 := (Result.ret.inj hs2).symm
  subst hs
  have hnone : ∀ st : State, GetRollappByEIP155 st foo200.eip155ID = none →
      ∀ R1, GetRollappByEIP155 st foo200.eip155ID = some R1 → R1.Frozen = false := by
    intro st h R1 h1
    rw [h] at h1
    exact absurd h1 (by simp)
  exact ⟨hc, hg, hc3,
    (h4 foo200 (by decide) rfl storeFoo1 (Or.inl rfl)).1 (hnone _ (by decide)),
    (h4 foo200 (by decide) rfl storeFoo1Frozen (Or.inr (Or.inl rfl))).1 (hnone _ (by decide)),
    (h4 foo200 (by decide) rfl storeFoo12 (Or.inr (Or.inr rfl))).1 (hnone _ (by decide))⟩

theorem freeze_then_fork_counterexample :
    (CheckIfRollappExists State.empty bar200 = .ret none ∧
      SetRollapp State.empty (sampleRollapp "bar_200-1" "carol") = .ret storeBar) ∧
    FreezeRollapp sampleKeeper storeBar "bar_200-1" = .ret (storeBarFrozen, none) ∧
    (CheckIfRollappExists storeBarFrozen foo1 = .ret none ∧
      SetRollapp storeBarFrozen (sampleRollapp "foo_100-1" "alice") = .ret storeBarFoo1) ∧
    FreezeRollapp sampleKeeper storeBarFoo1 "foo_100-1" = .ret (storeBarFoo1Frozen, none) ∧
    (CheckIfRollappExists storeBarFoo1Frozen foo2 = .ret none ∧
      SetRollapp storeBarFoo1Frozen (sampleRollapp "foo_100-2" "bob") = .ret storeBarFoo12) ∧
    GetRollapp storeBarFoo12 "foo_100-1" =
      some { sampleRollapp "foo_100-1" "alice" with Frozen := true } ∧
    (foo200.WellFormed ∧ foo200.name = foo1.name ∧ foo200.eip155ID ≠ foo1.eip155ID) ∧
    CheckIfRollappExists storeBarFoo12 foo200 =
      .ret (some (.wrap .ErrInvalidRollappID "rollapp name should be bar")) ∧
    CheckIfRollappExists storeBarFoo12 foo200 ≠ .ret (some .ErrRollappExists) ∧
    Error.Is (.wrap .ErrInvalidRollappID "rollapp name should be bar") .ErrRollappExists
      = false := by
  refine ⟨⟨by decide, by decide⟩, by decide, ⟨by decide, by decide⟩, by decide,
    ⟨by decide, by decide⟩, by decide, ⟨by decide, rfl, by decide⟩, by decide, by decide,
    by decide⟩

/-! ## The invariant of the registry (C6) -/

theorem Stored_congr {s t : State} (hr : t.rollapps = s.rollapps) {k : String} {r : Rollapp}
    {a : ChainID} : Stored t k r a ↔ Stored s k r a := by
  unfold Stored GetRollapp
  rw [hr]

theorem GetRollappByEIP155_congr {s t : State} (hr : t.rollapps = s.rollapps)
    (hi : t.byEIP155 = s.byEIP155) (e : Nat) :
    GetRollappByEIP155 t e = GetRollappByEIP155 s e := by
  unfold GetRollappByEIP155 GetRollapp
  rw [hr, hi]

theorem Inv_congr {s t : State} (hr : t.rollapps = s.rollapps) (hi : t.byEIP155 = s.byEIP155)
    (h : Inv s) : Inv t where
  key := by
    intro k r hk
    exact h.key k r (by simpa [GetRollapp, hr] using hk)
  index := by
    intro e id he
    exact h.index e id (by rwa [hi] at he)
  indexed := by
    intro k r a hst
    rw [GetRollappByEIP155_congr hr hi]
    exact h.indexed k r a ((Stored_congr hr).1 hst)
  nameEip := by
    intro k1 r1 a1 k2 r2 a2 h1 h2
    exact h.nameEip k1 r1 a1 k2 r2 a2 ((Stored_congr hr).1 h1) ((Stored_congr hr).1 h2)
  older := by
    intro k1 r1 a1 k2 r2 a2 h1 h2
    exact h.older k1 r1 a1 k2 r2 a2 ((Stored_congr hr).1 h1) ((Stored_congr hr).1 h2)
  pred := by
    intro k r a hst hrev
    obtain ⟨k0, r0, a0, h0, he, hp⟩ := h.pred k r a ((Stored_congr hr).1 hst) hrev
    exact ⟨k0, r0, a0, (Stored_congr hr).2 h0, he, hp⟩

theorem Inv_empty : Inv State.empty where
  key := by intro k r hk; simp [GetRollapp, State.empty, kvGet] at hk
  index := by intro e id he; simp [State.empty, kvGet] at he
  indexed := by intro k r a hst; simp [Stored, GetRollapp, State.empty, kvGet] at hst
  nameEip := by intro k1 r1 a1 k2 r2 a2 h1; simp [Stored, GetRollapp, State.empty, kvGet] at h1
  older := by intro k1 r1 a1 k2 r2 a2 h1; simp [Stored, GetRollapp, State.empty, kvGet] at h1
  pred := by intro k r a hst; simp [Stored, GetRollapp, State.empty, kvGet] at hst

theorem Inv_descend {s : State} (h : Inv s) :
    ∀ (n : Nat) (k : String) (r : Rollapp) (a : ChainID), Stored s k r a →
      ∀ m, 1 ≤ m → m + n = a.revision →
        ∃ k0 r0 a0, Stored s k0 r0 a0 ∧ a0.eip155ID = a.eip155ID ∧ a0.revision = m := by
  intro n
  induction n with
  | zero =>
    intro k r a hst m _ hm
    exact ⟨k, r, a, hst, rfl, by omega⟩
  | succ n ih =>
    intro k r a hst m hm1 hm
    obtain ⟨k0, r0, a0, h0, he, hp⟩ := h.pred k r a hst (by omega)
    obtain ⟨k1, r1, a1, h1, he1, hp1⟩ := ih k0 r0 a0 h0 m hm1 (by omega)
    exact ⟨k1, r1, a1, h1, by rw [he1, he], hp1⟩

theorem CheckIfRollappExists_ok_cases {s : State} {c : ChainID} (hc : c.WellFormed)
    (h : CheckIfRollappExists s c = .ret none) :
    GetRollapp s c.chainID = none ∧
    ((GetRollappByEIP155 s c.eip155ID = none ∧ GetRollappByName s c.name = none ∧
        c.revision = 1) ∨
      ∃ R b, GetRollappByEIP155 s c.eip155ID = some R ∧ R.Frozen = true ∧
        NewChainID R.RollappId = some b ∧ c.name = b.name ∧ c.revision = b.revision + 1) := by
  have hb := NewChainID_bounds hc
  have h0 := NewChainID_revision_ne_zero hc
  have hfresh : GetRollapp s c.chainID = none := by
    cases hx : GetRollapp s c.chainID with
    | none => rfl
    | some r =>
      rw [CheckIfRollappExists_of_stored hx] at h
      exact absurd h (by simp)
  refine ⟨hfresh, ?_⟩
  cases he : GetRollappByEIP155 s c.eip155ID with
  | none =>
    left
    rw [CheckIfRollappExists_fresh_path hfresh he] at h
    by_cases hname : (GetRollappByName s c.name).isSome = true
    · rw [if_pos hname] at h
      exact absurd h (by simp)
    · by_cases hrev : c.revision = 1
      · refine ⟨rfl, ?_, hrev⟩
        cases hg : GetRollappByName s c.name with
        | none => rfl
        | some r => simp [hg] at hname
      · rw [if_neg hname, if_pos hrev] at h
        exact absurd h (by simp)
  | some R =>
    right
    have hf : R.Frozen = true := by
      cases hfz : R.Frozen with
      | true => rfl
      | false =>
        rw [CheckIfRollappExists_of_active he hfz] at h
        exact absurd h (by simp)
    cases ha : NewChainID R.RollappId with
    | none => simp [CheckIfRollappExists, hfresh, he, hf, MustNewChainID, ha] at h
    | some a =>
      rw [CheckIfRollappExists_fork_path hfresh he hf ha] at h
      by_cases hname : c.name = a.name
      · by_cases hrev : c.revision = (a.revision + 1) % 2 ^ 64
        · exact ⟨R, a, rfl, hf, ha, hname,
            (next_revision (NewChainID_bounds ha).2 h0 hb.2).1 hrev⟩
        · rw [if_neg (not_not.2 hname), if_pos hrev] at h
          exact absurd h (by simp)
      · rw [if_pos hname] at h
        exact absurd h (by simp)

theorem Stored_SetRollapp {s t : State} {r : Rollapp} {c : ChainID}
    (h : SetRollapp s r = .ret t) (hc : NewChainID r.RollappId = some c)
    {k : String} {x : Rollapp} {a : ChainID} :
    Stored t k x a ↔
      (k = r.RollappId ∧ x = r ∧ a = c) ∨ (k ≠ r.RollappId ∧ Stored s k x a) := by
  unfold Stored
  by_cases hk : k = r.RollappId
  · subst hk
    rw [GetRollapp_SetRollapp_self h, hc]
    constructor
    · rintro ⟨h1, h2⟩
      exact Or.inl ⟨rfl, (Option.some.inj h1).symm, (Option.some.inj h2).symm⟩
    · rintro (⟨_, h1, h2⟩ | ⟨h1, _⟩)
      · exact ⟨by rw [h1], by rw [h2]⟩
      · exact absurd rfl h1
  · rw [GetRollapp_SetRollapp_of_ne h (Ne.symm hk)]
    constructor
    · intro h1
      exact Or.inr ⟨hk, h1⟩
    · rintro (⟨h1, _⟩ | ⟨_, h1⟩)
      · exact absurd h1 hk
      · exact h1

theorem GetRollapp_SetRollapp_isSome {s t : State} {r : Rollapp}
    (h : SetRollapp s r = .ret t) {id : String} {x : Rollapp}
    (hx : GetRollapp s id = some x) : ∃ y, GetRollapp t id = some y := by
  by_cases hid : r.RollappId = id
  · exact ⟨r, by rw [← hid]; exact GetRollapp_SetRollapp_self h⟩
  · exact ⟨x, by rw [GetRollapp_SetRollapp_of_ne h hid]; exact hx⟩

theorem GetRollappByEIP155_SetRollapp_isSome {s t : State} {r : Rollapp} {c : ChainID}
    (h : SetRollapp s r = .ret t) (hc : NewChainID r.RollappId = some c) {e : Nat}
    (he : c.eip155ID = e ∨ ∃ x, GetRollappByEIP155 s e = some x) :
    ∃ y, GetRollappByEIP155 t e = some y := by
  by_cases hce : c.eip155ID = e
  · exact ⟨r, by rw [← hce]; exact GetRollappByEIP155_SetRollapp_self h hc⟩
  · rcases he with he | ⟨x, hx⟩
    · exact absurd he hce
    · obtain ⟨id, hi, hg⟩ := GetRollappByEIP155_some hx
      obtain ⟨y, hy⟩ := GetRollapp_SetRollapp_isSome h hg
      exact ⟨y, by rw [GetRollappByEIP155_SetRollapp_of_ne h hc hce, hi]; exact hy⟩

theorem index_SetRollapp {s t : State} {r : Rollapp} {c : ChainID}
    (h : SetRollapp s r = .ret t) (hc : NewChainID r.RollappId = some c) (hinv : Inv s)
    (e : Nat) (id : String) (he : kvGet e t.byEIP155 = some id) :
    ∃ a, NewChainID id = some a ∧ a.eip155ID = e := by
  rw [SetRollapp_ret hc] at h
  have ht := (Result.ret.inj h).symm
  subst ht
  by_cases hce : c.eip155ID = e
  · subst hce
    simp only [kvGet_kvSet_self] at he
    rw [← Option.some.inj he]
    exact ⟨c, hc, rfl⟩
  · simp only [kvGet_kvSet_of_ne _ hce] at he
    exact hinv.index e id he

/-- Writing a record over a stored one keeps the invariant, provided that a frozen
record stays frozen. -/
theorem Inv_SetRollapp_existing {s t : State} {r r0 : Rollapp} (hinv : Inv s)
    (hold : GetRollapp s r.RollappId = some r0) (hfz : r0.Frozen = true → r.Frozen = true)
    (h : SetRollapp s r = .ret t) : Inv t := by
  obtain ⟨c, hc, _⟩ := SetRollapp_inv h
  have back : ∀ k x a, Stored t k x a →
      ∃ y, Stored s k y a ∧ (y.Frozen = true → x.Frozen = true) := by
    intro k x a hst
    rcases (Stored_SetRollapp h hc).1 hst with ⟨h1, h2, h3⟩ | ⟨_, h1⟩
    · subst h1 h2 h3
      exact ⟨r0, ⟨hold, hc⟩, hfz⟩
    · exact ⟨x, h1, fun hx => hx⟩
  have fwd : ∀ k x a, Stored s k x a → ∃ y, Stored t k y a := by
    intro k x a hst
    obtain ⟨y, hy⟩ := GetRollapp_SetRollapp_isSome h hst.1
    exact ⟨y, hy, hst.2⟩
  refine ⟨?_, index_SetRollapp h hc hinv, ?_, ?_, ?_, ?_⟩
  · intro k x hk
    by_cases hkr : r.RollappId = k
    · subst hkr
      rw [GetRollapp_SetRollapp_self h] at hk
      rw [← Option.some.inj hk]
      exact ⟨rfl, c, hc⟩
    · rw [GetRollapp_SetRollapp_of_ne h hkr] at hk
      exact hinv.key k x hk
  · intro k x a hst
    obtain ⟨y, hy, _⟩ := back k x a hst
    exact GetRollappByEIP155_SetRollapp_isSome h hc (Or.inr (hinv.indexed k y a hy))
  · intro k1 x1 a1 k2 x2 a2 h1 h2
    obtain ⟨y1, hy1, _⟩ := back k1 x1 a1 h1
    obtain ⟨y2, hy2, _⟩ := back k2 x2 a2 h2
    exact hinv.nameEip k1 y1 a1 k2 y2 a2 hy1 hy2
  · intro k1 x1 a1 k2 x2 a2 h1 h2 he hlt
    obtain ⟨y1, hy1, hf1⟩ := back k1 x1 a1 h1
    obtain ⟨y2, hy2, _⟩ := back k2 x2 a2 h2
    exact hf1 (hinv.older k1 y1 a1 k2 y2 a2 hy1 hy2 he hlt)
  · intro k x a hst hrev
    obtain ⟨y, hy, _⟩ := back k x a hst
    obtain ⟨k0, r1, a0, h0, he, hp⟩ := hinv.pred k y a hy hrev
    obtain ⟨y0, hy0⟩ := fwd k0 r1 a0 h0
    exact ⟨k0, y0, a0, hy0, he, hp⟩

/-- What a passing check tells about the stored ids, under the invariant: a stored id
shares the candidate's name exactly when it shares its EIP155 number; every stored
id of that number has a lower revision and is frozen; and the predecessor of the
candidate's revision is stored unless that revision is 1. -/
theorem CheckIfRollappExists_ok_facts {s : State} {c : ChainID} (hinv : Inv s)
    (hc : c.WellFormed) (h : CheckIfRollappExists s c = .ret none) :
    GetRollapp s c.chainID = none ∧
    (∀ k x a, Stored s k x a → (c.name = a.name ↔ c.eip155ID = a.eip155ID)) ∧
    (∀ k x a, Stored s k x a → a.eip155ID = c.eip155ID →
      a.revision < c.revision ∧ x.Frozen = true) ∧
    (c.revision ≠ 1 → ∃ k0 r0 a0, Stored s k0 r0 a0 ∧ a0.eip155ID = c.eip155ID ∧
      a0.revision + 1 = c.revision) := by
  obtain ⟨hfresh, hcase⟩ := CheckIfRollappExists_ok_cases hc h
  refine ⟨hfresh, ?_⟩
  rcases hcase with ⟨he, hn, hrev⟩ | ⟨R, b, he, hf, hb, hname, hrev⟩
  · have hpre := (GetRollappByName_eq_none_iff s c.name).1 hn
    have noEip : ∀ k x a, Stored s k x a → a.eip155ID ≠ c.eip155ID := by
      intro k x a hst hae
      obtain ⟨r0, hr0⟩ := hinv.indexed k x a hst
      rw [hae, he] at hr0
      exact absurd hr0 (by simp)
    have noName : ∀ k x a, Stored s k x a → c.name ≠ a.name := by
      intro k x a hst hcn
      have := (hasKeyPrefix_name_iff hc hst.2).2 hcn.symm
      rw [hpre k x hst.1] at this
      exact absurd this (by simp)
    refine ⟨?_, ?_, ?_⟩
    · intro k x a hst
      exact ⟨fun hcn => absurd hcn (noName k x a hst),
        fun hce => absurd hce.symm (noEip k x a hst)⟩
    · intro k x a hst hae
      exact absurd hae (noEip k x a hst)
    · intro h1
      exact absurd hrev h1
  · obtain ⟨id, hi, hg⟩ := GetRollappByEIP155_some he
    have hkey := (hinv.key id R hg).1
    obtain ⟨b1, hb1, hbe⟩ := hinv.index _ id hi
    rw [hkey, hb1] at hb
    have hbb : b1 = b := Option.some.inj hb
    subst hbb
    have hstR : Stored s id R b1 := ⟨hg, hb1⟩
    have hrel : ∀ k x a, Stored s k x a → (c.name = a.name ↔ c.eip155ID = a.eip155ID) := by
      intro k x a hst
      rw [hname, ← hbe]
      exact hinv.nameEip id R b1 k x a hstR hst
    refine ⟨hrel, ?_, ?_⟩
    · intro k x a hst hae
      have hle : a.revision ≤ b1.revision := by
        by_contra hgt
        have hm : c.revision + (a.revision - c.revision) = a.revision := by omega
        obtain ⟨k0, r0, a0, h0, he0, hr0⟩ :=
          Inv_descend hinv (a.revision - c.revision) k x a hst c.revision (by omega) hm
        have hn0 : a0.name = c.name :=
          ((hrel k0 r0 a0 h0).2 (by rw [he0, hae])).symm
        have hk0 : k0 = c.chainID :=
          NewChainID_inj h0.2 hc hn0 (by rw [he0, hae]) hr0
        rw [hk0, Stored, hfresh] at h0
        exact absurd h0.1 (by simp)
      refine ⟨by omega, ?_⟩
      by_cases hlt : a.revision < b1.revision
      · exact hinv.older k x a id R b1 hst hstR (by rw [hae, hbe]) hlt
      · have hk : k = id :=
          NewChainID_inj hst.2 hb1
            ((hinv.nameEip k x a id R b1 hst hstR).2 (by rw [hae, hbe]))
            (by rw [hae, hbe]) (by omega)
        subst hk
        have hxR : x = R := Option.some.inj (hst.1.symm.trans hg)
        rw [hxR]
        exact hf
    · intro _
      exact ⟨id, R, b1, hstR, hbe, hrev.symm⟩

/-- Registering an id that passed the check keeps the invariant. -/
theorem Inv_register {s t : State} {c : ChainID} {r : Rollapp} (hinv : Inv s)
    (hc : c.WellFormed) (hid : r.RollappId = c.chainID)
    (hcheck : CheckIfRollappExists s c = .ret none) (h : SetRollapp s r = .ret t) : Inv t := by
  obtain ⟨hfresh, hrel, hlow, hpred⟩ := CheckIfRollappExists_ok_facts hinv hc hcheck
  have hparse : NewChainID r.RollappId = some c := by rw [hid]; exact hc
  have hfresh1 : GetRollapp s r.RollappId = none := by rw [hid]; exact hfresh
  have fwd : ∀ k x a, Stored s k x a → Stored t k x a := by
    intro k x a hst
    refine (Stored_SetRollapp h hparse).2 (Or.inr ⟨?_, hst⟩)
    intro hk
    rw [hk, Stored, hfresh1] at hst
    exact absurd hst.1 (by simp)
  have back : ∀ k x a, Stored t k x a → (x = r ∧ a = c) ∨ Stored s k x a := by
    intro k x a hst
    rcases (Stored_SetRollapp h hparse).1 hst with ⟨_, h2, h3⟩ | ⟨_, h1⟩
    · exact Or.inl ⟨h2, h3⟩
    · exact Or.inr h1
  have hself : Stored t r.RollappId r c := ⟨GetRollapp_SetRollapp_self h, hparse⟩
  refine ⟨?_, index_SetRollapp h hparse hinv, ?_, ?_, ?_, ?_⟩
  · intro k x hk
    by_cases hkr : r.RollappId = k
    · subst hkr
      rw [GetRollapp_SetRollapp_self h] at hk
      rw [← Option.some.inj hk]
      exact ⟨rfl, c, hparse⟩
    · rw [GetRollapp_SetRollapp_of_ne h hkr] at hk
      exact hinv.key k x hk
  · intro k x a hst
    rcases back k x a hst with ⟨_, ha⟩ | hs
    · exact GetRollappByEIP155_SetRollapp_isSome h hparse (Or.inl (by rw [ha]))
    · exact GetRollappByEIP155_SetRollapp_isSome h hparse (Or.inr (hinv.indexed k x a hs))
  · intro k1 x1 a1 k2 x2 a2 h1 h2
    rcases back k1 x1 a1 h1 with ⟨_, ha1⟩ | hs1
    · rcases back k2 x2 a2 h2 with ⟨_, ha2⟩ | hs2
      · rw [ha1, ha2]
        exact ⟨fun _ => rfl, fun _ => rfl⟩
      · rw [ha1]
        exact hrel k2 x2 a2 hs2
    · rcases back k2 x2 a2 h2 with ⟨_, ha2⟩ | hs2
      · rw [ha2]
        have := hrel k1 x1 a1 hs1
        exact ⟨fun hn => (this.1 hn.symm).symm, fun he => (this.2 he.symm).symm⟩
      · exact hinv.nameEip k1 x1 a1 k2 x2 a2 hs1 hs2
  · intro k1 x1 a1 k2 x2 a2 h1 h2 he hlt
    rcases back k1 x1 a1 h1 with ⟨_, ha1⟩ | hs1
    · rcases back k2 x2 a2 h2 with ⟨_, ha2⟩ | hs2
      · rw [ha1, ha2] at hlt
        exact absurd hlt (lt_irrefl _)
      · rw [ha1] at he hlt
        have := (hlow k2 x2 a2 hs2 he.symm).1
        omega
    · rcases back k2 x2 a2 h2 with ⟨_, ha2⟩ | hs2
      · rw [ha2] at he
        exact (hlow k1 x1 a1 hs1 he).2
      · exact hinv.older k1 x1 a1 k2 x2 a2 hs1 hs2 he hlt
  · intro k x a hst hrev
    rcases back k x a hst with ⟨_, ha⟩ | hs
    · rw [ha] at hrev ⊢
      obtain ⟨k0, r0, a0, h0, he0, hp0⟩ := hpred hrev
      exact ⟨k0, r0, a0, fwd k0 r0 a0 h0, he0, hp0⟩
    · obtain ⟨k0, r0, a0, h0, he0, hp0⟩ := hinv.pred k x a hs hrev
      exact ⟨k0, r0, a0, fwd k0 r0 a0 h0, he0, hp0⟩

theorem CheckAndUpdateRollappFields_ok {k : Keeper} {s : State}
    {u : MsgUpdateRollappInformation} {r1 : Rollapp}
    (h : CheckAndUpdateRollappFields k s u = (r1, none)) :
    ∃ cur, GetRollapp s u.RollappId = some cur ∧ r1.RollappId = cur.RollappId ∧
      r1.Frozen = cur.Frozen := by
  unfold CheckAndUpdateRollappFields at h
  split at h
  · exact absurd (Prod.mk.inj h).2 (by simp)
  · rename_i cur hg
    refine ⟨cur, hg, ?_⟩
    split at h
    · exact absurd (Prod.mk.inj h).2 (by simp)
    · split at h
      · exact absurd (Prod.mk.inj h).2 (by simp)
      · split at h
        · exact absurd (Prod.mk.inj h).2 (by simp)
        · split at h
          · exact absurd (Prod.mk.inj h).2 (by simp)
          · dsimp only at h
            split at h
            · exact absurd (Prod.mk.inj h).2 (by simp)
            · have h1 := (Prod.mk.inj h).1
              rw [← h1]
              exact ⟨rfl, rfl⟩

theorem UpdateRollapp_ok {k : Keeper} {s t : State} {u : MsgUpdateRollappInformation}
    (h : UpdateRollapp k s u = .ret (t, none)) :
    ∃ r1, CheckAndUpdateRollappFields k s u = (r1, none) ∧ SetRollapp s r1 = .ret t := by
  unfold UpdateRollapp at h
  split at h
  · exact absurd (Prod.mk.inj (Result.ret.inj h)).2 (by simp)
  · rename_i r1 hcheck
    split at h
    · exact absurd h (by simp)
    · rename_i s2 hset
      have := (Prod.mk.inj (Result.ret.inj h)).1
      exact ⟨r1, hcheck, by rw [hset, this]⟩

theorem SetRollappAsLaunched_inv {k : Keeper} {s t : State} {r r1 : Rollapp}
    {e : Option Error} (h : SetRollappAsLaunched k s r = .ret (t, r1, e)) :
    t = s ∨ ∃ r2, r2.RollappId = r.RollappId ∧ r2.Frozen = r.Frozen ∧
      SetRollapp s r2 = .ret t := by
  unfold SetRollappAsLaunched at h
  split at h
  · exact Or.inl (Prod.mk.inj (Result.ret.inj h)).1.symm
  · dsimp only at h
    split at h
    · exact absurd h (by simp)
    · rename_i s2 hset
      have := (Prod.mk.inj (Result.ret.inj h)).1
      refine Or.inr ⟨_, ?_, ?_, hset.trans (by rw [this])⟩ <;> rfl

theorem SetIROPlanToRollapp_inv {k : Keeper} {s t : State} {r r1 : Rollapp} {iro : Plan}
    {e : Option Error} (h : SetIROPlanToRollapp k s r iro = .ret (t, r1, e)) :
    t = s ∨ ∃ r2, r2.RollappId = r.RollappId ∧ r2.Frozen = r.Frozen ∧
      SetRollapp s r2 = .ret t := by
  unfold SetIROPlanToRollapp at h
  split at h
  · exact Or.inl (Prod.mk.inj (Result.ret.inj h)).1.symm
  · split at h
    · exact Or.inl (Prod.mk.inj (Result.ret.inj h)).1.symm
    · split at h
      · exact Or.inl (Prod.mk.inj (Result.ret.inj h)).1.symm
      · dsimp only at h
        split at h
        · exact absurd h (by simp)
        · rename_i s2 hset
          have := (Prod.mk.inj (Result.ret.inj h)).1
          refine Or.inr ⟨_, ?_, ?_, hset.trans (by rw [this])⟩ <;> rfl

/-- Every reachable store satisfies the invariant. -/
theorem Reachable_Inv {k : Keeper} {s : State} (h : Reachable k s) : Inv s := by
  induction h with
  | empty => exact Inv_empty
  | register s t c r _ hc hid _ hcheck hset ih => exact Inv_register ih hc hid hcheck hset
  | update s t u _ hupd ih =>
    obtain ⟨r1, hcheck, hset⟩ := UpdateRollapp_ok hupd
    obtain ⟨cur, hg, hid, hfz⟩ := CheckAndUpdateRollappFields_ok hcheck
    have hkey := (ih.key _ _ hg).1
    have hold : GetRollapp s r1.RollappId = some cur := by
      rw [hid, hkey]
      exact hg
    exact Inv_SetRollapp_existing ih hold (fun hf => by rw [hfz]; exact hf) hset
  | launch s t id r r1 e _ hg hl ih =>
    rcases SetRollappAsLaunched_inv hl with rfl | ⟨r2, hid, hfz, hset⟩
    · exact ih
    · have hkey := (ih.key _ _ hg).1
      have hold : GetRollapp s r2.RollappId = some r := by
        rw [hid, hkey]
        exact hg
      exact Inv_SetRollapp_existing ih hold (fun hf => by rw [hfz]; exact hf) hset
  | plan s t id r r1 iro e _ hg hl ih =>
    rcases SetIROPlanToRollapp_inv hl with rfl | ⟨r2, hid, hfz, hset⟩
    · exact ih
    · have hkey := (ih.key _ _ hg).1
      have hold : GetRollapp s r2.RollappId = some r := by
        rw [hid, hkey]
        exact hg
      exact Inv_SetRollapp_existing ih hold (fun hf => by rw [hfz]; exact hf) hset
  | freeze s t id e _ hfr ih =>
    rcases FreezeRollapp_inv hfr with ⟨_, hr, hi⟩ | ⟨_, R, s0, hg, hr, hi, hset⟩
    · exact Inv_congr hr hi ih
    · have ih0 : Inv s0 := Inv_congr hr hi ih
      have hkey := (ih.key _ _ hg).1
      have hold : GetRollapp s0 ({ R with Frozen := true } : Rollapp).RollappId = some R := by
        show GetRollapp s0 R.RollappId = some R
        rw [hkey]
        simp only [GetRollapp] at hg ⊢
        rw [hr]
        exact hg
      exact Inv_SetRollapp_existing ih0 hold (fun _ => rfl) hset

theorem RowsSorted_SetRollapp {s t : State} {r : Rollapp} (hs : RowsSorted s)
    (h : SetRollapp s r = .ret t) : RowsSorted t := by
  obtain ⟨c, _, rfl⟩ := SetRollapp_inv h
  constructor
  · exact kvSet_sorted keyLt (fun _ _ _ => keyLt_trans) (fun _ _ => keyLt_total) _ _ hs.1
  · refine kvSet_sorted (fun a b => decide (a < b)) ?_ ?_ _ _ hs.2
    · intro a b c hab hbc
      simp only [decide_eq_true_eq] at hab hbc ⊢
      omega
    · intro a b hab hne
      simp only [decide_eq_false_iff_not, decide_eq_true_eq] at hab ⊢
      omega

theorem RowsSorted_congr {s t : State} (hr : t.rollapps = s.rollapps)
    (hi : t.byEIP155 = s.byEIP155) (hs : RowsSorted s) : RowsSorted t := by
  unfold RowsSorted
  rw [hr, hi]
  exact hs

/-- Every reachable store holds its rows in strictly ascending key order. -/
theorem Reachable_RowsSorted {k : Keeper} {s : State} (h : Reachable k s) : RowsSorted s := by
  induction h with
  | empty => exact ⟨List.Pairwise.nil, List.Pairwise.nil⟩
  | register s t c r _ _ _ _ _ hset ih => exact RowsSorted_SetRollapp ih hset
  | update s t u _ hupd ih =>
    obtain ⟨r1, _, hset⟩ := UpdateRollapp_ok hupd
    exact RowsSorted_SetRollapp ih hset
  | launch s t id r r1 e _ _ hl ih =>
    rcases SetRollappAsLaunched_inv hl with rfl | ⟨r2, _, _, hset⟩
    · exact ih
    · exact RowsSorted_SetRollapp ih hset
  | plan s t id r r1 iro e _ _ hl ih =>
    rcases SetIROPlanToRollapp_inv hl with rfl | ⟨r2, _, _, hset⟩
    · exact ih
    · exact RowsSorted_SetRollapp ih hset
  | freeze s t id e _ hfr ih =>
    rcases FreezeRollapp_inv hfr with ⟨_, hr, hi⟩ | ⟨_, R, s0, _, hr, hi, hset⟩
    · exact RowsSorted_congr hr hi ih
    · exact RowsSorted_SetRollapp (RowsSorted_congr hr hi ih) hset

/-- Every reachable store is consistent: all its rows are as `SetRollapp` writes them. -/
theorem Reachable_Consistent {k : Keeper} {s : State} (h : Reachable k s) : s.Consistent := by
  have hinv := Reachable_Inv h
  have hsorted := Reachable_RowsSorted h
  constructor
  · rw [List.all_eq_true]
    intro p hp
    have hrow : GetRollapp s p.1 = some p.2 :=
      kvGet_of_mem_rows hsorted.1 (show (p.1, p.2) ∈ s.rollapps from hp)
    obtain ⟨hid, a, ha⟩ := hinv.key _ _ hrow
    obtain ⟨r0, hr0⟩ := hinv.indexed _ _ a ⟨hrow, ha⟩
    simp [rowIndexed, hid, ha, hr0]
  · rw [List.all_eq_true]
    intro q hq
    have hrow : kvGet q.1 s.byEIP155 = some q.2 :=
      kvGet_of_mem_index hsorted.2 (show (q.1, q.2) ∈ s.byEIP155 from hq)
    obtain ⟨a, ha, hae⟩ := hinv.index _ _ hrow
    simp [indexRowOK, ha, hae]

/-- Under the invariant two stored non-frozen records with the same EIP155 id are the
same record under the same id. -/
theorem Inv_one_active {s : State} (hinv : Inv s) {k1 k2 : String} {r1 r2 : Rollapp}
    {a1 a2 : ChainID} (h1 : Stored s k1 r1 a1) (h2 : Stored s k2 r2 a2)
    (f1 : r1.Frozen = false) (f2 : r2.Frozen = false) (he : a1.eip155ID = a2.eip155ID) :
    k1 = k2 ∧ r1 = r2 := by
  have hn := (hinv.nameEip k1 r1 a1 k2 r2 a2 h1 h2).2 he
  have hrev : a1.revision = a2.revision := by
    rcases Nat.lt_trichotomy a1.revision a2.revision with hlt | heq | hgt
    · have := hinv.older k1 r1 a1 k2 r2 a2 h1 h2 he hlt
      rw [f1] at this
      exact absurd this (by simp)
    · exact heq
    · have := hinv.older k2 r2 a2 k1 r1 a1 h2 h1 he.symm hgt
      rw [f2] at this
      exact absurd this (by simp)
  have hk : k1 = k2 := NewChainID_inj h1.2 h2.2 hn he hrev
  subst hk
  exact ⟨rfl, Option.some.inj (h1.1.symm.trans h2.1)⟩

/-- C6: in every store reachable from the empty store by guarded registration, owner
updates, launching, plan attachment and freezing, every row holds a record under
its own well-formed id, and two rows with non-frozen records whose ids have the
same name are the same row, and so are two rows with non-frozen records whose ids
have the same EIP155 id: at most one non-frozen record per name and per EIP155 id. -/
theorem Reachable_one_active (k : Keeper) (s : State) (h : Reachable k s) :
    (∀ p ∈ s.rollapps, p.2.RollappId = p.1 ∧ ∃ a, NewChainID p.1 = some a) ∧
    (∀ p ∈ s.rollapps, ∀ q ∈ s.rollapps, ∀ a b,
      NewChainID p.2.RollappId = some a → NewChainID q.2.RollappId = some b →
      p.2.Frozen = false → q.2.Frozen = false → a.name = b.name → p = q) ∧
    (∀ p ∈ s.rollapps, ∀ q ∈ s.rollapps, ∀ a b,
      NewChainID p.2.RollappId = some a → NewChainID q.2.RollappId = some b →
      p.2.Frozen = false → q.2.Frozen = false → a.eip155ID = b.eip155ID → p = q) := by
  have hinv := Reachable_Inv h
  have hsorted := Reachable_RowsSorted h
  have hrow : ∀ p ∈ s.rollapps, GetRollapp s p.1 = some p.2 :=
    fun p hp => kvGet_of_mem_rows hsorted.1 (show (p.1, p.2) ∈ s.rollapps from hp)
  have main : ∀ p ∈ s.rollapps, ∀ q ∈ s.rollapps, ∀ a b,
      NewChainID p.2.RollappId = some a → NewChainID q.2.RollappId = some b →
      p.2.Frozen = false → q.2.Frozen = false → a.eip155ID = b.eip155ID → p = q := by
    intro p hp q hq a b pa pb fa fb he
    rw [(hinv.key _ _ (hrow p hp)).1] at pa
    rw [(hinv.key _ _ (hrow q hq)).1] at pb
    obtain ⟨e1, e2⟩ := Inv_one_active hinv ⟨hrow p hp, pa⟩ ⟨hrow q hq, pb⟩ fa fb he
    exact Prod.ext e1 e2
  refine ⟨fun p hp => hinv.key _ _ (hrow p hp), ?_, main⟩
  intro p hp q hq a b pa pb fa fb hn
  have qa := pa
  have qb := pb
  rw [(hinv.key _ _ (hrow p hp)).1] at qa
  rw [(hinv.key _ _ (hrow q hq)).1] at qb
  exact main p hp q hq a b pa pb fa fb
    ((hinv.nameEip _ _ a _ _ b ⟨hrow p hp, qa⟩ ⟨hrow q hq, qb⟩).1 hn)

theorem Reachable_storeFoo12 : Reachable sampleKeeper storeFoo12 := by
  have h0 : Reachable sampleKeeper State.empty := Reachable.empty
  have h1 : Reachable sampleKeeper
      ⟨[("foo_100-1", sampleRollapp "foo_100-1" "alice")], [(100, "foo_100-1")], [], []⟩ :=
    Reachable.register State.empty _ foo1 (sampleRollapp "foo_100-1" "alice") h0
      (by decide) rfl rfl (by decide) (by decide)
  have h2 : Reachable sampleKeeper storeFoo1Frozen :=
    Reachable.freeze _ storeFoo1Frozen "foo_100-1" none h1 (by decide)
  exact Reachable.register storeFoo1Frozen storeFoo12 foo2 (sampleRollapp "foo_100-2" "bob") h2
    (by decide) rfl rfl (by decide) (by decide)

theorem Reachable_one_active_witness :
    Reachable sampleKeeper storeFoo12 ∧
    (∀ p ∈ storeFoo12.rollapps, p.2.RollappId = p.1 ∧ ∃ a, NewChainID p.1 = some a) ∧
    (∀ p ∈ storeFoo12.rollapps, ∀ q ∈ storeFoo12.rollapps, ∀ a b,
      NewChainID p.2.RollappId = some a → NewChainID q.2.RollappId = some b →
      p.2.Frozen = false → q.2.Frozen = false → a.name = b.name → p = q) ∧
    (∀ p ∈ storeFoo12.rollapps, ∀ q ∈ storeFoo12.rollapps, ∀ a b,
      NewChainID p.2.RollappId = some a → NewChainID q.2.RollappId = some b →
      p.2.Frozen = false → q.2.Frozen = false → a.eip155ID = b.eip155ID → p = q) :=
  ⟨Reachable_storeFoo12, Reachable_one_active sampleKeeper storeFoo12 Reachable_storeFoo12⟩

/-! ## Exact collisions and active chains (C4) -/

/-- C4: `CheckIfRollappExists` fails with `ErrRollappExists` whenever a record is
stored under the candidate's full id string, frozen or not, and also whenever the
record found through the candidate's EIP155 id is not frozen. -/
theorem CheckIfRollappExists_exists (s : State) (c : ChainID) :
    (∀ r, GetRollapp s c.chainID = some r →
      CheckIfRollappExists s c = .ret (some .ErrRollappExists)) ∧
    (∀ r, GetRollappByEIP155 s c.eip155ID = some r → r.Frozen = false →
      CheckIfRollappExists s c = .ret (some .ErrRollappExists)) :=
  ⟨fun _ h => CheckIfRollappExists_of_stored h,
   fun _ h hf => CheckIfRollappExists_of_active h hf⟩

theorem CheckIfRollappExists_exists_witness :
    CheckIfRollappExists storeFoo1Frozen foo1 = .ret (some .ErrRollappExists) ∧
    CheckIfRollappExists storeFoo1 foo1 = .ret (some .ErrRollappExists) ∧
    CheckIfRollappExists storeFoo12 foo3 = .ret (some .ErrRollappExists) :=
  ⟨(CheckIfRollappExists_exists storeFoo1Frozen foo1).1 _ rfl,
   (CheckIfRollappExists_exists storeFoo1 foo1).1 _ rfl,
   (CheckIfRollappExists_exists storeFoo12 foo3).2 (sampleRollapp "foo_100-2" "bob")
     (by decide) (by decide)⟩

/-! ## Round trip of `SetRollapp` (C7) -/

/-- C7: for every store and every record whose id is a well-formed chain id,
`SetRollapp` returns, and right after it both `GetRollapp` on the record's id and
`GetRollappByEIP155` on the EIP155 number of that id find exactly this record. -/
theorem SetRollapp_roundtrip (s : State) (r : Rollapp) (c : ChainID)
    (h : NewChainID r.RollappId = some c) :
    ∃ t, SetRollapp s r = .ret t ∧ GetRollapp t r.RollappId = some r ∧
      GetRollappByEIP155 t c.eip155ID = some r := by
  refine ⟨_, SetRollapp_ret h, ?_, ?_⟩
  · simp [GetRollapp, kvGet_kvSet_self]
  · simp [GetRollappByEIP155, GetRollapp, kvGet_kvSet_self]

theorem SetRollapp_roundtrip_witness :
    NewChainID (sampleRollapp "foo_100-2" "bob").RollappId = some foo2 ∧
    ∃ t, SetRollapp storeFoo1Frozen (sampleRollapp "foo_100-2" "bob") = .ret t ∧
      GetRollapp t (sampleRollapp "foo_100-2" "bob").RollappId
        = some (sampleRollapp "foo_100-2" "bob") ∧
      GetRollappByEIP155 t foo2.eip155ID = some (sampleRollapp "foo_100-2" "bob") :=
  ⟨by decide, SetRollapp_roundtrip storeFoo1Frozen _ foo2 (by decide)⟩

/-! ## The checks of an update, in order (C8, C9, C10) -/

/-- C8: `CheckAndUpdateRollappFields` returns the first failure of, in this order,
`ErrRollappNotFound` (no record under the message's id; the returned record is the
zero value), `ErrUnauthorized` (the message's owner is not the record's owner,
whatever the record's frozen, launched and sealed flags are) and `ErrRollappFrozen`
(the record is frozen); in the last two cases it returns the stored record. -/
theorem CheckAndUpdateRollappFields_first_failure (k : Keeper) (s : State)
    (u : MsgUpdateRollappInformation) :
    (GetRollapp s u.RollappId = none →
      CheckAndUpdateRollappFields k s u = (Rollapp.zero, some .ErrRollappNotFound)) ∧
    (∀ cur, GetRollapp s u.RollappId = some cur → u.Owner ≠ cur.Owner →
      CheckAndUpdateRollappFields k s u = (cur, some .ErrUnauthorized)) ∧
    (∀ cur, GetRollapp s u.RollappId = some cur → u.Owner = cur.Owner →
      cur.Frozen = true →
      CheckAndUpdateRollappFields k s u = (cur, some .ErrRollappFrozen)) := by
  refine ⟨?_, ?_, ?_⟩
  · intro h
    simp [CheckAndUpdateRollappFields, h]
  · intro cur h ho
    simp [CheckAndUpdateRollappFields, h, ho]
  · intro cur h ho hf
    simp [CheckAndUpdateRollappFields, h, ho, hf]

theorem CheckAndUpdateRollappFields_first_failure_witness :
    CheckAndUpdateRollappFields sampleKeeper storeFoo12 ⟨"alice", "bar_7-1", "", none, none⟩
      = (Rollapp.zero, some .ErrRollappNotFound) ∧
    CheckAndUpdateRollappFields sampleKeeper storeFoo12 ⟨"bob", "foo_100-1", "", none, none⟩
      = ({ sampleRollapp "foo_100-1" "alice" with Frozen := true }, some .ErrUnauthorized) ∧
    CheckAndUpdateRollappFields sampleKeeper storeFoo12 ⟨"alice", "foo_100-1", "", none, none⟩
      = ({ sampleRollapp "foo_100-1" "alice" with Frozen := true }, some .ErrRollappFrozen) :=
  ⟨(CheckAndUpdateRollappFields_first_failure sampleKeeper storeFoo12
      ⟨"alice", "bar_7-1", "", none, none⟩).1 (by decide),
   (CheckAndUpdateRollappFields_first_failure sampleKeeper storeFoo12
      ⟨"bob", "foo_100-1", "", none, none⟩).2.1 _ rfl (by decide),
   (CheckAndUpdateRollappFields_first_failure sampleKeeper storeFoo12
      ⟨"alice", "foo_100-1", "", none, none⟩).2.2 _ rfl (by decide) (by decide)⟩

/-- C9: for a stored launched record and a message with a non-empty initial sequencer
(for which `UpdatingImmutableValues` is true), `CheckAndUpdateRollappFields` returns an
error together with the stored record itself, so the initial sequencer is the
original one; the error is `ErrImmutableFieldUpdateAfterLaunched` when the caller is
the owner and the record is not frozen; and the update handler leaves the store as
it was. -/
theorem CheckAndUpdateRollappFields_launched (k : Keeper) (s : State)
    (u : MsgUpdateRollappInformation) (cur : Rollapp)
    (hget : GetRollapp s u.RollappId = some cur) (hl : cur.Launched = true)
    (hseq : u.InitialSequencer ≠ "")
    (himm : u.InitialSequencer ≠ "" → k.UpdatingImmutableValues u = true) :
    (∃ err, CheckAndUpdateRollappFields k s u = (cur, some err)) ∧
    (CheckAndUpdateRollappFields k s u).1.InitialSequencer = cur.InitialSequencer ∧
    (u.Owner = cur.Owner → cur.Frozen = false →
      CheckAndUpdateRollappFields k s u
        = (cur, some .ErrImmutableFieldUpdateAfterLaunched)) ∧
    (∃ err, UpdateRollapp k s u = .ret (s, some err)) := by
  have h1 := himm hseq
  have key : ∃ err, CheckAndUpdateRollappFields k s u = (cur, some err) := by
    by_cases ho : u.Owner = cur.Owner
    · by_cases hf : cur.Frozen = true
      · exact ⟨.ErrRollappFrozen, by simp [CheckAndUpdateRollappFields, hget, ho, hf]⟩
      · exact ⟨.ErrImmutableFieldUpdateAfterLaunched,
          by simp [CheckAndUpdateRollappFields, hget, ho, hf, h1, hl]⟩
    · exact ⟨.ErrUnauthorized, by simp [CheckAndUpdateRollappFields, hget, ho]⟩
  refine ⟨key, ?_, ?_, ?_⟩
  · obtain ⟨err, he⟩ := key
    rw [he]
  · intro ho hf
    simp [CheckAndUpdateRollappFields, hget, ho, hf, h1, hl]
  · obtain ⟨err, he⟩ := key
    exact ⟨err, by simp [UpdateRollapp, he]⟩

theorem CheckAndUpdateRollappFields_launched_witness :
    (∃ err, CheckAndUpdateRollappFields sampleKeeper storeLaunched sequencerPatch
      = (launchedRollapp, some err)) ∧
    (CheckAndUpdateRollappFields sampleKeeper storeLaunched sequencerPatch).1.InitialSequencer
      = "seq-0" ∧
    CheckAndUpdateRollappFields sampleKeeper storeLaunched sequencerPatch
      = (launchedRollapp, some .ErrImmutableFieldUpdateAfterLaunched) ∧
    (∃ err, UpdateRollapp sampleKeeper storeLaunched sequencerPatch
      = .ret (storeLaunched, some err)) :=
  have h := CheckAndUpdateRollappFields_launched sampleKeeper storeLaunched sequencerPatch
    launchedRollapp rfl rfl (by decide) (fun _ => rfl)
  ⟨h.1, h.2.1, h.2.2.1 rfl rfl, h.2.2.2⟩

/-- C10: for a stored record whose genesis info is sealed and a message that carries a
genesis-info patch (for which `UpdatingGenesisInfo` is true), `CheckAndUpdateRollappFields`
returns an error together with the stored record itself, so no genesis-info sub-field
differs from the original; the error is `ErrGenesisInfoSealed` when the caller is the
owner, the record is not frozen and the immutable-after-launch check does not fire
first; and the update handler leaves the store as it was. -/
theorem CheckAndUpdateRollappFields_sealed (k : Keeper) (s : State)
    (u : MsgUpdateRollappInformation) (cur : Rollapp) (patch : GenesisInfo)
    (hget : GetRollapp s u.RollappId = some cur) (hs : cur.GenesisInfo.Sealed = true)
    (hpatch : u.GenesisInfo = some patch)
    (hgen : u.GenesisInfo.isSome = true → k.UpdatingGenesisInfo u = true) :
    (∃ err, CheckAndUpdateRollappFields k s u = (cur, some err)) ∧
    (CheckAndUpdateRollappFields k s u).1.GenesisInfo = cur.GenesisInfo ∧
    (u.Owner = cur.Owner → cur.Frozen = false →
      (k.UpdatingImmutableValues u && cur.Launched) = false →
      CheckAndUpdateRollappFields k s u = (cur, some .ErrGenesisInfoSealed)) ∧
    (∃ err, UpdateRollapp k s u = .ret (s, some err)) := by
  have h1 := hgen (by simp [hpatch])
  have key : ∃ err, CheckAndUpdateRollappFields k s u = (cur, some err) := by
    by_cases ho : u.Owner = cur.Owner
    · by_cases hf : cur.Frozen = true
      · exact ⟨.ErrRollappFrozen, by simp [CheckAndUpdateRollappFields, hget, ho, hf]⟩
      · by_cases hi : (k.UpdatingImmutableValues u && cur.Launched) = true
        · exact ⟨.ErrImmutableFieldUpdateAfterLaunched,
            by simp [CheckAndUpdateRollappFields, hget, ho, hf, hi]⟩
        · exact ⟨.ErrGenesisInfoSealed,
            by simp [CheckAndUpdateRollappFields, hget, ho, hf, hi, h1, hs]⟩
    · exact ⟨.ErrUnauthorized, by simp [CheckAndUpdateRollappFields, hget, ho]⟩
  refine ⟨key, ?_, ?_, ?_⟩
  · obtain ⟨err, he⟩ := key
    rw [he]
  · intro ho hf hi
    simp [CheckAndUpdateRollappFields, hget, ho, hf, hi, h1, hs]
  · obtain ⟨err, he⟩ := key
    exact ⟨err, by simp [UpdateRollapp, he]⟩

theorem CheckAndUpdateRollappFields_sealed_witness :
    (∃ err, CheckAndUpdateRollappFields sampleKeeper storeLaunched genesisPatch
      = (sealedRollapp, some err)) ∧
    (CheckAndUpdateRollappFields sampleKeeper storeLaunched genesisPatch).1.GenesisInfo
      = sealedRollapp.GenesisInfo ∧
    CheckAndUpdateRollappFields sampleKeeper storeLaunched genesisPatch
      = (sealedRollapp, some .ErrGenesisInfoSealed) ∧
    (∃ err, UpdateRollapp sampleKeeper storeLaunched genesisPatch
      = .ret (storeLaunched, some err)) :=
  have h := CheckAndUpdateRollappFields_sealed sampleKeeper storeLaunched genesisPatch
    sealedRollapp _ rfl rfl rfl (fun _ => rfl)
  ⟨h.1, h.2.1, h.2.2.1 rfl rfl rfl, h.2.2.2⟩

/-! ## The merge of an accepted update (C11, C12, C13) -/

theorem CheckAndUpdateRollappFields_merged {k : Keeper} {s : State}
    {u : MsgUpdateRollappInformation} {c r : Rollapp}
    (hget : GetRollapp s u.RollappId = some c)
    (hok : CheckAndUpdateRollappFields k s u = (r, none)) :
    r = { c with
          InitialSequencer :=
            if u.InitialSequencer ≠ "" then u.InitialSequencer else c.InitialSequencer
          GenesisInfo :=
            match u.GenesisInfo with
            | none => c.GenesisInfo
            | some patch =>
              { GenesisChecksum :=
                  if patch.GenesisChecksum ≠ "" then patch.GenesisChecksum
                  else c.GenesisInfo.GenesisChecksum
                Bech32Prefix :=
                  if patch.Bech32Prefix ≠ "" then patch.Bech32Prefix
                  else c.GenesisInfo.Bech32Prefix
                NativeDenom :=
                  if patch.NativeDenom.Base ≠ "" then patch.NativeDenom
                  else c.GenesisInfo.NativeDenom
                InitialSupply :=
                  if patch.InitialSupply.isSome then patch.InitialSupply
                  else c.GenesisInfo.InitialSupply
                Sealed := c.GenesisInfo.Sealed
                GenesisAccounts :=
                  match patch.GenesisAccounts with
                  | some accounts => some accounts
                  | none =>
                    match c.GenesisInfo.GenesisAccounts with
                    | some _ => some ⟨[]⟩
                    | none => none }
          Metadata :=
            match u.Metadata with
            | none => c.Metadata
            | some metadata =>
              if !k.MetadataIsEmpty metadata then some metadata else c.Metadata } := by
  unfold CheckAndUpdateRollappFields at hok
  rw [hget] at hok
  dsimp only at hok
  split at hok
  · exact absurd (Prod.mk.inj hok).2 (by simp)
  · split at hok
    · exact absurd (Prod.mk.inj hok).2 (by simp)
    · split at hok
      · exact absurd (Prod.mk.inj hok).2 (by simp)
      · split at hok
        · exact absurd (Prod.mk.inj hok).2 (by simp)
        · split at hok
          · exact absurd (Prod.mk.inj hok).2 (by simp)
          · exact (Prod.mk.inj hok).1.symm

theorem updateAssignments_eq (k : Keeper) (c : Rollapp) (u : MsgUpdateRollappInformation) :
    updateAssignments k c u =
      { c with
          InitialSequencer :=
            if u.InitialSequencer ≠ "" then u.InitialSequencer else c.InitialSequencer
          GenesisInfo :=
            match u.GenesisInfo with
            | none => c.GenesisInfo
            | some patch =>
              { GenesisChecksum :=
                  if patch.GenesisChecksum ≠ "" then patch.GenesisChecksum
                  else c.GenesisInfo.GenesisChecksum
                Bech32Prefix :=
                  if patch.Bech32Prefix ≠ "" then patch.Bech32Prefix
                  else c.GenesisInfo.Bech32Prefix
                NativeDenom :=
                  if patch.NativeDenom.Base ≠ "" then patch.NativeDenom
                  else c.GenesisInfo.NativeDenom
                InitialSupply :=
                  if patch.InitialSupply.isSome then patch.InitialSupply
                  else c.GenesisInfo.InitialSupply
                Sealed := c.GenesisInfo.Sealed
                GenesisAccounts :=
                  match patch.GenesisAccounts with
                  | some accounts => some accounts
                  | none =>
                    match c.GenesisInfo.GenesisAccounts with
                    | some _ => some ⟨[]⟩
                    | none => none }
          Metadata :=
            match u.Metadata with
            | none => c.Metadata
            | some metadata =>
              if !k.MetadataIsEmpty metadata then some metadata else c.Metadata } := by
  obtain ⟨id, ow, ⟨gc, bp, nd, sup, sl, ga⟩, ch, fr, md, sq, bond, vm, la, pl⟩ := c
  unfold updateAssignments
  by_cases h1 : u.InitialSequencer = ""
  all_goals
    cases hm : u.Metadata with
    | none =>
      cases hg : u.GenesisInfo with
      | none => simp [h1]
      | some patch =>
        by_cases h2 : patch.GenesisChecksum = "" <;>
        by_cases h3 : patch.Bech32Prefix = "" <;>
        by_cases h4 : patch.NativeDenom.Base = "" <;>
        cases h5 : patch.InitialSupply <;>
        cases h6 : patch.GenesisAccounts <;>
        cases ga <;>
        simp [h1, h2, h3, h4, h5, h6]
    | some metadata =>
      by_cases h8 : k.MetadataIsEmpty metadata = true
      all_goals
        cases hg : u.GenesisInfo with
        | none => simp [h1, h8]
        | some patch =>
          by_cases h2 : patch.GenesisChecksum = "" <;>
          by_cases h3 : patch.Bech32Prefix = "" <;>
          by_cases h4 : patch.NativeDenom.Base = "" <;>
          cases h5 : patch.InitialSupply <;>
          cases h6 : patch.GenesisAccounts <;>
          cases ga <;>
          simp [h1, h2, h3, h4, h5, h6, h8]

theorem CheckAndUpdateRollappFields_assignments {k : Keeper} {s : State}
    {u : MsgUpdateRollappInformation} {c r : Rollapp}
    (hget : GetRollapp s u.RollappId = some c)
    (hok : CheckAndUpdateRollappFields k s u = (r, none)) :
    r = updateAssignments k c u := by
  rw [CheckAndUpdateRollappFields_merged hget hok, updateAssignments_eq]

/-- C11 (amended): when `CheckAndUpdateRollappFields` returns no error for the stored
record `c`, the record it returns has the rollappId, owner, launched, frozen, channelId,
preLaunchTime, bond, vm type and genesisInfo.sealed of `c`; its initialSequencer is the
patch's if non-empty; without a genesisInfo patch its genesis info is that of `c`; with
one, genesisChecksum and bech32Prefix are the patch's if non-empty, nativeDenom the
patch's if its base is non-empty, initialSupply the patch's if non-nil, genesisAccounts
the patch's list if supplied and otherwise the list of `c` emptied (nil stays nil); its
metadata is the patch's if present and not empty; every other value is that of `c`.
It is the record the assignments of the source produce one after the other. -/
theorem CheckAndUpdateRollappFields_overwrites (k : Keeper) (s : State)
    (u : MsgUpdateRollappInformation) (c r : Rollapp)
    (hget : GetRollapp s u.RollappId = some c)
    (hok : CheckAndUpdateRollappFields k s u = (r, none)) :
    (r.RollappId = c.RollappId ∧ r.Owner = c.Owner ∧ r.Launched = c.Launched ∧
      r.Frozen = c.Frozen ∧ r.ChannelId = c.ChannelId ∧ r.PreLaunchTime = c.PreLaunchTime ∧
      r.MinSequencerBond = c.MinSequencerBond ∧ r.VmType = c.VmType ∧
      r.GenesisInfo.Sealed = c.GenesisInfo.Sealed) ∧
    r.InitialSequencer
      = (if u.InitialSequencer ≠ "" then u.InitialSequencer else c.InitialSequencer) ∧
    (u.GenesisInfo = none → r.GenesisInfo = c.GenesisInfo) ∧
    (∀ patch, u.GenesisInfo = some patch →
      r.GenesisInfo.GenesisChecksum
        = (if patch.GenesisChecksum ≠ "" then patch.GenesisChecksum
           else c.GenesisInfo.GenesisChecksum) ∧
      r.GenesisInfo.Bech32Prefix
        = (if patch.Bech32Prefix ≠ "" then patch.Bech32Prefix
           else c.GenesisInfo.Bech32Prefix) ∧
      r.GenesisInfo.NativeDenom
        = (if patch.NativeDenom.Base ≠ "" then patch.NativeDenom
           else c.GenesisInfo.NativeDenom) ∧
      r.GenesisInfo.InitialSupply
        = (if patch.InitialSupply.isSome then patch.InitialSupply
           else c.GenesisInfo.InitialSupply) ∧
      (∀ accounts, patch.GenesisAccounts = some accounts →
        r.GenesisInfo.GenesisAccounts = some accounts) ∧
      (patch.GenesisAccounts = none →
        r.GenesisInfo.GenesisAccounts = c.GenesisInfo.GenesisAccounts.map (fun _ => ⟨[]⟩))) ∧
    (u.Metadata = none → r.Metadata = c.Metadata) ∧
    (∀ metadata, u.Metadata = some metadata →
      r.Metadata = (if k.MetadataIsEmpty metadata then c.Metadata else some metadata)) ∧
    r = updateAssignments k c u := by
  have hseq := CheckAndUpdateRollappFields_assignments hget hok
  have hr := CheckAndUpdateRollappFields_merged hget hok
  refine ⟨?_, ?_, ?_, ?_, ?_, ?_, hseq⟩
  · rw [hr]
    refine ⟨rfl, rfl, rfl, rfl, rfl, rfl, rfl, rfl, ?_⟩
    cases u.GenesisInfo <;> rfl
  · rw [hr]
  · intro hg
    rw [hr]
    simp only [hg]
  · intro patch hg
    have hr2 := hr
    simp only [hg] at hr2
    rw [hr2]
    refine ⟨rfl, rfl, rfl, rfl, ?_, ?_⟩
    · intro accounts ha
      show (match patch.GenesisAccounts with
        | some accounts => some accounts
        | none =>
          match c.GenesisInfo.GenesisAccounts with
          | some _ => some ⟨[]⟩
          | none => none) = some accounts
      rw [ha]
    · intro ha
      show (match patch.GenesisAccounts with
        | some accounts => some accounts
        | none =>
          match c.GenesisInfo.GenesisAccounts with
          | some _ => some ⟨[]⟩
          | none => none) = c.GenesisInfo.GenesisAccounts.map (fun _ => ⟨[]⟩)
      rw [ha]
      cases c.GenesisInfo.GenesisAccounts <;> rfl
  · intro hm
    rw [hr]
    simp only [hm]
  · intro metadata hm
    rw [hr]
    simp only [hm]
    cases k.MetadataIsEmpty metadata <;> rfl

theorem CheckAndUpdateRollappFields_overwrites_witness :
    (CheckAndUpdateRollappFields sampleKeeper storeAccounts newSequencerPatch).1.InitialSequencer
      = "seq-9" ∧
    (CheckAndUpdateRollappFields sampleKeeper storeAccounts newSequencerPatch).1.GenesisInfo
      = accountsRollapp.GenesisInfo ∧
    (CheckAndUpdateRollappFields sampleKeeper storeAccounts newSequencerPatch).1.Owner
      = "alice" :=
  have h := CheckAndUpdateRollappFields_overwrites sampleKeeper storeAccounts newSequencerPatch
    accountsRollapp (CheckAndUpdateRollappFields sampleKeeper storeAccounts newSequencerPatch).1
    rfl (by decide)
  ⟨h.2.1, h.2.2.1 rfl, h.1.2.1⟩

/-- Counterexample to C11 as stated: the patch carries a genesis info whose accounts
list is nil, the update is accepted, and the returned record does not keep the genesis
accounts of the stored record: its list is emptied. -/
theorem CheckAndUpdateRollappFields_overwrites_counterexample :
    GetRollapp storeAccounts emptyGenesisPatch.RollappId = some accountsRollapp ∧
    (CheckAndUpdateRollappFields sampleKeeper storeAccounts emptyGenesisPatch).2 = none ∧
    emptyGenesisPatch.GenesisInfo = some Rollapp.zero.GenesisInfo ∧
    Rollapp.zero.GenesisInfo.GenesisAccounts = none ∧
    accountsRollapp.GenesisInfo.GenesisAccounts = some ⟨[⟨10, "addr-0"⟩]⟩ ∧
    (CheckAndUpdateRollappFields sampleKeeper storeAccounts
      emptyGenesisPatch).1.GenesisInfo.GenesisAccounts = some ⟨[]⟩ ∧
    (CheckAndUpdateRollappFields sampleKeeper storeAccounts
      emptyGenesisPatch).1.GenesisInfo.GenesisAccounts
      ≠ accountsRollapp.GenesisInfo.GenesisAccounts := by
  decide

/-- C12 (amended): for a stored record with a non-empty genesis-accounts list and an
accepted update message, if the message carries a genesisInfo patch whose accounts
list is absent or empty, the returned record has no genesis accounts; if the message
carries no genesisInfo patch, the returned record keeps its non-empty list. -/
theorem CheckAndUpdateRollappFields_accounts (k : Keeper) (s : State)
    (u : MsgUpdateRollappInformation) (c r : Rollapp)
    (hget : GetRollapp s u.RollappId = some c) (hacc : c.GenesisInfo.accounts ≠ [])
    (hok : CheckAndUpdateRollappFields k s u = (r, none)) :
    (∀ patch, u.GenesisInfo = some patch → patch.accounts = [] →
      r.GenesisInfo.accounts = []) ∧
    (u.GenesisInfo = none →
      r.GenesisInfo.accounts = c.GenesisInfo.accounts ∧ r.GenesisInfo.accounts ≠ []) := by
  have hr := CheckAndUpdateRollappFields_merged hget hok
  constructor
  · intro patch hg hp
    have hr2 := hr
    simp only [hg] at hr2
    rw [hr2]
    show GenesisInfo.accounts
      { GenesisChecksum := _, Bech32Prefix := _, NativeDenom := _, InitialSupply := _,
        Sealed := _,
        GenesisAccounts :=
          match patch.GenesisAccounts with
          | some accounts => some accounts
          | none =>
            match c.GenesisInfo.GenesisAccounts with
            | some _ => some ⟨[]⟩
            | none => none } = []
    unfold GenesisInfo.accounts at hp ⊢
    cases ha : patch.GenesisAccounts with
    | none => cases c.GenesisInfo.GenesisAccounts <;> rfl
    | some l =>
      rw [ha] at hp
      exact hp
  · intro hg
    have hr2 := hr
    simp only [hg] at hr2
    have hgi : r.GenesisInfo = c.GenesisInfo := by rw [hr2]
    rw [hgi]
    exact ⟨rfl, hacc⟩

theorem CheckAndUpdateRollappFields_accounts_witness :
    (CheckAndUpdateRollappFields sampleKeeper storeAccounts
      emptyGenesisPatch).1.GenesisInfo.accounts = [] ∧
    (CheckAndUpdateRollappFields sampleKeeper storeAccounts
      emptyAccountsPatch).1.GenesisInfo.accounts = [] :=
  ⟨(CheckAndUpdateRollappFields_accounts sampleKeeper storeAccounts emptyGenesisPatch
      accountsRollapp _ rfl (by decide) (by decide)).1 _ rfl rfl,
   (CheckAndUpdateRollappFields_accounts sampleKeeper storeAccounts emptyAccountsPatch
      accountsRollapp _ rfl (by decide) (by decide)).1 _ rfl rfl⟩

/-- Counterexample to C12 as stated: the accepted patch carries metadata only, so it
supplies no genesis accounts, and the returned record still has the genesis account
of the stored record. -/
theorem CheckAndUpdateRollappFields_accounts_counterexample :
    GetRollapp storeAccounts metadataPatch.RollappId = some accountsRollapp ∧
    accountsRollapp.GenesisInfo.accounts ≠ [] ∧
    (CheckAndUpdateRollappFields sampleKeeper storeAccounts metadataPatch).2 = none ∧
    metadataPatch.GenesisInfo = none ∧
    (CheckAndUpdateRollappFields sampleKeeper storeAccounts metadataPatch).1.GenesisInfo.accounts
      = [⟨10, "addr-0"⟩] := by
  decide

/-- C13 (amended): `CheckAndUpdateRollappFields` writes nothing; when it returns no
error for a record stored under its own well-formed id, `SetRollapp` of the returned
record, which is what the update handler does next, persists it: afterwards
`GetRollapp` on the same id returns the merged record. -/
theorem CheckAndUpdateRollappFields_then_SetRollapp (k : Keeper) (s : State)
    (u : MsgUpdateRollappInformation) (c r : Rollapp) (a : ChainID)
    (hget : GetRollapp s u.RollappId = some c) (hid : c.RollappId = u.RollappId)
    (hwf : NewChainID u.RollappId = some a)
    (hok : CheckAndUpdateRollappFields k s u = (r, none)) :
    ∃ t, SetRollapp s r = .ret t ∧ GetRollapp t u.RollappId = some r ∧
      UpdateRollapp k s u = .ret (t, none) := by
  have hr := CheckAndUpdateRollappFields_merged hget hok
  have hrid : r.RollappId = u.RollappId := by rw [hr]; exact hid
  have hparse : NewChainID r.RollappId = some a := by rw [hrid]; exact hwf
  refine ⟨_, SetRollapp_ret hparse, ?_, ?_⟩
  · rw [← hrid]
    exact GetRollapp_SetRollapp_self (SetRollapp_ret hparse)
  · simp only [UpdateRollapp, hok, SetRollapp_ret hparse]

theorem CheckAndUpdateRollappFields_then_SetRollapp_witness :
    ∃ t, SetRollapp storeAccounts
        (CheckAndUpdateRollappFields sampleKeeper storeAccounts newSequencerPatch).1 = .ret t ∧
      GetRollapp t newSequencerPatch.RollappId
        = some (CheckAndUpdateRollappFields sampleKeeper storeAccounts newSequencerPatch).1 ∧
      UpdateRollapp sampleKeeper storeAccounts newSequencerPatch = .ret (t, none) :=
  CheckAndUpdateRollappFields_then_SetRollapp sampleKeeper storeAccounts newSequencerPatch
    accountsRollapp _ ⟨"acc_5-1", "acc", 5, 1⟩ rfl rfl (by decide) (by decide)

/-- Counterexample to C13 as stated: the update is accepted and returns a record with the
new initial sequencer, yet `GetRollapp` on the same id still returns the stored record,
whose initial sequencer is empty. -/
theorem CheckAndUpdateRollappFields_then_SetRollapp_counterexample :
    (CheckAndUpdateRollappFields sampleKeeper storeAccounts newSequencerPatch).2 = none ∧
    (CheckAndUpdateRollappFields sampleKeeper storeAccounts newSequencerPatch).1.InitialSequencer
      = "seq-9" ∧
    GetRollapp storeAccounts newSequencerPatch.RollappId = some accountsRollapp ∧
    accountsRollapp.InitialSequencer = "" ∧
    GetRollapp storeAccounts newSequencerPatch.RollappId
      ≠ some (CheckAndUpdateRollappFields sampleKeeper storeAccounts newSequencerPatch).1 := by
  decide

/-! ## Launching and attaching a plan (C14, C17) -/

/-- C14 (amended): for every record `r` whose id is a well-formed chain id,
`SetRollappAsLaunched` fails with `ErrFailedPrecondition` leaving store and record
as they are if and only if `AllImmutableFieldsAreSet` is false for `r`; otherwise it
returns no error, the record is `r` with `genesisInfo.sealed = true` and
`launched = true` and nothing else changed, and `GetRollapp` on its id returns it. -/
theorem SetRollappAsLaunched_spec (k : Keeper) (s : State) (r : Rollapp) (a : ChainID)
    (hwf : NewChainID r.RollappId = some a) :
    ((∃ e, SetRollappAsLaunched k s r = .ret (s, r, some e) ∧
        e.Is .ErrFailedPrecondition = true) ↔ k.AllImmutableFieldsAreSet r = false) ∧
    (k.AllImmutableFieldsAreSet r = true →
      ∃ t, SetRollappAsLaunched k s r = .ret (t, r.afterLaunch, none) ∧
        GetRollapp t r.RollappId = some r.afterLaunch) := by
  have hparse : NewChainID r.afterLaunch.RollappId = some a := hwf
  have hrun : k.AllImmutableFieldsAreSet r = true →
      SetRollappAsLaunched k s r
        = .ret ({ rollapps := kvSet keyLt r.RollappId r.afterLaunch s.rollapps
                  byEIP155 := kvSet (fun a b => decide (a < b)) a.eip155ID r.RollappId
                    s.byEIP155
                  pendingStates := s.pendingStates
                  frozenClients := s.frozenClients }, r.afterLaunch, none) := by
    intro hall
    have hset := SetRollapp_ret (s := s) hparse
    unfold SetRollappAsLaunched
    rw [if_neg (by simp [hall])]
    show (match SetRollapp s r.afterLaunch with
      | Result.panic => Result.panic
      | Result.ret s => Result.ret (s, r.afterLaunch, none)) = _
    rw [hset]
    rfl
  constructor
  · constructor
    · rintro ⟨e, he, _⟩
      cases hall : k.AllImmutableFieldsAreSet r with
      | false => rfl
      | true =>
        exfalso
        rw [hrun hall] at he
        exact absurd (Prod.mk.inj (Prod.mk.inj (Result.ret.inj he)).2).2 (by simp)
    · intro hall
      exact ⟨.wrap .ErrFailedPrecondition "immutable fields not set",
        by simp [SetRollappAsLaunched, hall], by simp [Error.Is]⟩
  · intro hall
    refine ⟨_, hrun hall, ?_⟩
    simp only [GetRollapp]
    exact kvGet_kvSet_self _ _ _ _

theorem SetRollappAsLaunched_spec_witness :
    (∃ t, SetRollappAsLaunched sampleKeeper storeReady readyRollapp
        = .ret (t, readyLaunched, none) ∧
      GetRollapp t "rdy_11-1" = some readyLaunched) ∧
    ((∃ e, SetRollappAsLaunched sampleKeeper storeAccounts accountsRollapp
        = .ret (storeAccounts, accountsRollapp, some e) ∧
        e.Is .ErrFailedPrecondition = true) ↔
      sampleKeeper.AllImmutableFieldsAreSet accountsRollapp = false) :=
  ⟨(SetRollappAsLaunched_spec sampleKeeper storeReady readyRollapp ⟨"rdy_11-1", "rdy", 11, 1⟩
      (by decide)).2 (by decide),
   (SetRollappAsLaunched_spec sampleKeeper storeAccounts accountsRollapp
      ⟨"acc_5-1", "acc", 5, 1⟩ (by decide)).1⟩

/-- Counterexample to C14 as stated: for the record with id `0`, which is not a chain id,
`AllImmutableFieldsAreSet` is true, yet `SetRollappAsLaunched` does not return:
`SetRollapp` panics in `MustNewChainID`. -/
theorem SetRollappAsLaunched_spec_counterexample :
    sampleKeeper.AllImmutableFieldsAreSet malformedRollapp = true ∧
    NewChainID malformedRollapp.RollappId = none ∧
    SetRollappAsLaunched sampleKeeper State.empty malformedRollapp = .panic := by
  decide

/-- C17 (amended): for every record `r` whose id is a well-formed chain id and every plan,
`SetIROPlanToRollapp` fails with `ErrFailedPrecondition` leaving store and record as
they are if `r` is launched, or its genesis info is sealed, or `GenesisInfoFieldsAreSet`
is false for `r`; in every other case it returns no error, the record is `r` with
`genesisInfo.sealed = true` and the plan's pre-launch time and nothing else changed
(launched stays false), and `GetRollapp` on its id returns it. -/
theorem SetIROPlanToRollapp_spec (k : Keeper) (s : State) (r : Rollapp) (iro : Plan)
    (a : ChainID) (hwf : NewChainID r.RollappId = some a) :
    (r.Launched = true ∨ r.GenesisInfo.Sealed = true ∨ k.GenesisInfoFieldsAreSet r = false →
      ∃ e, SetIROPlanToRollapp k s r iro = .ret (s, r, some e) ∧
        e.Is .ErrFailedPrecondition = true) ∧
    (r.Launched = false → r.GenesisInfo.Sealed = false →
      k.GenesisInfoFieldsAreSet r = true →
      ∃ t, SetIROPlanToRollapp k s r iro = .ret (t, r.afterPlan iro, none) ∧
        (r.afterPlan iro).Launched = false ∧
        GetRollapp t r.RollappId = some (r.afterPlan iro)) := by
  have hparse : NewChainID (r.afterPlan iro).RollappId = some a := hwf
  constructor
  · intro h
    by_cases hl : r.Launched = true
    · exact ⟨.wrap .ErrFailedPrecondition "rollapp already launched",
        by simp [SetIROPlanToRollapp, hl], by simp [Error.Is]⟩
    · by_cases hs : r.GenesisInfo.Sealed = true
      · exact ⟨.wrap .ErrFailedPrecondition "genesis info already sealed",
          by simp [SetIROPlanToRollapp, hl, hs], by simp [Error.Is]⟩
      · have hg : k.GenesisInfoFieldsAreSet r = false := by
          rcases h with h | h | h
          · exact absurd h hl
          · exact absurd h hs
          · exact h
        exact ⟨.wrap .ErrFailedPrecondition "genesis info not set",
          by simp [SetIROPlanToRollapp, hl, hs, hg], by simp [Error.Is]⟩
  · intro hl hs hg
    have hset := SetRollapp_ret (s := s) hparse
    refine ⟨_, ?_, hl, GetRollapp_SetRollapp_self hset⟩
    unfold SetIROPlanToRollapp
    rw [if_neg (by simp [hl]), if_neg (by simp [hs]), if_neg (by simp [hg])]
    show (match SetRollapp s (r.afterPlan iro) with
      | Result.panic => Result.panic
      | Result.ret s => Result.ret (s, r.afterPlan iro, none)) = _
    rw [hset]

theorem SetIROPlanToRollapp_spec_witness :
    (∃ t, SetIROPlanToRollapp sampleKeeper storeReady readyRollapp samplePlan
        = .ret (t, readyRollapp.afterPlan samplePlan, none) ∧
      (readyRollapp.afterPlan samplePlan).Launched = false ∧
      GetRollapp t "rdy_11-1" = some (readyRollapp.afterPlan samplePlan)) ∧
    (∃ e, SetIROPlanToRollapp sampleKeeper storeLaunched sealedRollapp samplePlan
        = .ret (storeLaunched, sealedRollapp, some e) ∧
      e.Is .ErrFailedPrecondition = true) :=
  ⟨(SetIROPlanToRollapp_spec sampleKeeper storeReady readyRollapp samplePlan
      ⟨"rdy_11-1", "rdy", 11, 1⟩ (by decide)).2 rfl rfl (by decide),
   (SetIROPlanToRollapp_spec sampleKeeper storeLaunched sealedRollapp samplePlan
      ⟨"qux_9-1", "qux", 9, 1⟩ (by decide)).1 (Or.inr (Or.inl rfl))⟩

/-- Counterexample to C17 as stated: the record with id `0` is neither launched nor sealed
and its genesis-info fields are set, yet `SetIROPlanToRollapp` does not return:
`SetRollapp` panics in `MustNewChainID`. -/
theorem SetIROPlanToRollapp_spec_counterexample :
    malformedRollapp.Launched = false ∧ malformedRollapp.GenesisInfo.Sealed = false ∧
    sampleKeeper.GenesisInfoFieldsAreSet malformedRollapp = true ∧
    NewChainID malformedRollapp.RollappId = none ∧
    SetIROPlanToRollapp sampleKeeper State.empty malformedRollapp samplePlan = .panic := by
  decide

/-! ## Sealing is monotonic, freezing does not gate launch and plan (C15, C16) -/

theorem kvSet_kvSet_self {K V : Type} [DecidableEq K] (lt : K → K → Bool) (k : K) (v : V)
    (l : List (K × V)) : kvSet lt k v (kvSet lt k v l) = kvSet lt k v l := by
  induction l with
  | nil => simp [kvSet]
  | cons p rest ih =>
    obtain ⟨k1, v1⟩ := p
    by_cases hk : k1 = k
    · simp [kvSet, hk]
    · by_cases hlt : lt k k1 = true
      · simp [kvSet, hk, hlt]
      · simp [kvSet, hk, hlt, ih]

theorem SetRollapp_twice {s t : State} {r : Rollapp} (h : SetRollapp s r = .ret t) :
    SetRollapp t r = .ret t := by
  obtain ⟨c, hc, rfl⟩ := SetRollapp_inv h
  rw [SetRollapp_ret hc]
  simp only [kvSet_kvSet_self]

theorem GetRollapp_SetRollapp_cases {s t : State} {r : Rollapp} (h : SetRollapp s r = .ret t)
    (id : String) :
    GetRollapp t id = if r.RollappId = id then some r else GetRollapp s id := by
  by_cases hid : r.RollappId = id
  · rw [if_pos hid, ← hid]
    exact GetRollapp_SetRollapp_self h
  · rw [if_neg hid]
    exact GetRollapp_SetRollapp_of_ne h hid

theorem sealed_after_SetRollapp {s t : State} {r c : Rollapp} {id : String}
    (hget : GetRollapp s id = some c) (hc : c.GenesisInfo.Sealed = true)
    (hr : r.GenesisInfo.Sealed = true) (h : SetRollapp s r = .ret t) :
    ∃ c1, GetRollapp t id = some c1 ∧ c1.GenesisInfo.Sealed = true := by
  rw [GetRollapp_SetRollapp_cases h id]
  by_cases hid : r.RollappId = id
  · rw [if_pos hid]
    exact ⟨r, rfl, hr⟩
  · rw [if_neg hid]
    exact ⟨c, hget, hc⟩

theorem keeps_sealed_CheckAndUpdateRollappFields {k : Keeper} {s : State}
    {u : MsgUpdateRollappInformation} {c : Rollapp}
    (hget : GetRollapp s u.RollappId = some c) :
    (CheckAndUpdateRollappFields k s u).1.GenesisInfo.Sealed = c.GenesisInfo.Sealed := by
  unfold CheckAndUpdateRollappFields
  rw [hget]
  dsimp only
  split
  · rfl
  · split
    · rfl
    · split
      · rfl
      · split
        · rfl
        · split
          · cases u.GenesisInfo <;> rfl
          · cases u.GenesisInfo <;> rfl

theorem SetRollappAsLaunched_cases {k : Keeper} {s t : State} {r r1 : Rollapp}
    {e : Option Error} (h : SetRollappAsLaunched k s r = .ret (t, r1, e)) :
    (t = s ∧ r1 = r ∧ e ≠ none ∧ k.AllImmutableFieldsAreSet r = false) ∨
    (r1 = r.afterLaunch ∧ e = none ∧ SetRollapp s r.afterLaunch = .ret t ∧
      k.AllImmutableFieldsAreSet r = true) := by
  unfold SetRollappAsLaunched at h
  cases hall : k.AllImmutableFieldsAreSet r with
  | false =>
    left
    rw [if_pos (by simp [hall])] at h
    have h1 := Prod.mk.inj (Result.ret.inj h)
    have h2 := Prod.mk.inj h1.2
    exact ⟨h1.1.symm, h2.1.symm, by rw [← h2.2]; simp, rfl⟩
  | true =>
    right
    rw [if_neg (by simp [hall])] at h
    change (match SetRollapp s r.afterLaunch with
      | Result.panic => Result.panic
      | Result.ret s => Result.ret (s, r.afterLaunch, none)) = _ at h
    cases hset : SetRollapp s r.afterLaunch with
    | panic =>
      rw [hset] at h
      exact absurd h (by simp)
    | ret s2 =>
      rw [hset] at h
      have h1 := Prod.mk.inj (Result.ret.inj h)
      have h2 := Prod.mk.inj h1.2
      exact ⟨h2.1.symm, h2.2.symm, by rw [h1.1], rfl⟩

theorem SetIROPlanToRollapp_cases {k : Keeper} {s t : State} {r r1 : Rollapp} {iro : Plan}
    {e : Option Error} (h : SetIROPlanToRollapp k s r iro = .ret (t, r1, e)) :
    (t = s ∧ r1 = r ∧ e ≠ none ∧
      (r.Launched = true ∨ r.GenesisInfo.Sealed = true ∨
        k.GenesisInfoFieldsAreSet r = false)) ∨
    (r1 = r.afterPlan iro ∧ e = none ∧ SetRollapp s (r.afterPlan iro) = .ret t ∧
      r.Launched = false ∧ r.GenesisInfo.Sealed = false ∧
      k.GenesisInfoFieldsAreSet r = true) := by
  unfold SetIROPlanToRollapp at h
  by_cases hl : r.Launched = true
  · left
    rw [if_pos hl] at h
    have h1 := Prod.mk.inj (Result.ret.inj h)
    have h2 := Prod.mk.inj h1.2
    exact ⟨h1.1.symm, h2.1.symm, by rw [← h2.2]; simp, Or.inl hl⟩
  · rw [if_neg hl] at h
    by_cases hs : r.GenesisInfo.Sealed = true
    · left
      rw [if_pos hs] at h
      have h1 := Prod.mk.inj (Result.ret.inj h)
      have h2 := Prod.mk.inj h1.2
      exact ⟨h1.1.symm, h2.1.symm, by rw [← h2.2]; simp, Or.inr (Or.inl hs)⟩
    · rw [if_neg hs] at h
      cases hg : k.GenesisInfoFieldsAreSet r with
      | false =>
        left
        rw [if_pos (by simp [hg])] at h
        have h1 := Prod.mk.inj (Result.ret.inj h)
        have h2 := Prod.mk.inj h1.2
        exact ⟨h1.1.symm, h2.1.symm, by rw [← h2.2]; simp, Or.inr (Or.inr rfl)⟩
      | true =>
        right
        rw [if_neg (by simp [hg])] at h
        change (match SetRollapp s (r.afterPlan iro) with
          | Result.panic => Result.panic
          | Result.ret s => Result.ret (s, r.afterPlan iro, none)) = _ at h
        cases hset : SetRollapp s (r.afterPlan iro) with
        | panic =>
          rw [hset] at h
          exact absurd h (by simp)
        | ret s2 =>
          rw [hset] at h
          have h1 := Prod.mk.inj (Result.ret.inj h)
          have h2 := Prod.mk.inj h1.2
          exact ⟨h2.1.symm, h2.2.symm, by rw [h1.1], by simpa using hl, by simpa using hs, rfl⟩

theorem UpdateRollapp_cases {k : Keeper} {s t : State} {u : MsgUpdateRollappInformation}
    {e : Option Error} (h : UpdateRollapp k s u = .ret (t, e)) :
    (t = s ∧ e ≠ none) ∨
    (e = none ∧ (CheckAndUpdateRollappFields k s u).2 = none ∧
      SetRollapp s (CheckAndUpdateRollappFields k s u).1 = .ret t) := by
  unfold UpdateRollapp at h
  cases hres : CheckAndUpdateRollappFields k s u with
  | mk r e1 =>
    rw [hres] at h
    cases e1 with
    | some err =>
      left
      have h1 := Prod.mk.inj (Result.ret.inj h)
      exact ⟨h1.1.symm, by rw [← h1.2]; simp⟩
    | none =>
      right
      dsimp only at h
      cases hset : SetRollapp s r with
      | panic =>
        rw [hset] at h
        exact absurd h (by simp)
      | ret s2 =>
        rw [hset] at h
        have h1 := Prod.mk.inj (Result.ret.inj h)
        exact ⟨h1.2.symm, rfl, by rw [h1.1]⟩

/-- C15: for a stored record whose genesis info is sealed, the record that
`CheckAndUpdateRollappFields` returns is sealed, persisting it with `SetRollapp` leaves a
sealed record under the id, and so does the update handler; `SetRollappAsLaunched` and `SetIROPlanToRollapp` on the stored
record return a sealed record and leave a sealed record under the id; `FreezeRollapp`
leaves a sealed record under the id; all this whether the call returns an error or
not.  And after a successful `SetRollappAsLaunched` the record is sealed and a second
call changes neither the store nor the record. -/
theorem sealed_monotonic (k : Keeper) (s : State) (id : String) (c : Rollapp)
    (hget : GetRollapp s id = some c) (hsealed : c.GenesisInfo.Sealed = true) :
    (∀ u : MsgUpdateRollappInformation, u.RollappId = id →
      (CheckAndUpdateRollappFields k s u).1.GenesisInfo.Sealed = true ∧
      (∀ t, SetRollapp s (CheckAndUpdateRollappFields k s u).1 = .ret t →
        ∃ c1, GetRollapp t id = some c1 ∧ c1.GenesisInfo.Sealed = true) ∧
      ∀ t e, UpdateRollapp k s u = .ret (t, e) →
        ∃ c1, GetRollapp t id = some c1 ∧ c1.GenesisInfo.Sealed = true) ∧
    (∀ t r1 e, SetRollappAsLaunched k s c = .ret (t, r1, e) →
      r1.GenesisInfo.Sealed = true ∧
      ∃ c1, GetRollapp t id = some c1 ∧ c1.GenesisInfo.Sealed = true) ∧
    (∀ iro t r1 e, SetIROPlanToRollapp k s c iro = .ret (t, r1, e) →
      r1.GenesisInfo.Sealed = true ∧
      ∃ c1, GetRollapp t id = some c1 ∧ c1.GenesisInfo.Sealed = true) ∧
    (∀ t e, FreezeRollapp k s id = .ret (t, e) →
      ∃ c1, GetRollapp t id = some c1 ∧ c1.GenesisInfo.Sealed = true) ∧
    (∀ r t r1, SetRollappAsLaunched k s r = .ret (t, r1, none) →
      r1.GenesisInfo.Sealed = true ∧
      ∃ e2, SetRollappAsLaunched k t r1 = .ret (t, r1, e2)) := by
  refine ⟨?_, ?_, ?_, ?_, ?_⟩
  · intro u hu
    subst hu
    have hs : (CheckAndUpdateRollappFields k s u).1.GenesisInfo.Sealed = true := by
      rw [keeps_sealed_CheckAndUpdateRollappFields hget]
      exact hsealed
    refine ⟨hs, fun t hset => sealed_after_SetRollapp hget hsealed hs hset, ?_⟩
    intro t e h
    rcases UpdateRollapp_cases h with ⟨rfl, _⟩ | ⟨_, _, hset⟩
    · exact ⟨c, hget, hsealed⟩
    · exact sealed_after_SetRollapp hget hsealed hs hset
  · intro t r1 e h
    rcases SetRollappAsLaunched_cases h with ⟨ht, hr1, _, _⟩ | ⟨hr1, _, hset, _⟩
    · rw [ht, hr1]
      exact ⟨hsealed, c, hget, hsealed⟩
    · rw [hr1]
      exact ⟨rfl, sealed_after_SetRollapp hget hsealed rfl hset⟩
  · intro iro t r1 e h
    rcases SetIROPlanToRollapp_cases h with ⟨ht, hr1, _, _⟩ | ⟨hr1, _, hset, _⟩
    · rw [ht, hr1]
      exact ⟨hsealed, c, hget, hsealed⟩
    · rw [hr1]
      exact ⟨rfl, sealed_after_SetRollapp hget hsealed rfl hset⟩
  · intro t e h
    rcases FreezeRollapp_inv h with ⟨_, hr, _⟩ | ⟨_, R, s0, hR, hr, _, hset⟩
    · refine ⟨c, ?_, hsealed⟩
      simp only [GetRollapp] at hget ⊢
      rw [hr]
      exact hget
    · have hRc : R = c := Option.some.inj (hR.symm.trans hget)
      subst hRc
      have hget0 : GetRollapp s0 id = some R := by
        simp only [GetRollapp] at hget ⊢
        rw [hr]
        exact hget
      have hset1 : SetRollapp s0 R.afterFreeze = .ret t := hset
      have hs1 : R.afterFreeze.GenesisInfo.Sealed = true := hsealed
      exact sealed_after_SetRollapp hget0 hsealed hs1 hset1
  · intro r t r1 h
    rcases SetRollappAsLaunched_cases h with ⟨_, _, hne, _⟩ | ⟨rfl, _, hset, _⟩
    · exact absurd rfl hne
    · refine ⟨rfl, ?_⟩
      cases hall : k.AllImmutableFieldsAreSet r.afterLaunch with
      | false =>
        exact ⟨some (.wrap .ErrFailedPrecondition "immutable fields not set"),
          by simp [SetRollappAsLaunched, hall]⟩
      | true =>
        refine ⟨none, ?_⟩
        unfold SetRollappAsLaunched
        rw [if_neg (by simp [hall])]
        change (match SetRollapp t r.afterLaunch.afterLaunch with
          | Result.panic => Result.panic
          | Result.ret s => Result.ret (s, r.afterLaunch.afterLaunch, none)) = _
        have hidem : r.afterLaunch.afterLaunch = r.afterLaunch := rfl
        rw [hidem, SetRollapp_twice hset]

theorem sealed_monotonic_witness :
    (CheckAndUpdateRollappFields sampleKeeper storeLaunched sequencerPatch).1.GenesisInfo.Sealed
      = true ∧
    (∀ t e, FreezeRollapp sampleKeeper storeLaunched "baz_7-1" = .ret (t, e) →
      ∃ c1, GetRollapp t "baz_7-1" = some c1 ∧ c1.GenesisInfo.Sealed = true) ∧
    (launchedRollapp.GenesisInfo.Sealed = true ∧
      ∃ e2, SetRollappAsLaunched sampleKeeper storeLaunched launchedRollapp
        = .ret (storeLaunched, launchedRollapp, e2)) :=
  have h := sealed_monotonic sampleKeeper storeLaunched "baz_7-1" launchedRollapp rfl rfl
  ⟨(h.1 sequencerPatch rfl).1, h.2.2.2.1,
    h.2.2.2.2 launchedRollapp storeLaunched launchedRollapp (by decide)⟩

theorem frozen_after_SetRollapp {s t : State} {r c : Rollapp} {id : String}
    (hget : GetRollapp s id = some c) (hc : c.Frozen = true)
    (hr : r.Frozen = true) (h : SetRollapp s r = .ret t) :
    ∃ c1, GetRollapp t id = some c1 ∧ c1.Frozen = true := by
  rw [GetRollapp_SetRollapp_cases h id]
  by_cases hid : r.RollappId = id
  · rw [if_pos hid]
    exact ⟨r, rfl, hr⟩
  · rw [if_neg hid]
    exact ⟨c, hget, hc⟩

/-- C16 (amended): for a stored record with `frozen = true`, `CheckAndUpdateRollappFields`
returns an error (`ErrRollappFrozen` for the owner) together with the stored record, and
the update handler leaves the store as it was.  `SetRollappAsLaunched` and
`SetIROPlanToRollapp` do not read the frozen flag: on the stored record they return
no error exactly when their own preconditions hold, and the record they return and
the record they leave under the id still have `frozen = true`. -/
theorem frozen_transitions (k : Keeper) (s : State) (id : String) (c : Rollapp)
    (hget : GetRollapp s id = some c) (hf : c.Frozen = true) :
    (∀ u : MsgUpdateRollappInformation, u.RollappId = id →
      ∃ err, CheckAndUpdateRollappFields k s u = (c, some err) ∧
        (u.Owner = c.Owner → err = .ErrRollappFrozen) ∧
        UpdateRollapp k s u = .ret (s, some err)) ∧
    (∀ t r1 e, SetRollappAsLaunched k s c = .ret (t, r1, e) →
      (e = none ↔ k.AllImmutableFieldsAreSet c = true) ∧ r1.Frozen = true ∧
      ∃ c1, GetRollapp t id = some c1 ∧ c1.Frozen = true) ∧
    (∀ iro t r1 e, SetIROPlanToRollapp k s c iro = .ret (t, r1, e) →
      (e = none ↔ (c.Launched = false ∧ c.GenesisInfo.Sealed = false ∧
        k.GenesisInfoFieldsAreSet c = true)) ∧ r1.Frozen = true ∧
      ∃ c1, GetRollapp t id = some c1 ∧ c1.Frozen = true) := by
  refine ⟨?_, ?_, ?_⟩
  · intro u hu
    subst hu
    by_cases ho : u.Owner = c.Owner
    · have hres : CheckAndUpdateRollappFields k s u = (c, some .ErrRollappFrozen) := by
        simp [CheckAndUpdateRollappFields, hget, ho, hf]
      exact ⟨.ErrRollappFrozen, hres, fun _ => rfl, by simp [UpdateRollapp, hres]⟩
    · have hres : CheckAndUpdateRollappFields k s u = (c, some .ErrUnauthorized) := by
        simp [CheckAndUpdateRollappFields, hget, ho]
      exact ⟨.ErrUnauthorized, hres, fun h => absurd h ho, by simp [UpdateRollapp, hres]⟩
  · intro t r1 e h
    rcases SetRollappAsLaunched_cases h with ⟨ht, hr1, hne, hall⟩ | ⟨hr1, he, hset, hall⟩
    · rw [ht, hr1]
      refine ⟨⟨fun h0 => absurd h0 hne, fun h1 => ?_⟩, hf, c, hget, hf⟩
      rw [hall] at h1
      exact absurd h1 (by simp)
    · rw [hr1]
      have hf1 : c.afterLaunch.Frozen = true := hf
      exact ⟨⟨fun _ => hall, fun _ => he⟩, hf, frozen_after_SetRollapp hget hf hf1 hset⟩
  · intro iro t r1 e h
    rcases SetIROPlanToRollapp_cases h with ⟨ht, hr1, hne, hpre⟩ | ⟨hr1, he, hset, hl, hs, hg⟩
    · rw [ht, hr1]
      refine ⟨⟨fun h0 => absurd h0 hne, fun h1 => ?_⟩, hf, c, hget, hf⟩
      exfalso
      rcases hpre with hp | hp | hp
      · rw [h1.1] at hp
        exact absurd hp (by simp)
      · rw [h1.2.1] at hp
        exact absurd hp (by simp)
      · rw [h1.2.2] at hp
        exact absurd hp (by simp)
    · rw [hr1]
      have hf1 : (c.afterPlan iro).Frozen = true := hf
      exact ⟨⟨fun _ => ⟨hl, hs, hg⟩, fun _ => he⟩, hf,
        frozen_after_SetRollapp hget hf hf1 hset⟩

theorem frozen_transitions_witness :
    (∃ err, CheckAndUpdateRollappFields sampleKeeper storeFrozenReady readySequencerPatch
        = (frozenReady, some err) ∧
      (readySequencerPatch.Owner = frozenReady.Owner → err = .ErrRollappFrozen) ∧
      UpdateRollapp sampleKeeper storeFrozenReady readySequencerPatch
        = .ret (storeFrozenReady, some err)) ∧
    ((none : Option Error) = none ↔ sampleKeeper.AllImmutableFieldsAreSet frozenReady = true) ∧
    frozenReady.afterLaunch.Frozen = true ∧
    (∃ c1, GetRollapp storeFrozenLaunched "rdy_11-1" = some c1 ∧ c1.Frozen = true) :=
  have h := frozen_transitions sampleKeeper storeFrozenReady "rdy_11-1" frozenReady rfl rfl
  ⟨h.1 readySequencerPatch rfl,
    h.2.1 storeFrozenLaunched frozenReady.afterLaunch none (by decide)⟩

/-- Counterexample to C16 as stated: the stored record is frozen, yet `SetRollappAsLaunched`
returns no error and the record under the id is now launched and sealed, no longer
the record that was stored. -/
theorem frozen_transitions_counterexample :
    GetRollapp storeFrozenReady "rdy_11-1" = some frozenReady ∧ frozenReady.Frozen = true ∧
    SetRollappAsLaunched sampleKeeper storeFrozenReady frozenReady
      = .ret (storeFrozenLaunched, frozenReady.afterLaunch, none) ∧
    GetRollapp storeFrozenLaunched "rdy_11-1" = some frozenReady.afterLaunch ∧
    frozenReady.afterLaunch.Launched = true ∧ frozenReady.Launched = false ∧
    GetRollapp storeFrozenLaunched "rdy_11-1" ≠ some frozenReady := by
  decide

/-! ## Freezing: missing records, failures and what is written (C18, C19, C20) -/

theorem FreezeRollapp_missing {k : Keeper} {s : State} {id : String}
    (h : GetRollapp s id = none) : FreezeRollapp k s id = .ret (s, some .ErrNotFound) := by
  simp [FreezeRollapp, h]

theorem FreezeRollapp_lookup_failed {k : Keeper} {s : State} {id : String} {R : Rollapp}
    {err : Error} (hget : GetRollapp s id = some R) (hch : R.ChannelId ≠ "")
    (hl : k.GetChannelClientState "transfer" R.ChannelId = .error err) :
    FreezeRollapp k s id
      = .ret (RevertPendingStates s id, some (.wrap err "get channel client state")) := by
  simp [FreezeRollapp, hget, hch, hl]

theorem FreezeRollapp_client_failed {k : Keeper} {s : State} {id : String} {R : Rollapp}
    {cid : String} {err : Error} (hget : GetRollapp s id = some R) (hch : R.ChannelId ≠ "")
    (hl : k.GetChannelClientState "transfer" R.ChannelId = .ok cid)
    (hfc : k.freezeClientError cid = some err) :
    FreezeRollapp k s id
      = .ret (RevertPendingStates s id, some (.wrap err "freeze client state")) := by
  simp [FreezeRollapp, hget, hch, hl, freezeClientState, hfc]

theorem FreezeRollapp_no_channel {k : Keeper} {s : State} {id : String} {R : Rollapp}
    (hget : GetRollapp s id = some R) (hch : R.ChannelId = "") :
    FreezeRollapp k s id =
      match SetRollapp (RevertPendingStates s id) R.afterFreeze with
      | .panic => .panic
      | .ret t => .ret (t, none) := by
  simp [FreezeRollapp, hget, hch, Rollapp.afterFreeze]

theorem FreezeRollapp_client_frozen {k : Keeper} {s : State} {id : String} {R : Rollapp}
    {cid : String} (hget : GetRollapp s id = some R) (hch : R.ChannelId ≠ "")
    (hl : k.GetChannelClientState "transfer" R.ChannelId = .ok cid)
    (hfc : k.freezeClientError cid = none) :
    FreezeRollapp k s id =
      match SetRollapp
          { RevertPendingStates s id with
            frozenClients := cid :: (RevertPendingStates s id).frozenClients }
          R.afterFreeze with
      | .panic => .panic
      | .ret t => .ret (t, none) := by
  simp [FreezeRollapp, hget, hch, hl, freezeClientState, hfc, Rollapp.afterFreeze]

/-- C18: for every store and every id with no stored record, `FreezeRollapp` and
`MarkRollappAsVulnerable` return `ErrNotFound` and the very store they were given: no
record written, the EIP155 index, the pending states and the frozen clients as they
were. -/
theorem FreezeRollapp_not_found (k : Keeper) (s : State) (id : String)
    (h : GetRollapp s id = none) :
    FreezeRollapp k s id = .ret (s, some .ErrNotFound) ∧
    MarkRollappAsVulnerable k s id = .ret (s, some .ErrNotFound) :=
  ⟨FreezeRollapp_missing h, FreezeRollapp_missing h⟩

theorem FreezeRollapp_not_found_witness :
    FreezeRollapp sampleKeeper storeChannel "bar_100-1"
      = .ret (storeChannel, some .ErrNotFound) ∧
    MarkRollappAsVulnerable sampleKeeper storeChannel "bar_100-1"
      = .ret (storeChannel, some .ErrNotFound) :=
  FreezeRollapp_not_found sampleKeeper storeChannel "bar_100-1" (by decide)

theorem GetRollapp_RevertPendingStates (s : State) (id k : String) :
    GetRollapp (RevertPendingStates s id) k = GetRollapp s k := rfl

theorem FreezeRollapp_error_cases {k : Keeper} {s t : State} {id : String} {e : Error}
    (h : FreezeRollapp k s id = .ret (t, some e)) :
    (GetRollapp s id = none ∧ t = s ∧ e = .ErrNotFound) ∨
    (∃ R, GetRollapp s id = some R ∧ R.ChannelId ≠ "" ∧ t = RevertPendingStates s id ∧
      ((∃ err, k.GetChannelClientState "transfer" R.ChannelId = .error err ∧
          e = .wrap err "get channel client state") ∨
        (∃ cid err, k.GetChannelClientState "transfer" R.ChannelId = .ok cid ∧
          k.freezeClientError cid = some err ∧ e = .wrap err "freeze client state"))) := by
  cases hget : GetRollapp s id with
  | none =>
    left
    rw [FreezeRollapp_missing hget] at h
    have h1 := Prod.mk.inj (Result.ret.inj h)
    exact ⟨rfl, h1.1.symm, (Option.some.inj h1.2).symm⟩
  | some R =>
    right
    refine ⟨R, rfl, ?_⟩
    by_cases hch : R.ChannelId = ""
    · exfalso
      rw [FreezeRollapp_no_channel hget hch] at h
      cases hset : SetRollapp (RevertPendingStates s id) R.afterFreeze with
      | panic =>
        rw [hset] at h
        exact absurd h (by simp)
      | ret t1 =>
        rw [hset] at h
        exact absurd (Prod.mk.inj (Result.ret.inj h)).2 (by simp)
    · refine ⟨hch, ?_⟩
      cases hl : k.GetChannelClientState "transfer" R.ChannelId with
      | error err =>
        rw [FreezeRollapp_lookup_failed hget hch hl] at h
        have h1 := Prod.mk.inj (Result.ret.inj h)
        exact ⟨h1.1.symm, Or.inl ⟨err, rfl, (Option.some.inj h1.2).symm⟩⟩
      | ok cid =>
        cases hfc : k.freezeClientError cid with
        | some err =>
          rw [FreezeRollapp_client_failed hget hch hl hfc] at h
          have h1 := Prod.mk.inj (Result.ret.inj h)
          exact ⟨h1.1.symm, Or.inr ⟨cid, err, rfl, hfc, (Option.some.inj h1.2).symm⟩⟩
        | none =>
          exfalso
          rw [FreezeRollapp_client_frozen hget hch hl hfc] at h
          cases hset : SetRollapp
              { RevertPendingStates s id with
                frozenClients := cid :: (RevertPendingStates s id).frozenClients }
              R.afterFreeze with
          | panic =>
            rw [hset] at h
            exact absurd h (by simp)
          | ret t1 =>
            rw [hset] at h
            exact absurd (Prod.mk.inj (Result.ret.inj h)).2 (by simp)

theorem FreezeRollapp_ok_cases {k : Keeper} {s t : State} {id : String}
    (h : FreezeRollapp k s id = .ret (t, none)) :
    ∃ R s0, GetRollapp s id = some R ∧ s0.rollapps = s.rollapps ∧
      SetRollapp s0 R.afterFreeze = .ret t := by
  rcases FreezeRollapp_inv h with ⟨hne, _⟩ | ⟨_, R, s0, hR, hr, _, hset⟩
  · exact absurd rfl hne
  · exact ⟨R, s0, hR, hr, hset⟩

/-- C19 (amended): for a stored record with a non-empty channelId, when the channel
lookup succeeds but freezing the counterpart client fails, `FreezeRollapp` returns the
client-freeze error wrapped, having reverted the pending states only: the frozen flag
is not persisted and `GetRollapp` returns the record as it was stored.  For a record
stored under its own id, whenever `FreezeRollapp` returns no error, `GetRollapp` returns
the record with `frozen = true` and every other field unchanged; and it does return no
error when the id is a well-formed chain id and either the record has no channel or
the channel lookup and the client freeze both succeed. -/
theorem FreezeRollapp_persists (k : Keeper) (s : State) (id : String) (R : Rollapp)
    (hget : GetRollapp s id = some R) (hid : R.RollappId = id) :
    (∀ cid err, R.ChannelId ≠ "" →
      k.GetChannelClientState "transfer" R.ChannelId = .ok cid →
      k.freezeClientError cid = some err →
      FreezeRollapp k s id
        = .ret (RevertPendingStates s id, some (.wrap err "freeze client state")) ∧
      GetRollapp (RevertPendingStates s id) id = some R) ∧
    (∀ t, FreezeRollapp k s id = .ret (t, none) → GetRollapp t id = some R.afterFreeze) ∧
    (∀ a, NewChainID id = some a →
      (R.ChannelId = "" ∨ ∃ cid, k.GetChannelClientState "transfer" R.ChannelId = .ok cid ∧
        k.freezeClientError cid = none) →
      ∃ t, FreezeRollapp k s id = .ret (t, none)) := by
  refine ⟨?_, ?_, ?_⟩
  · intro cid err hch hl hfc
    exact ⟨FreezeRollapp_client_failed hget hch hl hfc, hget⟩
  · intro t h
    obtain ⟨R1, s0, hR1, _, hset⟩ := FreezeRollapp_ok_cases h
    have hRR : R1 = R := Option.some.inj (hR1.symm.trans hget)
    subst hRR
    have := GetRollapp_SetRollapp_self hset
    rw [← hid]
    exact this
  · intro a ha hcase
    have hparse : NewChainID R.afterFreeze.RollappId = some a := by
      show NewChainID R.RollappId = some a
      rw [hid]
      exact ha
    rcases hcase with hch | ⟨cid, hl, hfc⟩
    · rw [FreezeRollapp_no_channel hget hch, SetRollapp_ret hparse]
      exact ⟨_, rfl⟩
    · by_cases hch : R.ChannelId = ""
      · rw [FreezeRollapp_no_channel hget hch, SetRollapp_ret hparse]
        exact ⟨_, rfl⟩
      · rw [FreezeRollapp_client_frozen hget hch hl hfc, SetRollapp_ret hparse]
        exact ⟨_, rfl⟩

theorem FreezeRollapp_persists_witness :
    (FreezeRollapp failingKeeper storeChannel "chan_3-1"
        = .ret (RevertPendingStates storeChannel "chan_3-1",
            some (.wrap (.other "client state not found") "freeze client state")) ∧
      GetRollapp (RevertPendingStates storeChannel "chan_3-1") "chan_3-1"
        = some channelRollapp) ∧
    (∃ t, FreezeRollapp sampleKeeper storeChannel "chan_3-1" = .ret (t, none)) :=
  have h := FreezeRollapp_persists failingKeeper storeChannel "chan_3-1" channelRollapp rfl rfl
  have h2 := FreezeRollapp_persists sampleKeeper storeChannel "chan_3-1" channelRollapp rfl rfl
  ⟨h.1 "client-0" (.other "client state not found") (by decide) rfl rfl,
    h2.2.2 ⟨"chan_3-1", "chan", 3, 1⟩ (by decide) (Or.inr ⟨"client-0", rfl, rfl⟩)⟩

/-- Counterexample to C19 as stated: the record has a channel, the channel lookup
succeeds and the client freeze fails; `FreezeRollapp` surfaces the error, and
`GetRollapp` afterwards returns the record with `frozen = false`. -/
theorem FreezeRollapp_persists_counterexample :
    GetRollapp storeChannel "chan_3-1" = some channelRollapp ∧
    channelRollapp.ChannelId ≠ "" ∧
    failingKeeper.GetChannelClientState "transfer" channelRollapp.ChannelId = .ok "client-0" ∧
    failingKeeper.freezeClientError "client-0" = some (.other "client state not found") ∧
    FreezeRollapp failingKeeper storeChannel "chan_3-1"
      = .ret (RevertPendingStates storeChannel "chan_3-1",
          some (.wrap (.other "client state not found") "freeze client state")) ∧
    GetRollapp (RevertPendingStates storeChannel "chan_3-1") "chan_3-1"
      = some channelRollapp ∧
    channelRollapp.Frozen = false :=
  ⟨by decide, by decide, rfl, rfl, by decide, by decide, rfl⟩

/-- C20 (amended): whenever `FreezeRollapp` returns an error, the rollapp records, the
EIP155 index and the frozen clients are exactly as before the call; when the record is
missing the whole state is as before; when the record exists (the channel lookup or
the client freeze failed) the state is the one before with the pending state
submissions of the id already reverted. -/
theorem FreezeRollapp_error_state (k : Keeper) (s t : State) (id : String) (e : Error)
    (h : FreezeRollapp k s id = .ret (t, some e)) :
    t.rollapps = s.rollapps ∧ t.byEIP155 = s.byEIP155 ∧ t.frozenClients = s.frozenClients ∧
    (GetRollapp s id = none → t = s) ∧
    (∀ R, GetRollapp s id = some R →
      t = RevertPendingStates s id ∧ ∀ p ∈ t.pendingStates, p.1 ≠ id) := by
  rcases FreezeRollapp_error_cases h with ⟨hnone, ht, _⟩ | ⟨R, hR, _, ht, _⟩
  · subst ht
    refine ⟨rfl, rfl, rfl, fun _ => rfl, ?_⟩
    intro R1 hR1
    rw [hnone] at hR1
    exact absurd hR1 (by simp)
  · subst ht
    refine ⟨rfl, rfl, rfl, ?_, ?_⟩
    · intro hnone
      rw [hR] at hnone
      exact absurd hnone (by simp)
    · intro R1 _
      refine ⟨rfl, ?_⟩
      intro p hp
      simp only [RevertPendingStates, List.mem_filter, decide_eq_true_eq] at hp
      exact hp.2

theorem FreezeRollapp_error_state_witness :
    (RevertPendingStates storeChannel "chan_3-1").rollapps = storeChannel.rollapps ∧
    (RevertPendingStates storeChannel "chan_3-1").byEIP155 = storeChannel.byEIP155 ∧
    (RevertPendingStates storeChannel "chan_3-1").frozenClients = storeChannel.frozenClients ∧
    (∀ p ∈ (RevertPendingStates storeChannel "chan_3-1").pendingStates, p.1 ≠ "chan_3-1") :=
  have h := FreezeRollapp_error_state failingKeeper storeChannel
    (RevertPendingStates storeChannel "chan_3-1") "chan_3-1"
    (.wrap (.other "client state not found") "freeze client state") (by decide)
  ⟨h.1, h.2.1, h.2.2.1, (h.2.2.2.2 channelRollapp rfl).2⟩

/-- Counterexample to C20 as stated: the client freeze fails and `FreezeRollapp` returns
the error, yet the pending state submission of the id is gone from the state it
leaves: the state is not the one before the call. -/
theorem FreezeRollapp_error_state_counterexample :
    FreezeRollapp failingKeeper storeChannel "chan_3-1"
      = .ret (RevertPendingStates storeChannel "chan_3-1",
          some (.wrap (.other "client state not found") "freeze client state")) ∧
    storeChannel.pendingStates = [("chan_3-1", 4), ("foo_100-1", 7)] ∧
    (RevertPendingStates storeChannel "chan_3-1").pendingStates = [("foo_100-1", 7)] ∧
    RevertPendingStates storeChannel "chan_3-1" ≠ storeChannel := by
  decide

/-! ## Lookup by name (C21) -/

theorem find_first_sorted {V : Type} {l : List (String × V)}
    (hs : l.Pairwise (fun p q => keyLt p.1 q.1 = true)) {f : String → Bool} {p : String × V}
    (h : l.find? (fun q => f q.1) = some p) :
    p ∈ l ∧ f p.1 = true ∧ ∀ q ∈ l, f q.1 = true → q.1 = p.1 ∨ keyLt p.1 q.1 = true := by
  obtain ⟨hp, l1, l2, hl, hbefore⟩ := List.find?_eq_some.1 h
  refine ⟨List.mem_of_find?_eq_some h, hp, ?_⟩
  intro q hq hfq
  rw [hl] at hq hs
  rcases List.mem_append.1 hq with h1 | h1
  · have := hbefore q h1
    simp [hfq] at this
  · rcases List.mem_cons.1 h1 with h2 | h2
    · exact Or.inl (by rw [h2])
    · right
      have hs2 := (List.pairwise_append.1 hs).2.1
      exact (List.pairwise_cons.1 hs2).1 q h2

/-- C21: `GetRollappByName` finds a record exactly when some stored key starts with the
name followed by an underscore, and the record it returns lies under the smallest such
key in the byte-wise order of the store (the rows of a store are in key order).  It
need not be the highest revision: with `foo_100-2` and `foo_100-10` stored it returns
`foo_100-10`, whose key sorts first, and with `foo_100-1` and `foo_100-2` stored it
returns `foo_100-1`. -/
theorem GetRollappByName_first (s : State) (hs : RowsSorted s) (n : String) :
    ((GetRollappByName s n).isSome ↔
      ∃ k r, GetRollapp s k = some r ∧ hasKeyPrefix (n ++ "_") k = true) ∧
    (∀ r, GetRollappByName s n = some r →
      ∃ k, GetRollapp s k = some r ∧ hasKeyPrefix (n ++ "_") k = true ∧
        ∀ k1 r1, GetRollapp s k1 = some r1 → hasKeyPrefix (n ++ "_") k1 = true →
          k1 = k ∨ keyLt k k1 = true) ∧
    (SetRollapps State.empty
        [sampleRollapp "foo_100-2" "alice", sampleRollapp "foo_100-10" "bob"] =
        .ret storeFoo210 ∧
      GetRollappByName storeFoo210 "foo" = some (sampleRollapp "foo_100-10" "bob")) ∧
    (GetRollappByName storeFoo12 "foo" =
        some { sampleRollapp "foo_100-1" "alice" with Frozen := true } ∧
      GetRollapp storeFoo12 "foo_100-2" = some (sampleRollapp "foo_100-2" "bob")) := by
  refine ⟨?_, ?_, ⟨by decide, by decide⟩, ⟨by decide, by decide⟩⟩
  · constructor
    · intro h
      obtain ⟨r, hr⟩ := Option.isSome_iff_exists.1 h
      rw [GetRollappByName_eq] at hr
      cases hf : s.rollapps.find? (fun p => hasKeyPrefix (n ++ "_") p.1) with
      | none => simp [hf] at hr
      | some p =>
        obtain ⟨hmem, hp, -⟩ := find_first_sorted hs.1 hf
        exact ⟨p.1, p.2, kvGet_of_mem_rows hs.1 hmem, hp⟩
    · rintro ⟨k, r, hk, hp⟩
      cases hn : GetRollappByName s n with
      | some r0 => rfl
      | none =>
        have := (GetRollappByName_eq_none_iff s n).1 hn k r hk
        rw [this] at hp
        exact absurd hp (by simp)
  · intro r hr
    rw [GetRollappByName_eq] at hr
    cases hf : s.rollapps.find? (fun p => hasKeyPrefix (n ++ "_") p.1) with
    | none => simp [hf] at hr
    | some p =>
      rw [hf] at hr
      have hpr : p.2 = r := by simpa using hr
      obtain ⟨hmem, hp, hmin⟩ := find_first_sorted hs.1 hf
      refine ⟨p.1, ?_, hp, ?_⟩
      · rw [← hpr]
        exact kvGet_of_mem_rows hs.1 hmem
      · intro k1 r1 h1 hp1
        exact hmin (k1, r1) (kvGet_mem h1) hp1

theorem GetRollappByName_first_witness :
    RowsSorted storeFoo12 ∧
    ∃ k, GetRollapp storeFoo12 k = some { sampleRollapp "foo_100-1" "alice" with Frozen := true } ∧
      hasKeyPrefix ("foo" ++ "_") k = true ∧
      ∀ k1 r1, GetRollapp storeFoo12 k1 = some r1 → hasKeyPrefix ("foo" ++ "_") k1 = true →
        k1 = k ∨ keyLt k k1 = true :=
  have hs : RowsSorted storeFoo12 := by
    unfold RowsSorted storeFoo12
    decide
  ⟨hs, (GetRollappByName_first storeFoo12 hs "foo").2.1 _ (by decide)⟩

/-! ## The hook before a state update (C22) -/

/-- C22: the hook `BeforeUpdateState` panics exactly when no sequencer is registered under
the address or the registered sequencer serves another rollapp, with
`ErrUnknownSequencer` in the first case and `ErrSequencerRollappMismatch` in the second,
and the store after the call is the store before it. -/
theorem BeforeUpdateState_spec (s : SequencerState) (a i : String) :
    (((BeforeUpdateState s a i).2.isSome = true) ↔
      (GetSequencer s a = none ∨ ∃ q, GetSequencer s a = some q ∧ q.RollappId ≠ i)) ∧
    (GetSequencer s a = none →
      (BeforeUpdateState s a i).2 = some .ErrUnknownSequencer) ∧
    (∀ q, GetSequencer s a = some q → q.RollappId ≠ i →
      (BeforeUpdateState s a i).2 = some .ErrSequencerRollappMismatch) ∧
    (∀ q, GetSequencer s a = some q → q.RollappId = i → (BeforeUpdateState s a i).2 = none) ∧
    (BeforeUpdateState s a i).1 = s ∧
    (BeforeUpdateState sampleSequencers "seq-9" "foo_100-1" =
        (sampleSequencers, some .ErrUnknownSequencer) ∧
      BeforeUpdateState sampleSequencers "seq-1" "foo_100-1" =
        (sampleSequencers, some .ErrSequencerRollappMismatch) ∧
      BeforeUpdateState sampleSequencers "seq-0" "foo_100-1" = (sampleSequencers, none)) := by
  refine ⟨?_, ?_, ?_, ?_, ?_, by decide, by decide, by decide⟩
  · unfold BeforeUpdateState
    cases hq : GetSequencer s a with
    | none => simp
    | some q =>
      by_cases h : q.RollappId = i <;> simp [h]
  · intro h
    simp [BeforeUpdateState, h]
  · intro q hq hne
    simp [BeforeUpdateState, hq, hne]
  · intro q hq he
    simp [BeforeUpdateState, hq, he]
  · unfold BeforeUpdateState
    cases hq : GetSequencer s a with
    | none => rfl
    | some q =>
      by_cases h : q.RollappId = i <;> simp [h]

/-! ## Scanning the registry (C23) -/

theorem foldl_filter_append {α β : Type} (f : β → Bool) (g : α → β) (l : List α) (acc : List β) :
    l.foldl (fun result p => if f (g p) then result ++ [g p] else result) acc =
      acc ++ (l.map g).filter f := by
  induction l generalizing acc with
  | nil => simp
  | cons a rest ih =>
    simp only [List.foldl_cons, List.map_cons]
    rw [ih]
    by_cases h : f (g a) = true
    · simp [h, List.filter_cons]
    · simp [h, List.filter_cons]

theorem FilterRollapps_eq (s : State) (f : Rollapp → Bool) :
    FilterRollapps s f = (s.rollapps.map Prod.snd).filter f := by
  unfold FilterRollapps
  rw [foldl_filter_append f Prod.snd s.rollapps []]
  rfl

theorem GetAllRollapps_eq (s : State) : GetAllRollapps s = s.rollapps.map Prod.snd := by
  unfold GetAllRollapps
  rw [FilterRollapps_eq]
  simp

theorem kvSet_perm_of_absent {K V : Type} [DecidableEq K] (lt : K → K → Bool) {k : K}
    (v : V) {l : List (K × V)} (h : kvGet k l = none) :
    (kvSet lt k v l).Perm ((k, v) :: l) := by
  induction l with
  | nil => simp [kvSet]
  | cons p rest ih =>
    obtain ⟨k1, v1⟩ := p
    by_cases hk : k1 = k
    · simp [kvGet, hk] at h
    · simp only [kvGet, hk, if_false] at h
      simp only [kvSet, hk, if_false]
      by_cases hlt : lt k k1 = true
      · rw [if_pos hlt]
      · rw [if_neg hlt]
        exact ((ih h).cons (k1, v1)).trans (List.Perm.swap _ _ _)

theorem kvGet_of_mem_nodup {K V : Type} [DecidableEq K] {l : List (K × V)}
    (hd : (l.map Prod.fst).Nodup) {k : K} {v : V} (h : (k, v) ∈ l) : kvGet k l = some v := by
  induction l with
  | nil => simp at h
  | cons p rest ih =>
    obtain ⟨k1, v1⟩ := p
    rw [List.map_cons] at hd
    obtain ⟨hnot, hrest⟩ := List.nodup_cons.1 hd
    rcases List.mem_cons.1 h with h1 | h1
    · have e1 : k = k1 := congrArg Prod.fst h1
      have e2 : v = v1 := congrArg Prod.snd h1
      simp [kvGet, e1, e2]
    · have hne : k1 ≠ k := by
        intro heq
        exact hnot (List.mem_map.2 ⟨(k, v), h1, heq.symm⟩)
      simp only [kvGet, hne, if_false]
      exact ih hrest h1

theorem SetRollapps_rows (l : List Rollapp) :
    ∀ s : State, (l.map (fun r => r.RollappId)).Nodup →
      (∀ r ∈ l, ∃ c, NewChainID r.RollappId = some c) →
      (∀ r ∈ l, GetRollapp s r.RollappId = none) →
      ∃ t, SetRollapps s l = .ret t ∧
        t.rollapps.Perm (s.rollapps ++ l.map (fun r => (r.RollappId, r))) := by
  induction l with
  | nil =>
    intro s _ _ _
    exact ⟨s, rfl, by simp⟩
  | cons r rest ih =>
    intro s hd hw hnew
    obtain ⟨c, hc⟩ := hw r (List.mem_cons_self _ _)
    have hd1 : r.RollappId ∉ rest.map (fun r => r.RollappId) ∧
        (rest.map (fun r => r.RollappId)).Nodup := by
      rw [List.map_cons] at hd
      exact List.nodup_cons.1 hd
    obtain ⟨s1, hset⟩ : ∃ s1, SetRollapp s r = .ret s1 := ⟨_, SetRollapp_ret hc⟩
    have hrows1 : s1.rollapps = kvSet keyLt r.RollappId r s.rollapps := by
      obtain ⟨c1, -, hs1⟩ := SetRollapp_inv hset
      rw [hs1]
    have hrest : ∀ r1 ∈ rest, GetRollapp s1 r1.RollappId = none := by
      intro r1 h1
      have hne : r.RollappId ≠ r1.RollappId := by
        intro heq
        exact hd1.1 (List.mem_map.2 ⟨r1, h1, heq.symm⟩)
      rw [GetRollapp_SetRollapp_of_ne hset hne]
      exact hnew r1 (List.mem_cons_of_mem _ h1)
    obtain ⟨t, ht, hperm⟩ := ih s1 hd1.2
      (fun r1 h1 => hw r1 (List.mem_cons_of_mem _ h1)) hrest
    refine ⟨t, ?_, ?_⟩
    · simp only [SetRollapps, hset]
      exact ht
    · have hhead : GetRollapp s r.RollappId = none := hnew r (List.mem_cons_self _ _)
      have hp1 : s1.rollapps.Perm ((r.RollappId, r) :: s.rollapps) := by
        rw [hrows1]
        exact kvSet_perm_of_absent keyLt r hhead
      refine hperm.trans ((hp1.append_right _).trans ?_)
      rw [List.map_cons, List.cons_append]
      exact List.perm_middle.symm

/-- For a list of records with pairwise distinct ids that are well-formed chain ids,
storing them one by one with `SetRollapp` into the empty store returns, and then
`GetAllRollapps` is a permutation of the list, the records stored under their ids are
exactly the records of the list, and `FilterRollapps f` is a permutation of the records
of the list that satisfy `f` (it is `GetAllRollapps` filtered by `f`). -/
theorem GetAllRollapps_SetRollapps (l : List Rollapp)
    (hd : (l.map (fun r => r.RollappId)).Nodup)
    (hw : ∀ r ∈ l, ∃ c, NewChainID r.RollappId = some c) :
    ∃ t, SetRollapps State.empty l = .ret t ∧
      (GetAllRollapps t).Perm l ∧
      (∀ r, GetRollapp t r.RollappId = some r ↔ r ∈ l) ∧
      ∀ f : Rollapp → Bool,
        (FilterRollapps t f).Perm (l.filter f) ∧
        FilterRollapps t f = (GetAllRollapps t).filter f ∧
        ∀ r, r ∈ FilterRollapps t f ↔ r ∈ l ∧ f r = true := by
  obtain ⟨t, ht, hperm⟩ := SetRollapps_rows l State.empty hd hw (fun _ _ => rfl)
  have hrows : t.rollapps.Perm (l.map (fun r => (r.RollappId, r))) := by
    simpa [State.empty] using hperm
  have hall : (GetAllRollapps t).Perm l := by
    rw [GetAllRollapps_eq]
    have := hrows.map Prod.snd
    simpa [Function.comp_def] using this
  refine ⟨t, ht, hall, ?_, ?_⟩
  · intro r
    have hkeys : (t.rollapps.map Prod.fst).Nodup := by
      have hp := hrows.map Prod.fst
      rw [List.map_map] at hp
      exact (List.Perm.nodup_iff hp).2 hd
    constructor
    · intro h
      have hmem := hrows.mem_iff.1 (kvGet_mem h)
      obtain ⟨r1, hr1, heq⟩ := List.mem_map.1 hmem
      have : r1 = r := congrArg Prod.snd heq
      rw [← this]
      exact hr1
    · intro h
      have hmem : (r.RollappId, r) ∈ t.rollapps :=
        hrows.mem_iff.2 (List.mem_map.2 ⟨r, h, rfl⟩)
      exact kvGet_of_mem_nodup hkeys hmem
  · intro f
    refine ⟨?_, ?_, ?_⟩
    · rw [FilterRollapps_eq, ← GetAllRollapps_eq]
      exact hall.filter f
    · rw [FilterRollapps_eq, GetAllRollapps_eq]
    · intro r
      rw [FilterRollapps_eq, ← GetAllRollapps_eq, List.mem_filter, hall.mem_iff]

theorem GetAllRollapps_SetRollapps_witness :
    (chainGenesisRollappList.map (fun r => r.RollappId)).Nodup ∧
    (∀ r ∈ chainGenesisRollappList, ∃ c, NewChainID r.RollappId = some c) ∧
    ∃ t, SetRollapps State.empty chainGenesisRollappList = .ret t ∧
      (GetAllRollapps t).Perm chainGenesisRollappList ∧
      (∀ r, GetRollapp t r.RollappId = some r ↔ r ∈ chainGenesisRollappList) ∧
      ∀ f : Rollapp → Bool,
        (FilterRollapps t f).Perm (chainGenesisRollappList.filter f) ∧
        FilterRollapps t f = (GetAllRollapps t).filter f ∧
        ∀ r, r ∈ FilterRollapps t f ↔ r ∈ chainGenesisRollappList ∧ f r = true :=
  have hd : (chainGenesisRollappList.map (fun r => r.RollappId)).Nodup := by decide
  have hw : ∀ r ∈ chainGenesisRollappList, ∃ c, NewChainID r.RollappId = some c := by
    intro r hr
    exact Option.isSome_iff_exists.1
      (List.all_eq_true.1 (by decide :
        chainGenesisRollappList.all (fun r => (NewChainID r.RollappId).isSome) = true) r hr)
  ⟨hd, hw, GetAllRollapps_SetRollapps chainGenesisRollappList hd hw⟩

/-- C23: the two records of `TestGenesis` have the pairwise distinct ids `0` and `1`,
which are not chain ids: `SetRollapp` of the first one into the empty store panics in
`MustNewChainID`, so storing the list one by one panics and there is no store from
which `GetAllRollapps` or `FilterRollapps` could return the two records.  The same
list with the chain ids `foo_100-1` and `bar_7-1` as ids is stored, and
`GetAllRollapps` returns its two records. -/
theorem SetRollapps_TestGenesis :
    (testGenesisRollappList.map (fun r => r.RollappId)).Nodup ∧
    (NewChainID "0" = none ∧ NewChainID "1" = none) ∧
    SetRollapp State.empty { Rollapp.zero with RollappId := "0" } = .panic ∧
    SetRollapps State.empty testGenesisRollappList = .panic ∧
    (¬ ∃ t, SetRollapps State.empty testGenesisRollappList = .ret t ∧
      (GetAllRollapps t).Perm testGenesisRollappList) ∧
    (¬ ∃ t, SetRollapps State.empty testGenesisRollappList = .ret t ∧
      (FilterRollapps t (fun _ => true)).Perm testGenesisRollappList) ∧
    ∃ t, SetRollapps State.empty chainGenesisRollappList = .ret t ∧
      GetAllRollapps t =
        [{ Rollapp.zero with RollappId := "bar_7-1" },
         { Rollapp.zero with RollappId := "foo_100-1" }] := by
  have hp : SetRollapps State.empty testGenesisRollappList = .panic := by decide
  refine ⟨by decide, ⟨by decide, by decide⟩, by decide, hp, ?_, ?_, ?_⟩
  · rintro ⟨t, ht, -⟩
    rw [hp] at ht
    exact absurd ht (by simp)
  · rintro ⟨t, ht, -⟩
    rw [hp] at ht
    exact absurd ht (by simp)
  · exact ⟨⟨[("bar_7-1", { Rollapp.zero with RollappId := "bar_7-1" }),
              ("foo_100-1", { Rollapp.zero with RollappId := "foo_100-1" })],
             [(7, "bar_7-1"), (100, "foo_100-1")], [], []⟩, by decide, by decide⟩

theorem GetAllRollapps_sample :
    SetRollapps State.empty chainGenesisRollappList =
      .ret { rollapps := [("bar_7-1", { Rollapp.zero with RollappId := "bar_7-1" }),
                          ("foo_100-1", { Rollapp.zero with RollappId := "foo_100-1" })]
             byEIP155 := [(7, "bar_7-1"), (100, "foo_100-1")]
             pendingStates := []
             frozenClients := [] } := by
  decide

/-! ## The client of a rollapp (C24) -/

/-- C24: for a stored record, `verifyClientID` returns no error when the channel id of
the record and the client id are both empty, an error when exactly one of them is
empty, and when both are non-empty it returns no error exactly when the channel lookup
succeeds with the given client id; for an id that is not stored it returns
`ErrNotFound`. -/
theorem verifyClientID_spec (k : Keeper) (s : State) (id clientID : String) (r : Rollapp)
    (hget : GetRollapp s id = some r) :
    (r.ChannelId = "" → clientID = "" → verifyClientID k s id clientID = none) ∧
    (r.ChannelId = "" → clientID ≠ "" → (verifyClientID k s id clientID).isSome = true) ∧
    (r.ChannelId ≠ "" → clientID = "" → (verifyClientID k s id clientID).isSome = true) ∧
    (r.ChannelId ≠ "" → clientID ≠ "" →
      (verifyClientID k s id clientID = none ↔
        k.GetChannelClientState "transfer" r.ChannelId = .ok clientID)) ∧
    (∀ id0, GetRollapp s id0 = none → verifyClientID k s id0 clientID = some .ErrNotFound) := by
  refine ⟨?_, ?_, ?_, ?_, ?_⟩
  · intro hc hcl
    simp [verifyClientID, hget, hc, hcl]
  · intro hc hcl
    simp [verifyClientID, hget, hc, hcl]
  · intro hc hcl
    simp [verifyClientID, hget, hc, hcl]
  · intro hc hcl
    unfold verifyClientID
    simp only [hget, hc, hcl, decide_False, Bool.and_self, Bool.false_eq_true, if_false]
    cases hx : k.GetChannelClientState "transfer" r.ChannelId with
    | error err => simp
    | ok c =>
      by_cases hcc : c = clientID
      · simp [hcc]
      · simp [hcc]
  · intro id0 h0
    simp [verifyClientID, h0]

theorem verifyClientID_spec_witness :
    GetRollapp storeChannel "chan_3-1" = some channelRollapp ∧
    (verifyClientID sampleKeeper storeChannel "chan_3-1" "client-0" = none ↔
      sampleKeeper.GetChannelClientState "transfer" channelRollapp.ChannelId =
        .ok "client-0") ∧
    verifyClientID sampleKeeper storeChannel "chan_3-1" "client-0" = none ∧
    (verifyClientID sampleKeeper storeChannel "chan_3-1" "client-7").isSome = true :=
  ⟨by decide,
   (verifyClientID_spec sampleKeeper storeChannel "chan_3-1" "client-0" channelRollapp
      (by decide)).2.2.2.1 (by decide) (by decide),
   by decide, by decide⟩

/-! ## The record of a creation message (C25) -/

/-- For a creation message whose genesis info, when present, has an initialised initial
supply, `GetRollapp` returns and leaves the message as it was; the record has the
creator, id, initial sequencer, bond, vm type and metadata of the message, the empty
genesis info when the message has none, and otherwise the genesis info of the message
with the native denom emptied exactly when the initial supply is zero. -/
theorem MsgCreateRollapp_GetRollapp_record (msg : MsgCreateRollapp)
    (hsupply : ∀ g, msg.GenesisInfo = some g → g.InitialSupply ≠ none) :
    ∃ r, msg.GetRollapp = .ret (msg, r) ∧
      r.Owner = msg.Creator ∧ r.RollappId = msg.RollappId ∧
      r.InitialSequencer = msg.InitialSequencer ∧
      r.MinSequencerBond = msg.MinSequencerBond ∧ r.VmType = msg.VmType ∧
      r.Metadata = msg.Metadata ∧
      (msg.GenesisInfo = none → r.GenesisInfo = Rollapp.zero.GenesisInfo) ∧
      (∀ g, msg.GenesisInfo = some g →
        r.GenesisInfo =
          { g with NativeDenom := if g.InitialSupply = some 0 then ⟨"", "", 0⟩
                                  else g.NativeDenom }) := by
  cases hg : msg.GenesisInfo with
  | none =>
    refine ⟨NewRollapp msg.Creator msg.RollappId msg.InitialSequencer msg.MinSequencerBond
      msg.VmType msg.Metadata Rollapp.zero.GenesisInfo, ?_, ?_⟩
    · simp [MsgCreateRollapp.GetRollapp, hg]
    · simp [NewRollapp]
  | some g =>
    obtain ⟨gc, bp, nd, sup, sl, ga⟩ := g
    cases sup with
    | none => exact absurd rfl (hsupply _ hg)
    | some n =>
      by_cases hn : n = 0
      · refine ⟨NewRollapp msg.Creator msg.RollappId msg.InitialSequencer
          msg.MinSequencerBond msg.VmType msg.Metadata
          ⟨gc, bp, ⟨"", "", 0⟩, some n, sl, ga⟩, ?_, ?_⟩
        · simp [MsgCreateRollapp.GetRollapp, hg, IsZero, hn]
        · simp [NewRollapp, hn]
      · refine ⟨NewRollapp msg.Creator msg.RollappId msg.InitialSequencer
          msg.MinSequencerBond msg.VmType msg.Metadata
          ⟨gc, bp, nd, some n, sl, ga⟩, ?_, ?_⟩
        · simp [MsgCreateRollapp.GetRollapp, hg, IsZero, hn]
        · simp [NewRollapp, hn]

/-- C25: on a creation message that carries a genesis info whose initial supply is not
initialised, `GetRollapp` panics in `IsZero` instead of building the record; with a zero
supply the native denom is emptied, with a non-zero supply the genesis info is copied,
without a genesis info the record has the empty one; and `CheckAndUpdateRollappFields`
accepts a patch whose initial supply is not initialised. -/
theorem MsgCreateRollapp_GetRollapp_nil_supply :
    (createMsg (some (denomInfo none))).GetRollapp = .panic ∧
    (createMsg (some (denomInfo (some 0)))).GetRollapp =
      .ret (createMsg (some (denomInfo (some 0))),
        NewRollapp "alice" "foo_100-1" "seq-0" ⟨"adym", 100⟩ 1
          (some ⟨[("website", "https://foo.example")]⟩)
          { denomInfo (some 0) with NativeDenom := ⟨"", "", 0⟩ }) ∧
    (createMsg (some (denomInfo (some 5)))).GetRollapp =
      .ret (createMsg (some (denomInfo (some 5))),
        NewRollapp "alice" "foo_100-1" "seq-0" ⟨"adym", 100⟩ 1
          (some ⟨[("website", "https://foo.example")]⟩) (denomInfo (some 5))) ∧
    (createMsg none).GetRollapp =
      .ret (createMsg none,
        NewRollapp "alice" "foo_100-1" "seq-0" ⟨"adym", 100⟩ 1
          (some ⟨[("website", "https://foo.example")]⟩) Rollapp.zero.GenesisInfo) ∧
    (CheckAndUpdateRollappFields sampleKeeper storeAccounts emptyGenesisPatch).2 = none := by
  refine ⟨by decide, by decide, by decide, by decide, by decide⟩

/-! ## The EIP155 index after a second freeze of an older revision (C26) -/

/-- After a guarded registration in a reachable store the EIP155 index of the new id
leads to the new record, and no stored record of that EIP155 number has a higher
revision: the registration path keeps the index at the latest fork. -/
theorem GetRollappByEIP155_register {k : Keeper} {s t : State} {c : ChainID} {r : Rollapp}
    (hs : Reachable k s) (hc : c.WellFormed) (hid : r.RollappId = c.chainID)
    (hcheck : CheckIfRollappExists s c = .ret none) (h : SetRollapp s r = .ret t) :
    GetRollappByEIP155 t c.eip155ID = some r ∧
    ∀ k1 x a, Stored t k1 x a → a.eip155ID = c.eip155ID → a.revision ≤ c.revision := by
  have hcr : NewChainID r.RollappId = some c := by
    rw [hid]
    exact hc
  refine ⟨GetRollappByEIP155_SetRollapp_self h hcr, ?_⟩
  intro k1 x a hst he
  rcases (Stored_SetRollapp h hcr).1 hst with ⟨-, -, ha⟩ | ⟨-, hold⟩
  · rw [ha]
  · exact le_of_lt ((CheckIfRollappExists_ok_facts (Reachable_Inv hs) hc hcheck).2.2.1
      k1 x a hold he).1

/-- C26: register `foo_100-1`, freeze it, register its fork `foo_100-2` (each registration
guarded by `CheckIfRollappExists`): the EIP155 index 100 leads to `foo_100-2`.  Freeze
the frozen `foo_100-1` again: `FreezeRollapp` returns no error, `foo_100-2` is still
stored, and the index now leads to `foo_100-1`, whose revision 1 is lower; so in this
reachable store the record `GetRollappByEIP155` returns is not the one with the highest
revision. -/
theorem GetRollappByEIP155_after_refreeze :
    (CheckIfRollappExists State.empty foo1 = .ret none ∧
      SetRollapp State.empty (sampleRollapp "foo_100-1" "alice") =
        .ret ⟨[("foo_100-1", sampleRollapp "foo_100-1" "alice")], [(100, "foo_100-1")], [], []⟩) ∧
    FreezeRollapp sampleKeeper
        ⟨[("foo_100-1", sampleRollapp "foo_100-1" "alice")], [(100, "foo_100-1")], [], []⟩
        "foo_100-1" = .ret (storeFoo1Frozen, none) ∧
    (CheckIfRollappExists storeFoo1Frozen foo2 = .ret none ∧
      SetRollapp storeFoo1Frozen (sampleRollapp "foo_100-2" "bob") = .ret storeFoo12) ∧
    GetRollappByEIP155 storeFoo12 100 = some (sampleRollapp "foo_100-2" "bob") ∧
    FreezeRollapp sampleKeeper storeFoo12 "foo_100-1" = .ret (storeFoo12Refrozen, none) ∧
    GetRollapp storeFoo12Refrozen "foo_100-2" = some (sampleRollapp "foo_100-2" "bob") ∧
    GetRollappByEIP155 storeFoo12Refrozen 100 =
      some { sampleRollapp "foo_100-1" "alice" with Frozen := true } ∧
    (NewChainID "foo_100-1" = some foo1 ∧ NewChainID "foo_100-2" = some foo2 ∧
      foo1.eip155ID = 100 ∧ foo2.eip155ID = 100 ∧ foo1.revision < foo2.revision) ∧
    Reachable sampleKeeper storeFoo12Refrozen ∧
    ¬ ∀ k1 x a R b, Stored storeFoo12Refrozen k1 x a → a.eip155ID = 100 →
        GetRollappByEIP155 storeFoo12Refrozen 100 = some R →
        NewChainID R.RollappId = some b → a.revision ≤ b.revision := by
  refine ⟨⟨by decide, by decide⟩, by decide, ⟨by decide, by decide⟩, by decide, by decide,
    by decide, by decide, ⟨by decide, by decide, rfl, rfl, by decide⟩, ?_, ?_⟩
  · exact Reachable.freeze storeFoo12 storeFoo12Refrozen "foo_100-1" none Reachable_storeFoo12
      (by decide)
  · intro hall
    have h21 := hall "foo_100-2" (sampleRollapp "foo_100-2" "bob") foo2
      { sampleRollapp "foo_100-1" "alice" with Frozen := true } foo1
      ⟨by decide, by decide⟩ rfl (by decide) (by decide)
    exact absurd h21 (by decide)

/-! ## Keys of the sponsorship store (C27) -/

/-- C27: `DelegatorValidatorPowerKey v w` is `AllDelegatorValidatorPowersKey v` followed by
the bytes of `w`, so the key of the voter is a prefix of it; both start with the byte
`DelegatorValidatorPowerByte`, which is 2; and for voter addresses of equal length equal
keys have equal voter and validator addresses. -/
theorem DelegatorValidatorPowerKey_spec (v w : List (Fin 256)) :
    DelegatorValidatorPowerKey v w = AllDelegatorValidatorPowersKey v ++ w ∧
    AllDelegatorValidatorPowersKey v <+: DelegatorValidatorPowerKey v w ∧
    (DelegatorValidatorPowerKey v w).head? = some DelegatorValidatorPowerByte ∧
    (AllDelegatorValidatorPowersKey v).head? = some DelegatorValidatorPowerByte ∧
    DelegatorValidatorPowerByte.val = 2 ∧
    (∀ v1 w1 : List (Fin 256), v.length = v1.length →
      DelegatorValidatorPowerKey v w = DelegatorValidatorPowerKey v1 w1 → v = v1 ∧ w = w1) := by
  have hkey : ∀ a b : List (Fin 256),
      DelegatorValidatorPowerKey a b = DelegatorValidatorPowerByte :: (a ++ b) := by
    intro a b
    simp [DelegatorValidatorPowerKey]
  have hall : ∀ a : List (Fin 256),
      AllDelegatorValidatorPowersKey a = DelegatorValidatorPowerByte :: a := by
    intro a
    simp [AllDelegatorValidatorPowersKey]
  refine ⟨?_, ?_, ?_, ?_, rfl, ?_⟩
  · rw [hkey, hall]
    rfl
  · rw [hkey, hall]
    exact ⟨w, rfl⟩
  · rw [hkey]
    rfl
  · rw [hall]
    rfl
  · intro v1 w1 hlen heq
    rw [hkey, hkey] at heq
    exact List.append_inj (List.cons.inj heq).2 hlen

theorem DelegatorValidatorPowerKey_spec_witness :
    ([1, 2, 3] : List (Fin 256)).length = ([1, 2, 3] : List (Fin 256)).length ∧
    DelegatorValidatorPowerKey [1, 2, 3] [9, 8] = [2, 1, 2, 3, 9, 8] ∧
    (([1, 2, 3] : List (Fin 256)) = [1, 2, 3] ∧ ([9, 8] : List (Fin 256)) = [9, 8]) ∧
    DelegatorValidatorPowerKey [1] [2, 3] = DelegatorValidatorPowerKey [1, 2] [3] :=
  ⟨rfl, by decide,
   (DelegatorValidatorPowerKey_spec [1, 2, 3] [9, 8]).2.2.2.2.2 [1, 2, 3] [9, 8] rfl rfl,
   by decide⟩

/-! ## Varints: size, encoding and decoding (C28) -/

theorem lenBits_le_iff : ∀ (fuel x n : Nat), x < 2 ^ fuel → (lenBits fuel x ≤ n ↔ x < 2 ^ n) := by
  intro fuel
  induction fuel with
  | zero =>
    intro x n hx
    have h0 : x = 0 := by simpa using hx
    subst h0
    simp [lenBits]
  | succ f ih =>
    intro x n hx
    by_cases h0 : x = 0
    · subst h0
      simp [lenBits]
    · simp only [lenBits, h0, if_false]
      have hx2 : x / 2 < 2 ^ f := by
        rw [pow_succ] at hx
        omega
      cases n with
      | zero =>
        simp
        omega
      | succ m =>
        rw [Nat.add_le_add_iff_right, ih (x / 2) m hx2, pow_succ]
        omega

theorem or_one_eq (x : Nat) : x ||| 1 = if x % 2 = 0 then x + 1 else x := by
  have h := Nat.mul_add_lt_is_or (show 1 < 2 ^ 1 by decide) (x / 2)
  rw [pow_one] at h
  by_cases hx : x % 2 = 0
  · rw [if_pos hx]
    have hx2 : 2 * (x / 2) = x := by omega
    rw [hx2] at h
    exact h.symm
  · rw [if_neg hx]
    have hx2 : 2 * (x / 2) + 1 = x := by omega
    rw [hx2] at h
    rw [h, Nat.lor_assoc, Nat.or_self, ← h]

theorem or_one_lt_iff (x : Nat) {n : Nat} (hn : 1 ≤ n) : x ||| 1 < 2 ^ n ↔ x < 2 ^ n := by
  obtain ⟨m, rfl⟩ : ∃ m, n = m + 1 := ⟨n - 1, by omega⟩
  rw [or_one_eq, pow_succ]
  split <;> omega

theorem sovGenesis_le_iff {v : Nat} (hv : v < 2 ^ 64) {m : Nat} (hm : 1 ≤ m) :
    sovGenesis v ≤ m ↔ v < 128 ^ m := by
  have hv1 : v ||| 1 < 2 ^ 64 := (or_one_lt_iff v (by decide)).2 hv
  have h128 : (128 : Nat) ^ m = 2 ^ (7 * m) := by
    rw [pow_mul]
    rfl
  unfold sovGenesis Len64
  rw [h128, ← or_one_lt_iff v (show 1 ≤ 7 * m by omega), ← lenBits_le_iff 64 _ _ hv1]
  omega

theorem sovGenesis_pos (v : Nat) : 1 ≤ sovGenesis v := by
  unfold sovGenesis Len64
  have hne : v ||| 1 ≠ 0 := by
    rw [or_one_eq]
    split <;> omega
  have : 1 ≤ lenBits 64 (v ||| 1) := by
    simp [lenBits, hne]
  omega

theorem sovGenesis_le_ten {v : Nat} (hv : v < 2 ^ 64) : sovGenesis v ≤ 10 :=
  (sovGenesis_le_iff hv (by decide)).2 (lt_of_lt_of_le hv (by decide))

theorem sovGenesis_groups {v : Nat} (hv : v < 2 ^ 64) :
    ∃ k, sovGenesis v = k + 1 ∧ v < 128 ^ (k + 1) ∧ (k = 0 ∨ 128 ^ k ≤ v) := by
  obtain ⟨k, hk⟩ : ∃ k, sovGenesis v = k + 1 := ⟨sovGenesis v - 1, by
    have := sovGenesis_pos v
    omega⟩
  refine ⟨k, hk, ?_, ?_⟩
  · exact (sovGenesis_le_iff hv (by omega)).1 (by omega)
  · by_cases h0 : k = 0
    · exact Or.inl h0
    · right
      by_contra hlt
      have := (sovGenesis_le_iff hv (show 1 ≤ k by omega)).2 (by omega)
      omega


theorem setByte_nat (d : List Nat) (o b : Nat) (h : o < d.length) :
    setByte d (o : Int) b = .ret (d.set o b) := by
  unfold setByte
  rw [if_pos ⟨by omega, by omega⟩]
  simp

theorem varint_high_byte (v : Nat) : (v &&& 0x7f ||| 0x80) % 256 = v % 128 + 128 := by
  have h1 : v &&& 0x7f = v % 128 := Nat.and_pow_two_sub_one_eq_mod v 7
  have h2 : ∀ x < 128, x ||| 128 = x + 128 := by decide
  rw [h1, h2 _ (Nat.mod_lt _ (by decide))]
  omega

theorem encodeVarintLoop_spec : ∀ (k v : Nat) (d : List Nat) (o : Nat),
    v < 128 ^ (k + 1) → (k = 0 ∨ 128 ^ k ≤ v) → o + (k + 1) ≤ d.length →
    ∃ out, encodeVarintLoop d (o : Int) v = .ret out ∧ out.length = d.length ∧
      (∀ i, i < o ∨ o + (k + 1) ≤ i → out[i]? = d[i]?) ∧
      (∀ j, j ≤ k → out[o + j]? = some (v / 128 ^ j % 128 + if j < k then 128 else 0)) := by
  intro k
  induction k with
  | zero =>
    intro v d o hlt _ hlen
    have hv : v < 128 := by simpa using hlt
    refine ⟨d.set o (v % 256), ?_, by simp, ?_, ?_⟩
    · rw [encodeVarintLoop, if_neg (by simpa using hv)]
      exact setByte_nat d o _ (by omega)
    · intro i hi
      rw [List.getElem?_set_ne (by omega)]
    · intro j hj
      have hj0 : j = 0 := by omega
      subst hj0
      rw [Nat.add_zero, List.getElem?_set_self (by omega)]
      simp
      omega
  | succ k ih =>
    intro v d o hlt hge hlen
    have hge1 : 128 ^ (k + 1) ≤ v := by
      rcases hge with h | h
      · omega
      · exact h
    have hv : 128 ≤ v := le_trans (by
      calc 128 = 128 ^ 1 := by norm_num
        _ ≤ 128 ^ (k + 1) := Nat.pow_le_pow_right (by decide) (by omega)) hge1
    have hdiv_lt : v / 128 < 128 ^ (k + 1) := by
      rw [Nat.div_lt_iff_lt_mul (by decide)]
      rw [pow_succ] at hlt
      exact hlt
    have hdiv_ge : k = 0 ∨ 128 ^ k ≤ v / 128 := by
      right
      rw [Nat.le_div_iff_mul_le (by decide)]
      rw [pow_succ] at hge1
      exact hge1
    obtain ⟨out, hout, hlen1, hkeep, hbytes⟩ :=
      ih (v / 128) (d.set o (v % 128 + 128)) (o + 1) hdiv_lt hdiv_ge (by simp; omega)
    refine ⟨out, ?_, by simpa using hlen1, ?_, ?_⟩
    · rw [encodeVarintLoop, if_pos (by simpa using hv), varint_high_byte,
        setByte_nat d o _ (by omega)]
      simp only
      rw [Nat.shiftRight_eq_div_pow]
      have hcast : ((o : Int) + 1) = ((o + 1 : Nat) : Int) := by push_cast; rfl
      rw [hcast]
      exact hout
    · intro i hi
      rw [hkeep i (by omega), List.getElem?_set_ne (by omega)]
    · intro j hj
      cases j with
      | zero =>
        rw [Nat.add_zero, hkeep o (by omega), List.getElem?_set_self (by omega)]
        simp
      | succ j =>
        have := hbytes j (by omega)
        rw [show o + (j + 1) = o + 1 + j by omega, this, Nat.div_div_eq_div_mul, ← pow_succ']
        simp


theorem or_shiftLeft_eq_add {acc c shift : Nat} (hacc : acc < 2 ^ shift)
    (hc : c * 2 ^ shift < 2 ^ 64) :
    acc ||| (c <<< shift) % 2 ^ 64 = acc + c * 2 ^ shift := by
  rw [Nat.shiftLeft_eq, Nat.mod_eq_of_lt hc, Nat.lor_comm, Nat.mul_comm c,
    ← Nat.mul_add_lt_is_or hacc, Nat.add_comm]

theorem unmarshalVarintLoop_spec : ∀ (k v : Nat) (d : List Nat) (i shift acc : Nat),
    v < 128 ^ (k + 1) →
    (∀ j, j ≤ k → d[i + j]? = some (v / 128 ^ j % 128 + if j < k then 128 else 0)) →
    shift + 7 * k < 64 → acc < 2 ^ shift → acc + v * 2 ^ shift < 2 ^ 64 →
    unmarshalVarintLoop d shift i acc = .ok (acc + v * 2 ^ shift, i + (k + 1)) := by
  intro k
  induction k with
  | zero =>
    intro v d i shift acc hlt hbytes hshift hacc hbound
    have hv : v < 128 := by simpa using hlt
    have hb := hbytes 0 (le_refl 0)
    simp only [Nat.add_zero, pow_zero, Nat.div_one, lt_self_iff_false, if_false] at hb
    rw [Nat.mod_eq_of_lt hv] at hb
    have hi : i < d.length := by
      by_contra hge
      rw [List.getElem?_eq_none (by omega)] at hb
      exact absurd hb (by simp)
    have hget : d.getD i 0 = v := by
      rw [List.getD_eq_getElem?_getD, hb]
      rfl
    have hand : v &&& 0x7F = v := by
      have := Nat.and_pow_two_sub_one_eq_mod v 7
      rw [Nat.mod_eq_of_lt (by simpa using hv)] at this
      exact this
    rw [unmarshalVarintLoop, if_neg (by omega), if_neg (by omega)]
    simp only [hget, hand]
    rw [if_pos (by simpa using hv), or_shiftLeft_eq_add hacc (by omega)]
  | succ k ih =>
    intro v d i shift acc hlt hbytes hshift hacc hbound
    have hb := hbytes 0 (Nat.zero_le _)
    simp only [Nat.add_zero, pow_zero, Nat.div_one, Nat.zero_lt_succ, if_true] at hb
    have hi : i < d.length := by
      by_contra hge
      rw [List.getElem?_eq_none (by omega)] at hb
      exact absurd hb (by simp)
    have hget : d.getD i 0 = v % 128 + 128 := by
      rw [List.getD_eq_getElem?_getD, hb]
      rfl
    have hand : (v % 128 + 128) &&& 0x7F = v % 128 := by
      have := Nat.and_pow_two_sub_one_eq_mod (v % 128 + 128) 7
      rw [this]
      omega
    have hpow : 2 ^ (shift + 7) = 128 * 2 ^ shift := by
      rw [pow_add]
      ring
    have hmod_le : v % 128 * 2 ^ shift ≤ v * 2 ^ shift :=
      Nat.mul_le_mul_right _ (Nat.mod_le _ _)
    have hmod_lt : v % 128 * 2 ^ shift ≤ 127 * 2 ^ shift :=
      Nat.mul_le_mul_right _ (by omega)
    have hsplit : v * 2 ^ shift = v / 128 * (128 * 2 ^ shift) + v % 128 * 2 ^ shift := by
      have hv := Nat.div_add_mod v 128
      calc v * 2 ^ shift = (128 * (v / 128) + v % 128) * 2 ^ shift := by rw [hv]
        _ = v / 128 * (128 * 2 ^ shift) + v % 128 * 2 ^ shift := by ring
    have hrec := ih (v / 128) d (i + 1) (shift + 7) (acc + v % 128 * 2 ^ shift)
      (by
        rw [Nat.div_lt_iff_lt_mul (by decide)]
        rw [pow_succ] at hlt
        exact hlt)
      (by
        intro j hj
        have := hbytes (j + 1) (by omega)
        rw [show i + 1 + j = i + (j + 1) by omega, this, Nat.div_div_eq_div_mul, ← pow_succ']
        simp)
      (by omega)
      (by rw [hpow]; omega)
      (by rw [hpow]; omega)
    rw [unmarshalVarintLoop, if_neg (by omega), if_neg (by omega)]
    simp only [hget, hand]
    rw [if_neg (by omega), or_shiftLeft_eq_add hacc (by omega), hrec, hpow]
    congr 2
    · omega
    · omega


theorem digits_length_of_groups : ∀ (k v : Nat), v ≠ 0 → v < 128 ^ (k + 1) →
    (k = 0 ∨ 128 ^ k ≤ v) → (Nat.digits 128 v).length = k + 1 := by
  intro k
  induction k with
  | zero =>
    intro v h0 hlt _
    have hv : v < 128 := by simpa using hlt
    rw [Nat.digits_of_lt 128 v h0 hv]
    rfl
  | succ k ih =>
    intro v h0 hlt hge
    have hge1 : 128 ^ (k + 1) ≤ v := by
      rcases hge with h | h
      · omega
      · exact h
    have hdiv_ge : 128 ^ k ≤ v / 128 := by
      rw [Nat.le_div_iff_mul_le (by decide)]
      rw [pow_succ] at hge1
      exact hge1
    have hdiv_ne : v / 128 ≠ 0 := by
      have : 0 < 128 ^ k := Nat.pow_pos (by decide)
      omega
    have hdiv_lt : v / 128 < 128 ^ (k + 1) := by
      rw [Nat.div_lt_iff_lt_mul (by decide)]
      rw [pow_succ] at hlt
      exact hlt
    rw [Nat.digits_def' (by decide) (Nat.pos_of_ne_zero h0), List.length_cons,
      ih (v / 128) hdiv_ne hdiv_lt (Or.inr hdiv_ge)]

/-- C28: for a 64-bit `v` and a buffer position `offset` with at least `sovGenesis v`
bytes before it, `encodeVarintGenesis` returns `offset - sovGenesis v`, keeps the length
of the buffer and every byte outside `[offset - sovGenesis v, offset)`, and writes there
the 7-bit groups of `v`, least significant first, each but the last with the high bit
set; `sovGenesis v` lies between 1 and 10 and is the number of base-128 digits of `v`
(1 for `v = 0`); and the varint loop of `Unmarshal`, started at the returned position,
reads `v` and stops at `offset`. -/
theorem encodeVarintGenesis_roundtrip (dAtA : List Nat) (offset v : Nat)
    (hv : v < 2 ^ 64) (hlo : sovGenesis v ≤ offset) (hhi : offset ≤ dAtA.length) :
    ∃ out, encodeVarintGenesis dAtA (offset : Int) v =
        .ret (out, ((offset - sovGenesis v : Nat) : Int)) ∧
      out.length = dAtA.length ∧
      (∀ i, i < offset - sovGenesis v ∨ offset ≤ i → out[i]? = dAtA[i]?) ∧
      (∀ j, j < sovGenesis v →
        out[offset - sovGenesis v + j]? =
          some (v / 128 ^ j % 128 + if j + 1 < sovGenesis v then 128 else 0)) ∧
      1 ≤ sovGenesis v ∧ sovGenesis v ≤ 10 ∧
      sovGenesis v = (if v = 0 then 1 else (Nat.digits 128 v).length) ∧
      unmarshalLastGaugeId out (offset - sovGenesis v) = .ok (v, offset) := by
  obtain ⟨k, hk, hlt, hge⟩ := sovGenesis_groups hv
  have hten := sovGenesis_le_ten hv
  obtain ⟨out, hout, hlen, hkeep, hbytes⟩ :=
    encodeVarintLoop_spec k v dAtA (offset - sovGenesis v) hlt hge (by omega)
  have hbytes1 : ∀ j, j ≤ k →
      out[offset - sovGenesis v + j]? = some (v / 128 ^ j % 128 + if j < k then 128 else 0) :=
    hbytes
  refine ⟨out, ?_, hlen, ?_, ?_, sovGenesis_pos v, hten, ?_, ?_⟩
  · unfold encodeVarintGenesis
    have hcast : ((offset : Int) - (sovGenesis v : Int)) = ((offset - sovGenesis v : Nat) : Int) := by
      omega
    simp only [hcast, hout]
  · intro i hi
    exact hkeep i (by omega)
  · intro j hj
    rw [hbytes1 j (by omega), hk]
    simp
  · by_cases h0 : v = 0
    · rw [if_pos h0]
      subst h0
      decide
    · rw [if_neg h0, hk, digits_length_of_groups k v h0 hlt hge]
  · unfold unmarshalLastGaugeId
    have := unmarshalVarintLoop_spec k v out (offset - sovGenesis v) 0 0 hlt hbytes1
      (by omega) (by decide) (by simpa using hv)
    rw [this]
    simp
    omega

theorem encodeVarintGenesis_roundtrip_witness :
    (300 < 2 ^ 64 ∧ sovGenesis 300 ≤ 3 ∧ 3 ≤ [7, 0, 0, 9].length) ∧
    ∃ out, encodeVarintGenesis [7, 0, 0, 9] ((3 : Nat) : Int) 300 =
        .ret (out, ((3 - sovGenesis 300 : Nat) : Int)) ∧
      out.length = [7, 0, 0, 9].length ∧
      (∀ i, i < 3 - sovGenesis 300 ∨ 3 ≤ i → out[i]? = [7, 0, 0, 9][i]?) ∧
      (∀ j, j < sovGenesis 300 →
        out[3 - sovGenesis 300 + j]? =
          some (300 / 128 ^ j % 128 + if j + 1 < sovGenesis 300 then 128 else 0)) ∧
      1 ≤ sovGenesis 300 ∧ sovGenesis 300 ≤ 10 ∧
      sovGenesis 300 = (if 300 = 0 then 1 else (Nat.digits 128 300).length) ∧
      unmarshalLastGaugeId out (3 - sovGenesis 300) = .ok (300, 3) :=
  ⟨⟨by decide, by decide, by decide⟩,
   encodeVarintGenesis_roundtrip [7, 0, 0, 9] 3 300 (by decide) (by decide) (by decide)⟩

theorem encodeVarintGenesis_sample :
    encodeVarintGenesis [7, 0, 0, 9] 3 300 = .ret ([7, 172, 2, 9], 1) ∧
    unmarshalLastGaugeId [7, 172, 2, 9] 1 = .ok (300, 3) ∧
    encodeVarintGenesis [7, 0, 0, 9] 1 300 = .panic := by
  refine ⟨?_, ?_, ?_⟩
  · simp [encodeVarintGenesis, encodeVarintLoop, setByte, sovGenesis, Len64, lenBits]
    decide
  · simp [unmarshalLastGaugeId, unmarshalVarintLoop]
    decide
  · simp [encodeVarintGenesis, encodeVarintLoop, setByte, sovGenesis, Len64, lenBits]

end Dymension
